import Mathlib

/-!
Advanced Tab Groups: colour aggregation, persistent store, group registry, rename session and
shared context menu.

A shallow embedding of `src/mods/advanced-tab-groups/advanced-tab-groups.uc.js`.

* Numbers are the non-negative integers the code works on (pixel bytes, sums of bytes,
  counters); `Math.round (n / d)` on such numbers is `mathRound n d`.
* A plain JavaScript object used as a dictionary is an association list of its own
  string-keyed properties (`Obj`); its keys are ordinary property names.
* The text held by a storage resource is described by what `JSON.parse` makes of it
  (`Content`): a flat JSON object with string values, the empty string, or text that is not
  JSON.
* Every `async` method is run to completion as one step; storage writes succeed.
* For the registry, the rename session and the menu a `tab-group` element is named by its
  position in the list of groups; fields that only record calls are said to do so.
-/

namespace AdvancedTabGroups

/-! ## Numbers and colours -/

/-- JavaScript `Math.round (n / d)` for non-negative integers `n` and `d > 0`:
the nearest integer to the quotient, a tie going up. -/
def mathRound (n d : Nat) : Nat := (2 * n + d) / (2 * d)

/-- A colour as the code holds it: the three-element array `[r, g, b]`. -/
structure RGB where
  r : Nat
  g : Nat
  b : Nat
deriving DecidableEq, Repr

/-- Source lines 1413-1432, `_calculateAverageColor(colors)`: an empty list gives `[0, 0, 0]`;
otherwise `reduce` adds the channels up from `[0, 0, 0]` and each total is divided by
`colors.length` and rounded. -/
def _calculateAverageColor (colors : List RGB) : RGB :=
  if colors.length = 0 then { r := 0, g := 0, b := 0 }
  else
    let total := colors.foldl
      (fun acc color => { r := acc.r + color.r, g := acc.g + color.g, b := acc.b + color.b })
      ({ r := 0, g := 0, b := 0 } : RGB)
    { r := mathRound total.r colors.length
      g := mathRound total.g colors.length
      b := mathRound total.b colors.length }

/-- The accumulator state of the pixel loop of `img.onload` (source lines 1018-1021). -/
structure PixelAcc where
  r : Nat
  g : Nat
  b : Nat
  count : Nat
deriving DecidableEq, Repr

/-- Source lines 1022-1033: the loop `for (let i = 0; i < data.length; i += 4)` over the RGBA
bytes. A pixel is added when `data[i + 3] > 128` and `data[i] + data[i + 1] + data[i + 2] > 30`.
A trailing group of fewer than four bytes has `data[i + 3]` undefined, so the test fails. -/
def pixelLoop : List Nat → PixelAcc → PixelAcc
  | r :: g :: b :: a :: rest, acc =>
    if a > 128 ∧ r + g + b > 30 then
      pixelLoop rest { r := acc.r + r, g := acc.g + g, b := acc.b + b, count := acc.count + 1 }
    else pixelLoop rest acc
  | _, acc => acc

/-- Source lines 1017-1053: the sample of one decoded favicon. `some avgColor` is the array
pushed onto `colors`; `none` is the branch "No valid pixels found". -/
def extractSample (data : List Nat) : Option RGB :=
  let acc := pixelLoop data { r := 0, g := 0, b := 0, count := 0 }
  if acc.count > 0 then
    some { r := mathRound acc.r acc.count
           g := mathRound acc.g acc.count
           b := mathRound acc.b acc.count }
  else none

/-- The template literal of source line 1061: the text `rgb(R, G, B)`. -/
def colorString (c : RGB) : String :=
  "rgb(" ++ toString c.r ++ ", " ++ toString c.g ++ ", " ++ toString c.b ++ ")"

/-! ## Dictionaries and stored text -/

/-- The value a key is bound to in an association list; the first binding counts. -/
def assocGet {β : Type} (k : String) : List (String × β) → Option β
  | [] => none
  | (k', v) :: rest => if k' = k then some v else assocGet k rest

/-- Assignment `o[k] = v`: an existing binding of `k` is replaced where it stands, a new key is
added at the end. -/
def assocSet {β : Type} (k : String) (v : β) : List (String × β) → List (String × β)
  | [] => [(k, v)]
  | (k', v') :: rest => if k' = k then (k, v) :: rest else (k', v') :: assocSet k v rest

/-- Removal `delete o[k]`: every binding of `k` goes, nothing happens when there is none. -/
def assocDelete {β : Type} (k : String) : List (String × β) → List (String × β)
  | [] => []
  | (k', v') :: rest => if k' = k then assocDelete k rest else (k', v') :: assocDelete k rest

/-- A plain object used as a dictionary from group id to a colour or icon string. -/
abbrev Obj := List (String × String)

/-- The errors a `try` block of the stored-data methods can see. -/
inductive JsError where
  | syntaxError
  | typeError
deriving DecidableEq, Repr

/-- The text of a storage resource, described by what `JSON.parse` makes of it.
`json indent value` is the text `JSON.stringify` writes for the object `value` with that
indentation, `empty` is the empty string, `malformed` is any other text that is not JSON. -/
inductive Content where
  | json (indent : Nat) (value : Obj)
  | empty
  | malformed
deriving DecidableEq, Repr

/-- The built-in `JSON.parse`: a `SyntaxError` on text that is not JSON. -/
def jsonParse : Content → Except JsError Obj
  | .json _ value => .ok value
  | .empty => .error .syntaxError
  | .malformed => .error .syntaxError

/-- The built-in `JSON.stringify (value, null, indent)`. -/
def jsonStringify (value : Obj) (indent : Nat) : Content := .json indent value

/-- Truthiness of a string: only the empty string is falsy. -/
def truthy : Content → Bool
  | .empty => false
  | _ => true

/-- The statement `try body catch (e) handler`. -/
def tryCatch {α : Type} (body : Except JsError α) (handler : JsError → Except JsError α) :
    Except JsError α :=
  match body with
  | .ok a => .ok a
  | .error e => handler e

/-- The storage the host offers. `fileSystem` is the test
`typeof UC_API !== "undefined" && UC_API.FileSystem`; `files` maps a file name to its text and
`localStorage` a key to its text. -/
structure Host where
  fileSystem : Bool
  files : List (String × Content)
  localStorage : List (String × Content)
deriving DecidableEq, Repr

/-- The call `UC_API.FileSystem.readFile (name)`: `some text` when `fsResult.isContent ()`. -/
def readFile (h : Host) (name : String) : Option Content := assocGet name h.files

/-- The call `UC_API.FileSystem.writeFile (name, text)`. -/
def writeFile (h : Host) (name : String) (text : Content) : Host :=
  { h with files := assocSet name text h.files }

/-- The call `localStorage.getItem (key)`: `none` is `null`. -/
def getItem (h : Host) (key : String) : Option Content := assocGet key h.localStorage

/-- The call `localStorage.setItem (key, text)`. -/
def setItem (h : Host) (key : String) (text : Content) : Host :=
  { h with localStorage := assocSet key text h.localStorage }

/-! ## Tab groups of the document -/

/-- What the stored-data methods read and write of a `tab-group` element. `tabGroupColor` and
`tabGroupColorInvert` are the style properties `--tab-group-color` and
`--tab-group-color-invert` (the empty string when unset); `iconElement` is `none` when the
icon container has no `.tab-group-icon` child, otherwise the `src` of the image it holds. -/
structure TabGroup where
  id : String
  splitViewGroup : Bool
  tabGroupColor : String
  tabGroupColorInvert : String
  hasIconContainer : Bool
  iconElement : Option (Option String)
deriving DecidableEq, Repr

/-- The two `group.style.setProperty` calls that assign a colour (source lines 1064-1068 and
1660-1661). -/
def setTabGroupColor (color : String) (group : TabGroup) : TabGroup :=
  { group with tabGroupColor := color, tabGroupColorInvert := color }

/-- Source lines 1562-1573 and 1584-1593: the object `colors` built from
`document.querySelectorAll ("tab-group")`. -/
def collectColors (groups : List TabGroup) : Obj :=
  groups.foldl
    (fun colors group =>
      if group.id ≠ "" ∧ group.splitViewGroup = false then
        if group.tabGroupColor ≠ "" then assocSet group.id group.tabGroupColor colors
        else colors
      else colors)
    []

/-- Source lines 1558-1609, `saveTabGroupColors ()`. -/
def saveTabGroupColors (h : Host) (groups : List TabGroup) : Host :=
  if h.fileSystem then
    writeFile h "tab_group_colors.json" (jsonStringify (collectColors groups) 2)
  else
    setItem h "advancedTabGroups_colors" (jsonStringify (collectColors groups) 0)

/-- Source lines 1611-1652, `loadSavedColors ()`. The result `some colors` is the timer that
will call `applySavedColors (colors)`; `none` means no timer is set. -/
def loadSavedColors (h : Host) : Except JsError (Option Obj) :=
  tryCatch
    (do
      let colors ←
        if h.fileSystem then
          tryCatch
            (match readFile h "tab_group_colors.json" with
             | some text => jsonParse text
             | none => pure [])
            (fun _ => pure [])
        else
          match getItem h "advancedTabGroups_colors" with
          | some savedColors => if truthy savedColors then jsonParse savedColors else pure []
          | none => pure []
      if colors.length > 0 then pure (some colors) else pure none)
    (fun _ => pure none)

/-- The element `document.getElementById (groupId)` among the tab groups, changed by `f`. -/
def updateElementById (groupId : String) (f : TabGroup → TabGroup) :
    List TabGroup → List TabGroup
  | [] => []
  | g :: rest =>
    if g.id = groupId then f g :: rest else g :: updateElementById groupId f rest

/-- Source lines 1654-1672, `applySavedColors (colors)`. -/
def applySavedColors (colors : Obj) (groups : List TabGroup) : List TabGroup :=
  colors.foldl
    (fun doc entry =>
      if entry.1 = "" then doc
      else
        updateElementById entry.1
          (fun group => if group.splitViewGroup = false then setTabGroupColor entry.2 group
            else group)
          doc)
    groups

/-- Source lines 1674-1722, `removeSavedColor (groupId)`. -/
def removeSavedColor (h : Host) (groupId : String) : Except JsError Host :=
  tryCatch
    (if h.fileSystem then
      tryCatch
        (match readFile h "tab_group_colors.json" with
         | some text => do
           let colors ← jsonParse text
           pure (writeFile h "tab_group_colors.json"
             (jsonStringify (assocDelete groupId colors) 2))
         | none => pure h)
        (fun _ => pure h)
    else
      match getItem h "advancedTabGroups_colors" with
      | some savedColors =>
        if truthy savedColors then do
          let colors ← jsonParse savedColors
          pure (setItem h "advancedTabGroups_colors"
            (jsonStringify (assocDelete groupId colors) 0))
        else pure h
      | none => pure h)
    (fun _ => pure h)

/-- Source lines 1724-1765, `saveGroupIcon (groupId, iconUrl)`. -/
def saveGroupIcon (h : Host) (groupId iconUrl : String) : Except JsError Host :=
  tryCatch
    (if h.fileSystem then do
      let icons ←
        tryCatch
          (match readFile h "tab_group_icons.json" with
           | some text => jsonParse text
           | none => pure [])
          (fun _ => pure [])
      pure (writeFile h "tab_group_icons.json"
        (jsonStringify (assocSet groupId iconUrl icons) 2))
    else do
      let icons ←
        match getItem h "advancedTabGroups_icons" with
        | some savedIcons => if truthy savedIcons then jsonParse savedIcons else pure []
        | none => pure []
      pure (setItem h "advancedTabGroups_icons"
        (jsonStringify (assocSet groupId iconUrl icons) 0)))
    (fun _ => pure h)

/-- Source lines 1767-1805, `loadGroupIcons ()`. The result `some icons` is the timer that
will call `applySavedIcons (icons)`. -/
def loadGroupIcons (h : Host) : Except JsError (Option Obj) :=
  tryCatch
    (do
      let icons ←
        if h.fileSystem then
          tryCatch
            (match readFile h "tab_group_icons.json" with
             | some text => jsonParse text
             | none => pure [])
            (fun _ => pure [])
        else
          match getItem h "advancedTabGroups_icons" with
          | some savedIcons => if truthy savedIcons then jsonParse savedIcons else pure []
          | none => pure []
      if icons.length > 0 then pure (some icons) else pure none)
    (fun _ => pure none)

/-- Source lines 1807-1842, `applySavedIcons (icons)`. -/
def applySavedIcons (icons : Obj) (groups : List TabGroup) : List TabGroup :=
  icons.foldl
    (fun doc entry =>
      if entry.1 = "" then doc
      else
        updateElementById entry.1
          (fun group =>
            if group.splitViewGroup = false ∧ group.hasIconContainer = true then
              { group with iconElement := some (some entry.2) }
            else group)
          doc)
    groups

/-- Source lines 1844-1889, `removeSavedIcon (groupId)`. -/
def removeSavedIcon (h : Host) (groupId : String) : Except JsError Host :=
  tryCatch
    (if h.fileSystem then
      tryCatch
        (match readFile h "tab_group_icons.json" with
         | some text => do
           let icons ← jsonParse text
           pure (writeFile h "tab_group_icons.json"
             (jsonStringify (assocDelete groupId icons) 2))
         | none => pure h)
        (fun _ => pure h)
    else
      match getItem h "advancedTabGroups_icons" with
      | some savedIcons =>
        if truthy savedIcons then do
          let icons ← jsonParse savedIcons
          pure (setItem h "advancedTabGroups_icons"
            (jsonStringify (assocDelete groupId icons) 0))
        else pure h
      | none => pure h)
    (fun _ => pure h)

/-- The timer set by `loadSavedColors` run against the tab groups of the document. -/
def restoreColors (h : Host) (groups : List TabGroup) : Except JsError (List TabGroup) :=
  match loadSavedColors h with
  | .ok (some colors) => .ok (applySavedColors colors groups)
  | .ok none => .ok groups
  | .error e => .error e

/-- The timer set by `loadGroupIcons` run against the tab groups of the document. -/
def restoreIcons (h : Host) (groups : List TabGroup) : Except JsError (List TabGroup) :=
  match loadGroupIcons h with
  | .ok (some icons) => .ok (applySavedIcons icons groups)
  | .ok none => .ok groups
  | .error e => .error e

/-! ## Favicon colour aggregation -/

/-- What `group._useFaviconColor` can reach: the storage, the element `group` the closure holds,
whether that element is still in the document, and the other `tab-group` elements of the
document before and after it. -/
structure World where
  host : Host
  group : TabGroup
  connected : Bool
  before : List TabGroup
  after : List TabGroup
deriving DecidableEq, Repr

/-- The node list `document.querySelectorAll ("tab-group")`. -/
def World.tabGroups (w : World) : List TabGroup :=
  if w.connected then w.before ++ w.group :: w.after else w.before ++ w.after

/-- The variables one call of `group._useFaviconColor` shares between its callbacks
(source lines 983-985). `applied` is not in the source: it records, for every run of the block
that sets the colour and calls `saveTabGroupColors`, the value of `processedCount` at that
moment. -/
structure Job where
  colors : List RGB
  processedCount : Nat
  totalFavicons : Nat
  applied : List Nat
deriving DecidableEq, Repr

/-- An element of `querySelectorAll (".tab-icon-image")`; an absent `src` is the empty string. -/
structure Favicon where
  src : String
deriving DecidableEq, Repr

/-- What becomes of an `Image` whose `src` was set. `loaded (some data)` is a `load` event
whose canvas read gives the RGBA bytes `data`, `loaded none` is a `load` event on which
`drawImage` or `getImageData` throws, `failed` is an `error` event. -/
inductive ImageEvent where
  | loaded (data : Option (List Nat))
  | failed
deriving DecidableEq, Repr

/-- The block repeated at source lines 1060-1080, 1098-1116, 1132-1150 and 1161-1176: average
the samples, set both style properties of the group, call `saveTabGroupColors`. -/
def applyAverage (s : Job × World) : Job × World :=
  let finalColor := _calculateAverageColor s.1.colors
  let group := setTabGroupColor (colorString finalColor) s.2.group
  let w : World := { s.2 with group := group }
  ({ s.1 with applied := s.1.applied ++ [s.1.processedCount] },
   { w with host := saveTabGroupColors w.host w.tabGroups })

/-- The tail shared by the `catch` block of `onload`, by `onerror` and by the branch for a
favicon without `src`: `processedCount++`, then the block above when
`processedCount === totalFavicons && colors.length > 0`. -/
def countFailure (s : Job × World) : Job × World :=
  let job := { s.1 with processedCount := s.1.processedCount + 1 }
  if job.processedCount = job.totalFavicons ∧ job.colors.length > 0 then applyAverage (job, s.2)
  else (job, s.2)

/-- Source lines 1003-1119, `img.onload`. -/
def onload (data : Option (List Nat)) (s : Job × World) : Job × World :=
  match data with
  | some bytes =>
    let job :=
      match extractSample bytes with
      | some avgColor => { s.1 with colors := s.1.colors ++ [avgColor] }
      | none => s.1
    let job := { job with processedCount := job.processedCount + 1 }
    if job.processedCount = job.totalFavicons then
      if job.colors.length > 0 then applyAverage (job, s.2) else (job, s.2)
    else (job, s.2)
  | none => countFailure s

/-- Source lines 1121-1152, `img.onerror`. -/
def onerror (s : Job × World) : Job × World := countFailure s

/-- One image event handled by the callback registered for it. -/
def handleEvent (s : Job × World) : ImageEvent → Job × World
  | .loaded data => onload data s
  | .failed => onerror s

/-- Source lines 987-1179, the body of `favicons.forEach`: an image load is started for a
favicon with a `src`, a favicon without one is counted at once (lines 1155-1178). -/
def forEachFavicon (s : Job × World) (favicon : Favicon) : Job × World :=
  if favicon.src ≠ "" then s else countFailure s

/-- Source lines 962-1190, `group._useFaviconColor ()` up to its return: `none` when the group
has no favicon, otherwise the job after the synchronous `forEach`. -/
def _useFaviconColor (favicons : List Favicon) (w : World) : Option (Job × World) :=
  if favicons.length = 0 then none
  else
    some (favicons.foldl forEachFavicon
      ({ colors := [], processedCount := 0, totalFavicons := favicons.length, applied := [] }, w))

/-- A call of `group._useFaviconColor` followed by the image events that arrive, in their order
of arrival. No other handler runs in between. -/
def runFaviconColor (favicons : List Favicon) (events : List ImageEvent) (w : World) :
    Job × World :=
  match _useFaviconColor favicons w with
  | none => ({ colors := [], processedCount := 0, totalFavicons := 0, applied := [] }, w)
  | some s => events.foldl handleEvent s

/-- The sample an image event contributes, if any. -/
def ImageEvent.sample : ImageEvent → Option RGB
  | .loaded (some data) => extractSample data
  | _ => none

/-- The number of image loads `forEach` starts: the favicons that have a `src`. -/
def pendingImages (favicons : List Favicon) : Nat :=
  (favicons.filter (fun f => decide (f.src ≠ ""))).length

/-- A pixel as four consecutive bytes of `ImageData.data`. -/
structure Pixel where
  r : Nat
  g : Nat
  b : Nat
  a : Nat
deriving DecidableEq, Repr

/-- The byte array `ImageData.data` of a list of pixels. -/
def rgbaBytes : List Pixel → List Nat
  | [] => []
  | p :: ps => p.r :: p.g :: p.b :: p.a :: rgbaBytes ps

/-- The filter of the pixel loop written on pixels: opaque enough and not near-black. -/
def keptPixels (ps : List Pixel) : List Pixel :=
  ps.filter (fun p => decide (128 < p.a ∧ 30 < p.r + p.g + p.b))

/-! ## Reading the store back -/

/-- The text the backend in use holds for the colours: the file `tab_group_colors.json` or the
`localStorage` key `advancedTabGroups_colors`, the resource every colour method reads. -/
def storedColors (h : Host) : Option Content :=
  if h.fileSystem then readFile h "tab_group_colors.json"
  else getItem h "advancedTabGroups_colors"

/-- The text the backend in use holds for the icons: the file `tab_group_icons.json` or the
`localStorage` key `advancedTabGroups_icons`. -/
def storedIcons (h : Host) : Option Content :=
  if h.fileSystem then readFile h "tab_group_icons.json"
  else getItem h "advancedTabGroups_icons"

/-- The test `saveTabGroupColors` applies to a group before recording its colour. -/
def savesColor (g : TabGroup) : Prop :=
  g.id ≠ "" ∧ g.splitViewGroup = false ∧ g.tabGroupColor ≠ ""

instance (g : TabGroup) : Decidable (savesColor g) := by
  unfold savesColor
  infer_instance

/-- The colour of the last group with id `k` that passes the test of `saveTabGroupColors`. -/
def lastColor (k : String) (groups : List TabGroup) (start : Option String) : Option String :=
  groups.foldl (fun o g => if savesColor g ∧ g.id = k then some g.tabGroupColor else o) start

/-! ## Concrete inputs -/

/-- A live group with an id of its own and the colour `blue`. -/
def exampleGroup : TabGroup :=
  { id := "g1", splitViewGroup := false, tabGroupColor := "blue", tabGroupColorInvert := "blue",
    hasIconContainer := true, iconElement := none }

/-- A host with the file backend, both files holding one record of a group `old`. -/
def exampleFileHost : Host :=
  { fileSystem := true
    files := [("tab_group_colors.json", .json 2 [("old", "red")]),
              ("tab_group_icons.json", .json 2 [("old", "star.svg")])]
    localStorage := [] }

/-- A host without the file backend, whose `localStorage` holds one colour record and an
icons text that is not JSON. -/
def exampleLocalHost : Host :=
  { fileSystem := false
    files := []
    localStorage := [("advancedTabGroups_colors", .json 0 [("old", "red")]),
                     ("advancedTabGroups_icons", .malformed)] }

/-- The example group alone in a document, over the file backend. -/
def exampleWorld : World :=
  { host := exampleFileHost, group := exampleGroup, connected := true, before := [], after := [] }

/-- Three favicons, the second without `src`. -/
def exampleFavicons : List Favicon := [{ src := "a.png" }, { src := "" }, { src := "b.png" }]

/-- One image fails to load, the other decodes to a single opaque pixel. -/
def exampleEvents : List ImageEvent := [.failed, .loaded (some [200, 100, 50, 255])]

/-! ## Groups, rename session and shared menu -/

/-- What the registry, the rename session and the shared menu read and write of one `tab-group`
element. The first four fields are `hasAttribute ("split-view-group")`,
`hasAttribute ("zen-folder")`, `classList.contains ("zen-folder")` and
`hasAttribute ("data-close-button-added")`. `hasLabelContainer` and `hasLabelElement` say
whether `.tab-group-label-container` and `.tab-group-label` are found; `label` is
`group.label` (the empty string also stands for an absent label), `labelText` the text of
the label element, `defaultGroupName` the property of that name when the group has it. The
four counters are the numbers of `.tab-group-icon-container`, `.group-stash-button` and
`.tab-close-button` children of the label container and of `contextmenu` listeners on it.
`contextMenuAdded` is `group._contextMenuAdded`; `contextMethods` says that
`group._setGroupColor` and `group._useFaviconColor` are functions, `hasUngroupTabs` that
`group.ungroupTabs` is one. `editorModeCreate` is the class `tab-group-editor-mode-create`,
`labelEditing` the class `tab-group-label-editing` of the label element and `labelHidden`
its style `display: none`. -/
structure GroupNode where
  splitViewGroup : Bool
  zenFolderAttr : Bool
  zenFolderClass : Bool
  closeButtonAdded : Bool
  hasLabelContainer : Bool
  hasLabelElement : Bool
  label : String
  labelText : String
  defaultGroupName : Option String
  iconContainers : Nat
  stashButtons : Nat
  closeButtons : Nat
  contextMenuListeners : Nat
  contextMenuAdded : Bool
  contextMethods : Bool
  hasUngroupTabs : Bool
  editorModeCreate : Bool
  labelEditing : Bool
  labelHidden : Bool
deriving DecidableEq, Repr

/-- Where `document.activeElement` is: on the rename input or on any other element. -/
inductive Focus where
  | input
  | elsewhere
deriving DecidableEq, Repr

/-- The items of the shared context menu (source lines 324-341). -/
inductive MenuCommand where
  | setGroupColor
  | useFaviconColor
  | renameGroup
  | changeGroupIcon
  | ungroupTabs
  | convertGroupToFolder
deriving DecidableEq, Repr

/-- The state the registry, the rename session and the shared menu work on. An element is named
by its position in `groups`. `groupEdited` is `this._groupEdited`, the label element of the
group at that position; `renamingGroup` is the attribute `zen-renaming-group` of the document
element; `input` is the value of the element `#tab-label-input` when there is one.
`sharedContextMenu` says that `this._sharedContextMenu` is set, `menusCreated` counts the
`menupopup` elements appended to the body, `contextMenuCurrentGroup` is
`this._contextMenuCurrentGroup`. `timers` lists the groups for which
`setTimeout (() => group._useFaviconColor (), 300)` was called. Three fields are not in the
source and only record calls: `renameStarts` (group and `selectAll` of every
`renameGroupStart` that created an input), `aggregations` (every call of
`group._useFaviconColor`) and `actions` (every action a menu command applied, with its
group). -/
structure App where
  groups : List GroupNode
  groupEdited : Option Nat
  renamingGroup : Bool
  input : Option String
  activeElement : Focus
  sharedContextMenu : Bool
  menusCreated : Nat
  contextMenuCurrentGroup : Option Nat
  timers : List Nat
  renameStarts : List (Nat × Bool)
  aggregations : List Nat
  actions : List (MenuCommand × Nat)
deriving DecidableEq, Repr

/-- A change `f` made to the element at position `i`. -/
def modifyGroup (f : GroupNode → GroupNode) : Nat → List GroupNode → List GroupNode
  | _, [] => []
  | 0, g :: rest => f g :: rest
  | i + 1, g :: rest => g :: modifyGroup f i rest

/-- The white space and line terminator characters that `String.prototype.trim` removes. -/
def isJsWhiteSpace (c : Char) : Bool :=
  c.toNat ∈ [0x9, 0xA, 0xB, 0xC, 0xD, 0x20, 0xA0, 0x1680, 0x2028, 0x2029, 0x202F, 0x205F, 0x3000,
    0xFEFF] || (0x2000 ≤ c.toNat && c.toNat ≤ 0x200A)

/-- The built-in `String.prototype.trim`. -/
def jsTrim (s : String) : String :=
  String.mk ((s.toList.dropWhile isJsWhiteSpace).reverse.dropWhile isJsWhiteSpace).reverse

/-- The keys `renameGroupKeydown` tells apart. -/
inductive Key where
  | enter
  | escape
  | other
deriving DecidableEq, Repr

/-- Source lines 170-200, `renameGroupStart (group, selectAll)`. -/
def renameGroupStart (s : App) (i : Nat) (selectAll : Bool) : App :=
  if s.groupEdited.isSome then s
  else
    match s.groups[i]? with
    | none => s
    | some group =>
      if group.hasLabelElement = false then s
      else
        { s with
          groupEdited := some i
          renamingGroup := true
          groups :=
            modifyGroup (fun g => { g with labelEditing := true, labelHidden := true }) i s.groups
          input := some (if group.label ≠ "" then group.label else group.labelText)
          activeElement := .input
          renameStarts := s.renameStarts ++ [(i, selectAll)] }

/-- Source lines 202-212, `renameGroupHalt (event)`, for a `blur` event of the rename input. -/
def renameGroupHalt (s : App) : App :=
  if s.activeElement = .input ∨ s.groupEdited = none then s
  else
    match s.groupEdited with
    | none => s
    | some i =>
      { s with
        renamingGroup := false
        input := none
        groups :=
          modifyGroup (fun g => { g with labelEditing := false, labelHidden := false }) i s.groups
        groupEdited := none }

/-- A `blur` event of the rename input, `document.activeElement` being `active` when the
listener runs. -/
def onInputBlur (s : App) (active : Focus) : App :=
  renameGroupHalt { s with activeElement := active }

/-- The call `event.target.blur ()` on the rename input: when the input has the focus, the
focus leaves it and the `blur` listener runs. -/
def blurInput (s : App) : App :=
  if s.activeElement = .input then onInputBlur s .elsewhere else s

/-- Source lines 148-168, `renameGroupKeydown (event)`, for a `keydown` event of the rename
input. The second component is the exception that leaves the listener, if any: `input.value`
with no input in the document, or `label.classList` with `_groupEdited` unset. -/
def renameGroupKeydown (s : App) (key : Key) : App × Option JsError :=
  match key with
  | .enter =>
    match s.input with
    | none => (s, some .typeError)
    | some value =>
      let newName := jsTrim value
      let s₁ := { s with renamingGroup := false, input := none, activeElement := .elsewhere }
      match s.groupEdited with
      | none => (s₁, some .typeError)
      | some i =>
        let groups :=
          if newName ≠ "" then
            match s₁.groups[i]? with
            | some group =>
              if newName ≠ group.label then
                modifyGroup (fun g => { g with label := newName }) i s₁.groups
              else s₁.groups
            | none => s₁.groups
          else s₁.groups
        ({ s₁ with
           groups :=
             modifyGroup (fun g => { g with labelEditing := false, labelHidden := false }) i
               groups
           groupEdited := none }, none)
  | .escape => (blurInput s, none)
  | .other => (s, none)

/-- Source lines 320-417, `ensureSharedContextMenu ()`. -/
def ensureSharedContextMenu (s : App) : App :=
  if s.sharedContextMenu then s
  else
    { s with
      menusCreated := s.menusCreated + 1
      contextMenuCurrentGroup := none
      sharedContextMenu := true }

/-- Source lines 508-532 and the method definitions that follow, `addContextMenu (group)`. -/
def addContextMenu (s : App) (i : Nat) : App :=
  match s.groups[i]? with
  | none => s
  | some group =>
    if group.contextMenuAdded then s
    else
      let s₁ := ensureSharedContextMenu s
      { s₁ with
        groups :=
          modifyGroup
            (fun g =>
              { g with
                contextMenuAdded := true
                contextMenuListeners :=
                  if g.hasLabelContainer then g.contextMenuListeners + 1
                  else g.contextMenuListeners
                contextMethods := true })
            i s₁.groups }

/-- The test of source lines 298-302 and 491-495: no label, or the default label. -/
def isNewGroup (group : GroupNode) : Bool :=
  group.label = "" || group.defaultGroupName = some group.label

/-- Source lines 245-263 and 295: the icon container, the stash button and the close button
injected into the label container, and the class `tab-group-editor-mode-create` removed. -/
def injectAffordances (g : GroupNode) : GroupNode :=
  { g with
    iconContainers := g.iconContainers + 1
    stashButtons := g.stashButtons + 1
    closeButtons := g.closeButtons + 1
    editorModeCreate := false }

/-- A call `group._useFaviconColor ()` on group `i`, recorded. -/
def callUseFaviconColor (s : App) (i : Nat) : App :=
  { s with aggregations := s.aggregations ++ [i] }

/-- Source lines 214-318, `processGroup (group)`. -/
def processGroup (s : App) (i : Nat) : App :=
  match s.groups[i]? with
  | none => s
  | some group =>
    if group.closeButtonAdded ∨ group.zenFolderClass ∨ group.zenFolderAttr ∨
        group.splitViewGroup then s
    else if group.hasLabelContainer = false then s
    else if group.closeButtons > 0 then s
    else
      let s₁ := { s with groups := modifyGroup injectAffordances i s.groups }
      let s₂ :=
        if isNewGroup group then
          let s₃ := renameGroupStart s₁ i false
          if group.contextMethods then callUseFaviconColor s₃ i else s₃
        else s₁
      addContextMenu s₂ i

/-- Source lines 129-142, `processExistingGroups ()`. -/
def processExistingGroups (s : App) : App :=
  (List.range s.groups.length).foldl
    (fun s i =>
      match s.groups[i]? with
      | some group => if group.splitViewGroup = false then processGroup s i else s
      | none => s)
    s

/-- Source lines 55-96, the mutation observer, for one added `tab-group` element. -/
def onGroupAdded (s : App) (i : Nat) : App :=
  match s.groups[i]? with
  | some group => if group.splitViewGroup = false then processGroup s i else s
  | none => s

/-- Source lines 490-502, the end of `onTabGroupCreate`: for a new group, start the rename
when no session is active and set the timer that will call `group._useFaviconColor`. -/
def autoStartNewGroup (s : App) (i : Nat) : App :=
  match s.groups[i]? with
  | none => s
  | some group =>
    if isNewGroup group then
      let s₁ := if s.groupEdited = none then renameGroupStart s i false else s
      if group.contextMethods then { s₁ with timers := s₁.timers ++ [i] } else s₁
    else s

/-- Source lines 468-506, `onTabGroupCreate (event)`, `target` being the `tab-group` the event
target resolves to, if any. -/
def onTabGroupCreate (s : App) (target : Option Nat) : App :=
  match target with
  | none => s
  | some i =>
    match s.groups[i]? with
    | none => s
    | some group =>
      if group.splitViewGroup then s
      else autoStartNewGroup (if group.closeButtonAdded = false then processGroup s i else s) i

/-- The ways a group comes to the registry: the mutation observer, `processExistingGroups`,
the `TabGroupCreate` event, and a direct `processGroup` call. -/
inductive Discovery where
  | added (i : Nat)
  | existing
  | created (target : Option Nat)
  | direct (i : Nat)
deriving DecidableEq, Repr

/-- One discovery handled. -/
def discover (s : App) : Discovery → App
  | .added i => onGroupAdded s i
  | .existing => processExistingGroups s
  | .created target => onTabGroupCreate s target
  | .direct i => processGroup s i

/-- Source lines 521-526, the `contextmenu` listener of the label container of group `i`. -/
def onContextMenu (s : App) (i : Nat) : App :=
  match s.groups[i]? with
  | some group =>
    if group.contextMenuListeners > 0 then { s with contextMenuCurrentGroup := some i } else s
  | none => s

/-- Source lines 410-413, the `popuphidden` listener of the shared menu. -/
def onPopupHidden (s : App) : App :=
  { s with contextMenuCurrentGroup := none }

/-- Source lines 358-408, the `command` listeners of the shared menu. -/
def onCommand (s : App) (command : MenuCommand) : App :=
  match s.contextMenuCurrentGroup with
  | none => s
  | some i =>
    match s.groups[i]? with
    | none => s
    | some group =>
      match command with
      | .setGroupColor =>
        if group.contextMethods then { s with actions := s.actions ++ [(command, i)] } else s
      | .useFaviconColor =>
        if group.contextMethods then
          callUseFaviconColor { s with actions := s.actions ++ [(command, i)] } i
        else s
      | .renameGroup =>
        renameGroupStart { s with actions := s.actions ++ [(command, i)] } i true
      | .changeGroupIcon => { s with actions := s.actions ++ [(command, i)] }
      | .ungroupTabs =>
        if group.hasUngroupTabs then { s with actions := s.actions ++ [(command, i)] } else s
      | .convertGroupToFolder => { s with actions := s.actions ++ [(command, i)] }

/-- The events of the shared menu: a right click on the label container of a group, the menu
closing, a command of the menu. -/
inductive MenuEvent where
  | contextMenu (i : Nat)
  | popupHidden
  | command (c : MenuCommand)
deriving DecidableEq, Repr

/-- One menu event handled. -/
def menuStep (s : App) : MenuEvent → App
  | .contextMenu i => onContextMenu s i
  | .popupHidden => onPopupHidden s
  | .command c => onCommand s c

/-- A group as the host creates it: no label, nothing injected yet. -/
def exampleNode : GroupNode :=
  { splitViewGroup := false, zenFolderAttr := false, zenFolderClass := false,
    closeButtonAdded := false, hasLabelContainer := true, hasLabelElement := true,
    label := "", labelText := "", defaultGroupName := none, iconContainers := 0,
    stashButtons := 0, closeButtons := 0, contextMenuListeners := 0,
    contextMenuAdded := false, contextMethods := false, hasUngroupTabs := true,
    editorModeCreate := true, labelEditing := false, labelHidden := false }

/-- The state after start-up with the given groups: no rename session, no shared menu. -/
def exampleApp (groups : List GroupNode) : App :=
  { groups := groups, groupEdited := none, renamingGroup := false, input := none,
    activeElement := .elsewhere, sharedContextMenu := false, menusCreated := 0,
    contextMenuCurrentGroup := none, timers := [], renameStarts := [], aggregations := [],
    actions := [] }

/-- A rename session on the only group, the user having typed a name with blanks around it. -/
def exampleEditing : App :=
  { renameGroupStart (exampleApp [exampleNode]) 0 false with input := some "  Work " }

/-- The tests `processGroup` makes before it injects anything (source lines 216-243): not
marked as processed, no exclusion marker, a label container, no close button in it yet. -/
def processable (g : GroupNode) : Prop :=
  g.closeButtonAdded = false ∧ g.zenFolderClass = false ∧ g.zenFolderAttr = false ∧
    g.splitViewGroup = false ∧ g.hasLabelContainer = true ∧ g.closeButtons = 0

instance (g : GroupNode) : Decidable (processable g) := by
  unfold processable
  infer_instance

/-- The exclusion markers of the registry: the `split-view-group` attribute, the `zen-folder`
attribute, the `zen-folder` class. -/
def excluded (g : GroupNode) : Prop :=
  g.splitViewGroup = true ∨ g.zenFolderAttr = true ∨ g.zenFolderClass = true

instance (g : GroupNode) : Decidable (excluded g) := by
  unfold excluded
  infer_instance

/-- What `processGroup` and `addContextMenu` leave on a group: the exclusion markers, the
processed marker, the injected elements and the context-menu wiring. -/
def registryView (g : GroupNode) : (Bool × Bool × Bool × Bool) × (Nat × Nat × Nat × Nat) ×
    (Bool × Bool) :=
  ((g.splitViewGroup, g.zenFolderAttr, g.zenFolderClass, g.closeButtonAdded),
   (g.iconContainers, g.stashButtons, g.closeButtons, g.contextMenuListeners),
   (g.contextMenuAdded, g.contextMethods))

/-- Whether `processGroup` on group `g` in state `s` creates the rename input: a new group, no
session active, a label element. -/
def startsRename (s : App) (g : GroupNode) : Bool :=
  isNewGroup g && s.groupEdited.isNone && g.hasLabelElement

/-- The events the registry, the rename session and the shared menu react to: a discovery, a
menu event, a `keydown` or a `blur` event of the rename input (with `document.activeElement`
at that moment), and the user changing the text of the input. -/
inductive AppEvent where
  | discovery (d : Discovery)
  | menu (m : MenuEvent)
  | keydown (key : Key)
  | blur (active : Focus)
  | typed (text : String)
deriving DecidableEq, Repr

/-- One event handled. -/
def appStep (s : App) : AppEvent → App
  | .discovery d => discover s d
  | .menu m => menuStep s m
  | .keydown key => (renameGroupKeydown s key).1
  | .blur active => onInputBlur s active
  | .typed text => { s with input := s.input.map (fun _ => text) }

/-- What holds of a rename session left by the handlers: the input exists and has the focus,
and the label element belongs to a group. -/
def sessionConsistent (s : App) : Prop :=
  ∀ i, s.groupEdited = some i →
    s.input ≠ none ∧ s.activeElement = .input ∧ s.groups[i]? ≠ none

/-! ## Sequences of store calls -/

/-- A call of one of the methods that write to the store. -/
inductive StoreCall where
  | saveTabGroupColors (groups : List TabGroup)
  | saveGroupIcon (groupId iconUrl : String)
  | removeSavedColor (groupId : String)
  | removeSavedIcon (groupId : String)
deriving DecidableEq, Repr

/-- The host a method leaves when it ends in an error caught nowhere; no method does. -/
def hostAfter (h : Host) : Except JsError Host → Host
  | .ok h' => h'
  | .error _ => h

/-- The host after one store call. -/
def storeCall (h : Host) : StoreCall → Host
  | .saveTabGroupColors groups => saveTabGroupColors h groups
  | .saveGroupIcon groupId iconUrl => hostAfter h (saveGroupIcon h groupId iconUrl)
  | .removeSavedColor groupId => hostAfter h (removeSavedColor h groupId)
  | .removeSavedIcon groupId => hostAfter h (removeSavedIcon h groupId)

/-- The mapping obtained by parsing a stored text, if there is a text and it parses. -/
def storedMapping (text : Option Content) : Option Obj :=
  match text with
  | some t =>
    match jsonParse t with
    | .ok m => some m
    | .error _ => none
  | none => none

/-- Two resources hold the same valid mapping, or both hold nothing: the texts may differ in
indentation only. -/
def sameMapping (a b : Option Content) : Prop :=
  (a = none ∧ b = none) ∨ ∃ i j m, a = some (.json i m) ∧ b = some (.json j m)

/-- What a store call makes of the colours text of a backend that writes with `indent`. -/
def nextColors (call : StoreCall) (indent : Nat) (text : Option Content) : Option Content :=
  match call with
  | .saveTabGroupColors groups => some (.json indent (collectColors groups))
  | .removeSavedColor groupId =>
    match text with
    | some (.json _ m) => some (.json indent (assocDelete groupId m))
    | other => other
  | _ => text

/-- What a store call makes of the icons text of a backend that writes with `indent`, for a
text that is absent or a valid mapping. -/
def nextIcons (call : StoreCall) (indent : Nat) (text : Option Content) : Option Content :=
  match call with
  | .saveGroupIcon groupId iconUrl =>
    match text with
    | some (.json _ m) => some (.json indent (assocSet groupId iconUrl m))
    | _ => some (.json indent [(groupId, iconUrl)])
  | .removeSavedIcon groupId =>
    match text with
    | some (.json _ m) => some (.json indent (assocDelete groupId m))
    | other => other
  | _ => text

/-- The events of the registry and the menu together with direct calls of
`ensureSharedContextMenu`. -/
inductive MenuUse where
  | event (e : AppEvent)
  | ensure
deriving DecidableEq, Repr

/-- One use handled. -/
def menuUseStep (s : App) : MenuUse → App
  | .event e => appStep s e
  | .ensure => ensureSharedContextMenu s

/-- The element `this._sharedContextMenu` refers to, named by the number of menus created when
it was made; the field is assigned exactly where a menu is created. -/
def sharedMenuInstance (s : App) : Option Nat :=
  if s.sharedContextMenu then some s.menusCreated else none

/-- The shared menu is either not created yet, and no menu was appended, or created, and
exactly one menu was appended. -/
def menuSingleton (s : App) : Prop :=
  (s.sharedContextMenu = false ∧ s.menusCreated = 0) ∨
    (s.sharedContextMenu = true ∧ s.menusCreated = 1)

/-! ## The theme picker borrowed by `group._setGroupColor` -/

/-- A `.zen-theme-picker-dot` element of the picker panel. `color` is what
`dot.style.getPropertyValue ("--zen-theme-picker-dot-color")` returns, the empty string when
the property is not set; `isPrimary` is `dot.classList.contains ("primary")` and `type` is
`dot.getAttribute ("data-type")`. -/
structure Dot where
  color : String
  isPrimary : Bool
  type : Option String
deriving DecidableEq, Repr

/-- The array `rgb` of source lines 657-672 and 799-812, with each number kept as the text it
is read from: `digits runs` is `colorValue.match (/\d+/g).map (Number)`, `hex r g b` holds the
three slices handed to `parseInt (_, 16)`, and `black` is the literal `[0, 0, 0]`. -/
inductive Components where
  | digits (runs : List String)
  | hex (r g b : String)
  | black
deriving DecidableEq, Repr

/-- One entry of the array `colors` handed to `getGradient`. -/
structure DotSample where
  c : Components
  isPrimary : Bool
  type : Option String
deriving DecidableEq, Repr

/-- The matches of `/\d+/g`: the maximal runs of the characters `0` to `9`, with `run` the
reversed run being read. -/
def digitRuns : List Char → List Char → List String
  | [], run => if run = [] then [] else [String.mk run.reverse]
  | ch :: rest, run =>
    if ch.isDigit then digitRuns rest (ch :: run)
    else if run = [] then digitRuns rest []
    else String.mk run.reverse :: digitRuns rest []

/-- Source lines 657-672 (again 799-812): the components read from a colour text. -/
def rgbOf (colorValue : String) : Components :=
  if colorValue.toList.take 3 = ['r', 'g', 'b'] then
    match digitRuns colorValue.toList [] with
    | [] => .black
    | runs => .digits runs
  else if colorValue.toList.take 1 = ['#'] then
    let hex := colorValue.toList.drop 1
    .hex (String.mk (hex.take 2)) (String.mk ((hex.drop 2).take 2))
      (String.mk ((hex.drop 4).take 2))
  else .black

/-- Source lines 641-679 (again 783-819): the callback of `map`, `none` for `null`. -/
def dotSample (dot : Dot) : Option DotSample :=
  if dot.color = "" ∨ dot.color = "undefined" then none
  else some { c := rgbOf dot.color, isPrimary := dot.isPrimary, type := dot.type }

/-- Source lines 640-680 (again 782-820): `Array.from (dots).map (...).filter (Boolean)`. -/
def dotSamples (dots : List Dot) : List DotSample := dots.filterMap dotSample

/-- A function that can sit in the picker's `updateCurrentWorkspace` or `onWorkspaceChange`
slot: `host tag` is a function installed by the host, `override original` is the closure
created at source lines 617 or 733, which captured `original`. -/
inductive Hook where
  | host (tag : Nat)
  | override (original : Hook)
deriving DecidableEq, Repr

/-- The values passed to the hooks. -/
inductive JsValue where
  | undefined
  | null
  | bool (b : Bool)
  | string (s : String)
deriving DecidableEq, Repr

/-- A recorded invocation of a hook: the function that ran and the parameters it received. -/
structure HookCall where
  hook : Hook
  args : List JsValue
deriving DecidableEq, Repr

/-- The closure `handlePanelClose` of source line 772, described by the two functions it
captured. -/
structure CloseHandler where
  originalUpdateMethod : Hook
  originalOnWorkspaceChange : Hook
deriving DecidableEq, Repr

/-- The object `window.gZenThemePicker`. Tab groups are named by their position in the list
of groups; `hasPanel` is the truth of the `panel` property and `panelDots` what
`panel.querySelectorAll (".zen-theme-picker-dot")` returns; `dots` is the `dots` property,
each entry holding the position in `panelDots` of its `element`, if it has one;
`closeListeners` are the `popuphidden` listeners of the panel in registration order. -/
structure ThemePicker where
  currentTabGroup : Option Nat
  tabGroupForColorPicker : Option Nat
  updateCurrentWorkspace : Hook
  onWorkspaceChange : Hook
  hasPanel : Bool
  panelDots : List Dot
  dots : Option (List (Option Nat))
  closeListeners : List CloseHandler
deriving DecidableEq, Repr

/-- What the fallback paths of `_setGroupColor` ask of the panel. -/
inductive PanelAction where
  | sized (withMinimum : Bool)
  | popupShowing
  | openedBelow (group : Nat)
  | openedAtOrigin
deriving DecidableEq, Repr

/-- The picker together with the tab groups, the storage, and two records kept for
the statements: every hook invocation, and every request made to the panel. -/
structure PickerWorld where
  picker : ThemePicker
  groups : List TabGroup
  host : Host
  calls : List HookCall
  panelActions : List PanelAction
deriving DecidableEq, Repr

/-- What the surroundings decide: whether `window.nsZenThemePicker` is set, whether the
element `zenToolbarThemePicker` exists, whether its `click ()` throws, what the picker's
`getGradient` returns, and what a host hook returns for given parameters. A host hook is
taken to change nothing the development looks at. -/
structure PickerEnv where
  nsZenThemePicker : Bool
  hasToolbarButton : Bool
  clickThrows : Bool
  getGradient : List DotSample → Except JsError String
  hostHook : Nat → List JsValue → Except JsError JsValue

/-- A change `f` made to the element at position `i`. -/
def modifyAt {α : Type} (f : α → α) : Nat → List α → List α
  | _, [] => []
  | 0, a :: rest => f a :: rest
  | i + 1, a :: rest => a :: modifyAt f i rest

/-- The value `this._currentTabGroup || this._tabGroupForColorPicker`. -/
def currentGroup (p : ThemePicker) : Option Nat :=
  match p.currentTabGroup with
  | some g => some g
  | none => p.tabGroupForColorPicker

/-- Source lines 692-712 (again 838-857): both properties of the group set to `gradient`,
then `atg.saveTabGroupColors ()`. -/
def applyGradient (gradient : String) (g : Nat) (w : PickerWorld) : PickerWorld :=
  { w with
    groups := modifyAt (setTabGroupColor gradient) g w.groups
    host := saveTabGroupColors w.host (modifyAt (setTabGroupColor gradient) g w.groups) }

/-- Source lines 635-719: the guarded body of the `updateCurrentWorkspace` override for the
current tab group `g`; an error is logged and leaves everything as it was. -/
def applyDotColors (env : PickerEnv) (g : Nat) (w : PickerWorld) : PickerWorld :=
  if w.picker.hasPanel = false then w
  else if (dotSamples w.picker.panelDots).length > 0 then
    match env.getGradient (dotSamples w.picker.panelDots) with
    | .ok gradient => applyGradient gradient g w
    | .error _ => w
  else w

/-- One more invocation recorded. -/
def recordCall (hook : Hook) (args : List JsValue) (w : PickerWorld) : PickerWorld :=
  { w with calls := w.calls ++ [{ hook := hook, args := args }] }

/-- A parameter with a default value. -/
def orDefault (value defaultValue : JsValue) : JsValue :=
  if value = .undefined then defaultValue else value

/-- A call `picker.updateCurrentWorkspace (skipSave)` when the slot holds `hook`; for the
override, source lines 617-730 with `skipSave = true` as the default. -/
def callUpdateCurrentWorkspace (env : PickerEnv) :
    Hook → JsValue → PickerWorld → Except JsError JsValue × PickerWorld
  | .host tag, skipSave, w => (env.hostHook tag [skipSave], recordCall (.host tag) [skipSave] w)
  | .override original, skipSave, w =>
    match currentGroup w.picker with
    | some g =>
      (.ok .undefined, applyDotColors env g (recordCall (.override original) [skipSave] w))
    | none =>
      callUpdateCurrentWorkspace env original (orDefault skipSave (.bool true))
        (recordCall (.override original) [skipSave] w)

/-- A call `picker.onWorkspaceChange (workspace, skipUpdate, theme)` when the slot holds
`hook`; for the override, source lines 733-765 with the defaults `skipUpdate = false` and
`theme = null`. -/
def callOnWorkspaceChange (env : PickerEnv) :
    Hook → JsValue → JsValue → JsValue → PickerWorld → Except JsError JsValue × PickerWorld
  | .host tag, workspace, skipUpdate, theme, w =>
    (env.hostHook tag [workspace, skipUpdate, theme],
      recordCall (.host tag) [workspace, skipUpdate, theme] w)
  | .override original, workspace, skipUpdate, theme, w =>
    match currentGroup w.picker with
    | some _ =>
      (.ok .undefined, recordCall (.override original) [workspace, skipUpdate, theme] w)
    | none =>
      callOnWorkspaceChange env original workspace (orDefault skipUpdate (.bool false))
        (orDefault theme .null)
        (recordCall (.override original) [workspace, skipUpdate, theme] w)

/-- Source lines 778-859: the final colour read from the dots and given to the current tab
group. It throws when the picker has no panel and when `getGradient` throws, in both cases
before anything was changed. -/
def applyFinalColor (env : PickerEnv) (w : PickerWorld) : Except JsError PickerWorld :=
  if w.picker.hasPanel = false then .error .typeError
  else if (dotSamples w.picker.panelDots).length > 0 then
    match currentGroup w.picker with
    | some g => do
      let gradient ← env.getGradient (dotSamples w.picker.panelDots)
      pure (applyGradient gradient g w)
    | none => pure w
  else pure w

/-- Source lines 862-870, and the same statements again at 893-899: both references deleted,
both hooks set to the captured functions, the listener removed. -/
def cleanUp (handler : CloseHandler) (p : ThemePicker) : ThemePicker :=
  { p with
    currentTabGroup := none
    tabGroupForColorPicker := none
    updateCurrentWorkspace := handler.originalUpdateMethod
    onWorkspaceChange := handler.originalOnWorkspaceChange
    closeListeners := p.closeListeners.erase handler }

/-- Source lines 873-881: `--zen-theme-picker-dot-color` removed from the element of every
entry of `dots`, when the picker has that property. -/
def clearDotColors (p : ThemePicker) : ThemePicker :=
  match p.dots with
  | some entries =>
    { p with
      panelDots :=
        entries.foldl
          (fun elements entry =>
            match entry with
            | some i => modifyAt (fun (dot : Dot) => { dot with color := "" }) i elements
            | none => elements)
          p.panelDots }
  | none => p

/-- Source lines 772-907, `handlePanelClose`: the guarded body, and the handler of its
`catch`. -/
def handlePanelClose (env : PickerEnv) (handler : CloseHandler) (w : PickerWorld) :
    PickerWorld :=
  match applyFinalColor env w with
  | .ok done => { done with picker := clearDotColors (cleanUp handler done.picker) }
  | .error _ => { w with picker := cleanUp handler w.picker }

/-- The panel fires `popuphidden`: the listeners registered at that moment run in
registration order. -/
def popupHidden (env : PickerEnv) (w : PickerWorld) : PickerWorld :=
  w.picker.closeListeners.foldl (fun state handler => handlePanelClose env handler state) w

/-- Source lines 603-765: both references set to the group and both hooks replaced by
overrides that captured the functions found in the slots. -/
def installOverrides (group : Nat) (p : ThemePicker) : ThemePicker :=
  { p with
    currentTabGroup := some group
    tabGroupForColorPicker := some group
    updateCurrentWorkspace := .override p.updateCurrentWorkspace
    onWorkspaceChange := .override p.onWorkspaceChange }

/-- Source line 909, `panel.addEventListener ("popuphidden", handlePanelClose)`. -/
def addCloseListener (handler : CloseHandler) (p : ThemePicker) : ThemePicker :=
  { p with closeListeners := p.closeListeners ++ [handler] }

/-- Source lines 911-931: without the toolbar button the panel is sized and opened below the
group, if there is a panel. -/
def openPanelDirectly (group : Nat) (w : PickerWorld) : PickerWorld :=
  if w.picker.hasPanel then
    { w with
      panelActions := w.panelActions ++ [.sized true, .popupShowing, .openedBelow group] }
  else w

/-- Source lines 933-952, the `catch` of `_setGroupColor`: the error is logged and the panel,
if there is one, is sized and opened at the origin. -/
def openPanelLastResort (w : PickerWorld) : PickerWorld :=
  if w.picker.hasPanel then
    { w with panelActions := w.panelActions ++ [.sized false, .openedAtOrigin] }
  else w

/-- Source lines 580-956, `group._setGroupColor ()` for the group at position `group`. After
the hooks are replaced, `existingButton.click ()` may throw and `panel.addEventListener`
throws when the picker has no panel; both errors go to the `catch` at line 933. -/
def _setGroupColor (env : PickerEnv) (w : PickerWorld) (group : Nat) : PickerWorld :=
  if env.nsZenThemePicker then
    let w1 := { w with picker := { w.picker with currentTabGroup := some group } }
    if env.hasToolbarButton then
      let handler : CloseHandler :=
        { originalUpdateMethod := w1.picker.updateCurrentWorkspace
          originalOnWorkspaceChange := w1.picker.onWorkspaceChange }
      let w2 := { w1 with picker := installOverrides group w1.picker }
      if env.clickThrows then openPanelLastResort w2
      else if w2.picker.hasPanel = false then openPanelLastResort w2
      else { w2 with picker := addCloseListener handler w2.picker }
    else openPanelDirectly group w1
  else w

/-- A picker with its panel, two coloured dots tracked by `dots`, host hooks `0` and `1` in
the slots, and no session. -/
def examplePicker : ThemePicker :=
  { currentTabGroup := none
    tabGroupForColorPicker := none
    updateCurrentWorkspace := .host 0
    onWorkspaceChange := .host 1
    hasPanel := true
    panelDots :=
      [{ color := "rgb(10, 20, 30)", isPrimary := true, type := some "explicit-lightness" },
       { color := "#a0b0c0", isPrimary := false, type := none }]
    dots := some [some 0, some 1]
    closeListeners := [] }

/-- Two tab groups `g1` and `g2` around the example picker, on the file backend. -/
def examplePickerWorld : PickerWorld :=
  { picker := examplePicker
    groups := [exampleGroup, { exampleGroup with id := "g2", tabGroupColor := "green" }]
    host := exampleFileHost
    calls := []
    panelActions := [] }

/-- Surroundings in which the picker opens from its toolbar button and `getGradient` returns
a fixed text. -/
def examplePickerEnv : PickerEnv :=
  { nsZenThemePicker := true
    hasToolbarButton := true
    clickThrows := false
    getGradient := fun _ => .ok "linear-gradient(red, blue)"
    hostHook := fun _ _ => .ok .undefined }

/-- The same surroundings with a `getGradient` that throws. -/
def throwingPickerEnv : PickerEnv :=
  { examplePickerEnv with getGradient := fun _ => .error .typeError }

/-! ## Colour arithmetic -/

theorem foldl_add_channels (colors : List RGB) (acc : RGB) :
    colors.foldl
      (fun acc color => { r := acc.r + color.r, g := acc.g + color.g, b := acc.b + color.b })
      acc =
    { r := acc.r + (colors.map RGB.r).sum
      g := acc.g + (colors.map RGB.g).sum
      b := acc.b + (colors.map RGB.b).sum } := by
  induction colors generalizing acc with
  | nil => simp
  | cons c cs ih => simp [ih, Nat.add_assoc]

theorem calculateAverageColor_eq (colors : List RGB) (hne : colors ≠ []) :
    _calculateAverageColor colors =
      { r := mathRound (colors.map RGB.r).sum colors.length
        g := mathRound (colors.map RGB.g).sum colors.length
        b := mathRound (colors.map RGB.b).sum colors.length } := by
  have hlen : colors.length ≠ 0 := by
    intro h
    exact hne (List.length_eq_zero.mp h)
  simp [_calculateAverageColor, hlen, foldl_add_channels]

theorem mathRound_nearest (n d : Nat) (hd : 0 < d) :
    2 * d * mathRound n d ≤ 2 * n + d ∧ 2 * n + d < 2 * d * mathRound n d + 2 * d := by
  unfold mathRound
  have h1 := Nat.div_add_mod (2 * n + d) (2 * d)
  have h2 := Nat.mod_lt (2 * n + d) (show 0 < 2 * d by omega)
  constructor <;> omega

/-- C2: for every non-empty list of samples `_calculateAverageColor` returns, per channel,
`floor ((2 * sum + n) / (2 * n))`, which is the integer nearest to the mean `sum / n` of the
channel, a tie going up; for `[(10,20,30),(30,40,50)]` it returns `(20,30,40)`. -/
theorem calculateAverageColor_rounded_mean :
    (∀ colors : List RGB, colors ≠ [] →
      _calculateAverageColor colors =
        { r := (2 * (colors.map RGB.r).sum + colors.length) / (2 * colors.length)
          g := (2 * (colors.map RGB.g).sum + colors.length) / (2 * colors.length)
          b := (2 * (colors.map RGB.b).sum + colors.length) / (2 * colors.length) } ∧
      (∀ channel ∈ [RGB.r, RGB.g, RGB.b],
        2 * colors.length * channel (_calculateAverageColor colors) ≤
          2 * (colors.map channel).sum + colors.length ∧
        2 * (colors.map channel).sum + colors.length <
          2 * colors.length * channel (_calculateAverageColor colors) + 2 * colors.length)) ∧
    _calculateAverageColor [{ r := 10, g := 20, b := 30 }, { r := 30, g := 40, b := 50 }] =
      { r := 20, g := 30, b := 40 } := by
  refine ⟨fun colors hne => ⟨?_, ?_⟩, by decide⟩
  · rw [calculateAverageColor_eq colors hne]
    rfl
  · have hpos : 0 < colors.length := List.length_pos.mpr hne
    intro channel hch
    rw [calculateAverageColor_eq colors hne]
    simp only [List.mem_cons, List.mem_singleton, List.not_mem_nil, or_false] at hch
    rcases hch with h | h | h <;> subst h <;> exact mathRound_nearest _ _ hpos

theorem calculateAverageColor_rounded_mean_witness :
    ([{ r := 1, g := 2, b := 4 }, { r := 2, g := 2, b := 9 }] : List RGB) ≠ [] ∧
    _calculateAverageColor [{ r := 1, g := 2, b := 4 }, { r := 2, g := 2, b := 9 }] =
      { r := 2, g := 2, b := 7 } :=
  ⟨by decide,
   ((calculateAverageColor_rounded_mean.1
      [{ r := 1, g := 2, b := 4 }, { r := 2, g := 2, b := 9 }] (by decide)).1).trans
     (by decide)⟩

theorem calculateAverageColor_perm {l₁ l₂ : List RGB} (h : l₁.Perm l₂) :
    _calculateAverageColor l₁ = _calculateAverageColor l₂ := by
  by_cases hne : l₁ = []
  · subst hne
    rw [List.Perm.eq_nil h.symm]
  · have hne₂ : l₂ ≠ [] := fun h₂ => hne (by subst h₂; exact List.Perm.eq_nil h)
    rw [calculateAverageColor_eq l₁ hne, calculateAverageColor_eq l₂ hne₂, h.length_eq,
      (h.map RGB.r).sum_eq, (h.map RGB.g).sum_eq, (h.map RGB.b).sum_eq]

/-! ## The pixel loop -/

theorem pixelLoop_rgbaBytes (ps : List Pixel) (acc : PixelAcc) :
    pixelLoop (rgbaBytes ps) acc =
      { r := acc.r + ((keptPixels ps).map Pixel.r).sum
        g := acc.g + ((keptPixels ps).map Pixel.g).sum
        b := acc.b + ((keptPixels ps).map Pixel.b).sum
        count := acc.count + (keptPixels ps).length } := by
  induction ps generalizing acc with
  | nil => simp [rgbaBytes, pixelLoop, keptPixels]
  | cons p ps ih =>
    by_cases hp : 128 < p.a ∧ 30 < p.r + p.g + p.b
    · have hk : keptPixels (p :: ps) = p :: keptPixels ps := by
        simp [keptPixels, hp]
      simp only [rgbaBytes, pixelLoop, gt_iff_lt, hp, and_self, if_true, ih, hk,
        List.map_cons, List.sum_cons, List.length_cons]
      simp only [Nat.add_assoc, Nat.add_comm 1]
    · have hk : keptPixels (p :: ps) = keptPixels ps := by
        simp only [keptPixels, List.filter_cons, hp, decide_False]
        simp
      simp only [rgbaBytes, pixelLoop, gt_iff_lt, hp, if_false, ih, hk]

/-- C5: the sample taken from the RGBA bytes of a decoded favicon is the per-channel rounded
mean over exactly the pixels with alpha above 128 and `r + g + b` above 30; with no such pixel
there is no sample. A pixel with alpha 128 or with `r + g + b = 30` is left out. -/
theorem extractSample_filtered_mean :
    (∀ ps : List Pixel,
      extractSample (rgbaBytes ps) =
        if (ps.filter (fun p => decide (128 < p.a ∧ 30 < p.r + p.g + p.b))).length = 0 then none
        else
          let kept := ps.filter (fun p => decide (128 < p.a ∧ 30 < p.r + p.g + p.b))
          some { r := (2 * (kept.map Pixel.r).sum + kept.length) / (2 * kept.length)
                 g := (2 * (kept.map Pixel.g).sum + kept.length) / (2 * kept.length)
                 b := (2 * (kept.map Pixel.b).sum + kept.length) / (2 * kept.length) }) ∧
    extractSample [200, 200, 200, 128] = none ∧
    extractSample [10, 10, 10, 255] = none ∧
    extractSample [10, 10, 11, 129, 0, 0, 0, 0, 20, 21, 30, 255] =
      some { r := 15, g := 16, b := 21 } := by
  refine ⟨fun ps => ?_, by decide, by decide, by decide⟩
  have h := pixelLoop_rgbaBytes ps { r := 0, g := 0, b := 0, count := 0 }
  simp only [Nat.zero_add] at h
  simp only [extractSample, h]
  by_cases hk : (keptPixels ps).length = 0
  · have hk' := hk
    unfold keptPixels at hk'
    simp only [hk, hk', gt_iff_lt, Nat.lt_irrefl, if_false, if_true]
  · have hk' := hk
    unfold keptPixels at hk'
    have hpos : 0 < (keptPixels ps).length := Nat.pos_of_ne_zero hk
    simp only [gt_iff_lt, hpos, if_true, hk', if_false]
    rfl

/-! ## Dictionaries -/

theorem assocGet_assocSet {β : Type} (k k' : String) (v : β) (m : List (String × β)) :
    assocGet k' (assocSet k v m) = if k' = k then some v else assocGet k' m := by
  induction m with
  | nil =>
    by_cases h : k = k'
    · simp [assocSet, assocGet, h]
    · have h' : ¬ k' = k := fun e => h e.symm
      simp [assocSet, assocGet, h, h']
  | cons p rest ih =>
    obtain ⟨a, b⟩ := p
    by_cases hak : a = k
    · by_cases hkk : k' = k
      · simp [assocSet, assocGet, hak, hkk]
      · have hkk' : ¬ k = k' := fun e => hkk e.symm
        simp [assocSet, assocGet, hak, hkk, hkk']
    · by_cases hkk : k' = k
      · subst hkk
        simp [assocSet, assocGet, hak, ih]
      · by_cases hak' : a = k'
        · simp [assocSet, assocGet, hak, hak', hkk]
        · simp [assocSet, assocGet, hak, hak', hkk, ih]

theorem assocGet_assocDelete {β : Type} (k k' : String) (m : List (String × β)) :
    assocGet k' (assocDelete k m) = if k' = k then none else assocGet k' m := by
  induction m with
  | nil => simp [assocDelete, assocGet]
  | cons p rest ih =>
    obtain ⟨a, b⟩ := p
    by_cases hak : a = k
    · by_cases hkk : k' = k
      · subst hkk
        simpa [assocDelete, assocGet, hak] using ih
      · have hkk' : ¬ k = k' := fun e => hkk e.symm
        simp [assocDelete, assocGet, hak, hkk, hkk', ih]
    · by_cases hkk : k' = k
      · subst hkk
        simp [assocDelete, assocGet, hak, ih]
      · by_cases hak' : a = k'
        · simp [assocDelete, assocGet, hak, hak', hkk]
        · simp [assocDelete, assocGet, hak, hak', hkk, ih]

theorem assocDelete_of_absent {β : Type} (k : String) (m : List (String × β))
    (h : assocGet k m = none) : assocDelete k m = m := by
  induction m with
  | nil => rfl
  | cons p rest ih =>
    obtain ⟨a, b⟩ := p
    by_cases hak : a = k
    · simp [assocGet, hak] at h
    · simp only [assocGet, hak, if_false] at h
      simp [assocDelete, hak, ih h]

theorem storedColors_writeFile (h : Host) (hfs : h.fileSystem = true) (t : Content) :
    storedColors (writeFile h "tab_group_colors.json" t) = some t := by
  simp [storedColors, writeFile, readFile, hfs, assocGet_assocSet]

theorem storedColors_setItem (h : Host) (hfs : h.fileSystem = false) (t : Content) :
    storedColors (setItem h "advancedTabGroups_colors" t) = some t := by
  simp [storedColors, setItem, getItem, hfs, assocGet_assocSet]

theorem storedIcons_writeFile (h : Host) (hfs : h.fileSystem = true) (t : Content) :
    storedIcons (writeFile h "tab_group_icons.json" t) = some t := by
  simp [storedIcons, writeFile, readFile, hfs, assocGet_assocSet]

theorem storedIcons_setItem (h : Host) (hfs : h.fileSystem = false) (t : Content) :
    storedIcons (setItem h "advancedTabGroups_icons" t) = some t := by
  simp [storedIcons, setItem, getItem, hfs, assocGet_assocSet]

/-! ## The icons store -/

theorem saveGroupIcon_file (h : Host) (k v : String) (hfs : h.fileSystem = true) :
    saveGroupIcon h k v =
      .ok (writeFile h "tab_group_icons.json"
        (.json 2 (assocSet k v
          (match readFile h "tab_group_icons.json" with
           | some (.json _ m) => m
           | _ => [])))) := by
  unfold saveGroupIcon
  cases hr : readFile h "tab_group_icons.json" with
  | none => simp [hfs, tryCatch, jsonStringify, bind, Except.bind, pure, Except.pure]
  | some t =>
    cases t <;>
      simp [hfs, tryCatch, jsonStringify, jsonParse, bind, Except.bind, pure, Except.pure]

theorem saveGroupIcon_localStorage_json (h : Host) (k v : String) (hfs : h.fileSystem = false)
    (indent : Nat) (m : Obj)
    (hr : getItem h "advancedTabGroups_icons" = some (.json indent m)) :
    saveGroupIcon h k v =
      .ok (setItem h "advancedTabGroups_icons" (.json 0 (assocSet k v m))) := by
  unfold saveGroupIcon
  simp [hfs, hr, tryCatch, truthy, jsonStringify, jsonParse, bind, Except.bind, pure,
    Except.pure]

theorem saveGroupIcon_localStorage_none (h : Host) (k v : String) (hfs : h.fileSystem = false)
    (hr : getItem h "advancedTabGroups_icons" = none) :
    saveGroupIcon h k v =
      .ok (setItem h "advancedTabGroups_icons" (.json 0 [(k, v)])) := by
  unfold saveGroupIcon
  simp [hfs, hr, tryCatch, jsonStringify, bind, Except.bind, pure, Except.pure, assocSet]

/-- C7: `saveGroupIcon (k, v)` on a stored icons mapping `m` leaves the store holding `m` with
`k` set to `v`: `k` maps to `v` and every other key keeps its value; with nothing stored the
result is the mapping `{k -> v}`. The host is arbitrary, so this covers the file backend and
the `localStorage` fallback. -/
theorem saveGroupIcon_sets_key (h : Host) (k v : String) :
    (∀ (indent : Nat) (m : Obj), storedIcons h = some (.json indent m) →
      ∃ h' indent' m', saveGroupIcon h k v = .ok h' ∧ h'.fileSystem = h.fileSystem ∧
        storedIcons h' = some (.json indent' m') ∧
        ∀ k', assocGet k' m' = if k' = k then some v else assocGet k' m) ∧
    (storedIcons h = none →
      ∃ h' indent', saveGroupIcon h k v = .ok h' ∧ h'.fileSystem = h.fileSystem ∧
        storedIcons h' = some (.json indent' [(k, v)])) := by
  cases hfs : h.fileSystem with
  | true =>
    refine ⟨fun indent m hs => ?_, fun hs => ?_⟩
    · have hr : readFile h "tab_group_icons.json" = some (.json indent m) := by
        simpa [storedIcons, hfs] using hs
      refine ⟨_, 2, assocSet k v m, saveGroupIcon_file h k v hfs, ?_, ?_, ?_⟩
      · simp [writeFile, hfs]
      · rw [storedIcons_writeFile h hfs, hr]
      · intro k'
        exact assocGet_assocSet k k' v m
    · have hr : readFile h "tab_group_icons.json" = none := by
        simpa [storedIcons, hfs] using hs
      refine ⟨_, 2, saveGroupIcon_file h k v hfs, ?_, ?_⟩
      · simp [writeFile, hfs]
      · rw [storedIcons_writeFile h hfs, hr]
        rfl
  | false =>
    refine ⟨fun indent m hs => ?_, fun hs => ?_⟩
    · have hr : getItem h "advancedTabGroups_icons" = some (.json indent m) := by
        simpa [storedIcons, hfs] using hs
      refine ⟨_, 0, assocSet k v m, saveGroupIcon_localStorage_json h k v hfs indent m hr,
        ?_, ?_, ?_⟩
      · simp [setItem, hfs]
      · rw [storedIcons_setItem h hfs]
      · intro k'
        exact assocGet_assocSet k k' v m
    · have hr : getItem h "advancedTabGroups_icons" = none := by
        simpa [storedIcons, hfs] using hs
      refine ⟨_, 0, saveGroupIcon_localStorage_none h k v hfs hr, ?_, ?_⟩
      · simp [setItem, hfs]
      · rw [storedIcons_setItem h hfs]

theorem saveGroupIcon_sets_key_witness :
    (∃ h' indent' m', saveGroupIcon exampleFileHost "g1" "icon.svg" = .ok h' ∧
      storedIcons h' = some (.json indent' m') ∧ assocGet "g1" m' = some "icon.svg" ∧
      assocGet "old" m' = some "star.svg") ∧
    (∃ h' indent',
      saveGroupIcon { exampleLocalHost with localStorage := [] } "g1" "icon.svg" = .ok h' ∧
      storedIcons h' = some (.json indent' [("g1", "icon.svg")])) := by
  constructor
  · obtain ⟨h', indent', m', hrun, _, hst, hget⟩ :=
      (saveGroupIcon_sets_key exampleFileHost "g1" "icon.svg").1 2 [("old", "star.svg")]
        (by decide)
    refine ⟨h', indent', m', hrun, hst, ?_, ?_⟩
    · rw [hget "g1"]
      decide
    · rw [hget "old"]
      decide
  · obtain ⟨h', indent', hrun, _, hst⟩ :=
      (saveGroupIcon_sets_key { exampleLocalHost with localStorage := [] } "g1" "icon.svg").2
        (by decide)
    exact ⟨h', indent', hrun, hst⟩

theorem removeSavedIcon_file (h : Host) (k : String) (hfs : h.fileSystem = true) :
    removeSavedIcon h k =
      .ok (match readFile h "tab_group_icons.json" with
           | some (.json _ m) => writeFile h "tab_group_icons.json" (.json 2 (assocDelete k m))
           | _ => h) := by
  unfold removeSavedIcon
  cases hr : readFile h "tab_group_icons.json" with
  | none => simp [hfs, tryCatch, pure, Except.pure]
  | some t =>
    cases t <;>
      simp [hfs, tryCatch, jsonStringify, jsonParse, bind, Except.bind, pure, Except.pure]

theorem removeSavedIcon_localStorage (h : Host) (k : String) (hfs : h.fileSystem = false) :
    removeSavedIcon h k =
      .ok (match getItem h "advancedTabGroups_icons" with
           | some (.json _ m) =>
             setItem h "advancedTabGroups_icons" (.json 0 (assocDelete k m))
           | _ => h) := by
  unfold removeSavedIcon
  cases hr : getItem h "advancedTabGroups_icons" with
  | none => simp [hfs, tryCatch, pure, Except.pure]
  | some t =>
    cases t <;>
      simp [hfs, tryCatch, truthy, jsonStringify, jsonParse, bind, Except.bind, pure,
        Except.pure]

/-! ## The colours store -/

theorem removeSavedColor_file (h : Host) (k : String) (hfs : h.fileSystem = true) :
    removeSavedColor h k =
      .ok (match readFile h "tab_group_colors.json" with
           | some (.json _ m) => writeFile h "tab_group_colors.json" (.json 2 (assocDelete k m))
           | _ => h) := by
  unfold removeSavedColor
  cases hr : readFile h "tab_group_colors.json" with
  | none => simp [hfs, tryCatch, pure, Except.pure]
  | some t =>
    cases t <;>
      simp [hfs, tryCatch, jsonStringify, jsonParse, bind, Except.bind, pure, Except.pure]

theorem removeSavedColor_localStorage (h : Host) (k : String) (hfs : h.fileSystem = false) :
    removeSavedColor h k =
      .ok (match getItem h "advancedTabGroups_colors" with
           | some (.json _ m) =>
             setItem h "advancedTabGroups_colors" (.json 0 (assocDelete k m))
           | _ => h) := by
  unfold removeSavedColor
  cases hr : getItem h "advancedTabGroups_colors" with
  | none => simp [hfs, tryCatch, pure, Except.pure]
  | some t =>
    cases t <;>
      simp [hfs, tryCatch, truthy, jsonStringify, jsonParse, bind, Except.bind, pure,
        Except.pure]

theorem removeSavedColor_stored (h : Host) (k : String) (indent : Nat) (m : Obj)
    (hs : storedColors h = some (.json indent m)) :
    ∃ h' indent', removeSavedColor h k = .ok h' ∧ h'.fileSystem = h.fileSystem ∧
      storedColors h' = some (.json indent' (assocDelete k m)) := by
  cases hfs : h.fileSystem with
  | true =>
    have hr : readFile h "tab_group_colors.json" = some (.json indent m) := by
      simpa [storedColors, hfs] using hs
    refine ⟨_, 2, removeSavedColor_file h k hfs, ?_, ?_⟩
    · simp [hr, writeFile, hfs]
    · simp only [hr]
      exact storedColors_writeFile h hfs _
  | false =>
    have hr : getItem h "advancedTabGroups_colors" = some (.json indent m) := by
      simpa [storedColors, hfs] using hs
    refine ⟨_, 0, removeSavedColor_localStorage h k hfs, ?_, ?_⟩
    · simp [hr, setItem, hfs]
    · simp only [hr]
      exact storedColors_setItem h hfs _

theorem removeSavedColor_nothing_stored (h : Host) (k : String) (hs : storedColors h = none) :
    removeSavedColor h k = .ok h := by
  cases hfs : h.fileSystem with
  | true =>
    have hr : readFile h "tab_group_colors.json" = none := by
      simpa [storedColors, hfs] using hs
    rw [removeSavedColor_file h k hfs, hr]
  | false =>
    have hr : getItem h "advancedTabGroups_colors" = none := by
      simpa [storedColors, hfs] using hs
    rw [removeSavedColor_localStorage h k hfs, hr]

theorem removeSavedIcon_stored (h : Host) (k : String) (indent : Nat) (m : Obj)
    (hs : storedIcons h = some (.json indent m)) :
    ∃ h' indent', removeSavedIcon h k = .ok h' ∧ h'.fileSystem = h.fileSystem ∧
      storedIcons h' = some (.json indent' (assocDelete k m)) := by
  cases hfs : h.fileSystem with
  | true =>
    have hr : readFile h "tab_group_icons.json" = some (.json indent m) := by
      simpa [storedIcons, hfs] using hs
    refine ⟨_, 2, removeSavedIcon_file h k hfs, ?_, ?_⟩
    · simp [hr, writeFile, hfs]
    · simp only [hr]
      exact storedIcons_writeFile h hfs _
  | false =>
    have hr : getItem h "advancedTabGroups_icons" = some (.json indent m) := by
      simpa [storedIcons, hfs] using hs
    refine ⟨_, 0, removeSavedIcon_localStorage h k hfs, ?_, ?_⟩
    · simp [hr, setItem, hfs]
    · simp only [hr]
      exact storedIcons_setItem h hfs _

theorem removeSavedIcon_nothing_stored (h : Host) (k : String) (hs : storedIcons h = none) :
    removeSavedIcon h k = .ok h := by
  cases hfs : h.fileSystem with
  | true =>
    have hr : readFile h "tab_group_icons.json" = none := by
      simpa [storedIcons, hfs] using hs
    rw [removeSavedIcon_file h k hfs, hr]
  | false =>
    have hr : getItem h "advancedTabGroups_icons" = none := by
      simpa [storedIcons, hfs] using hs
    rw [removeSavedIcon_localStorage h k hfs, hr]

/-- C9: `removeSavedColor (k)` and `removeSavedIcon (k)` on a stored mapping `m` leave the store
holding `m` with `k` deleted: `k` is absent, every other key keeps its value, and the mapping
is `m` itself when `k` was not in it; with nothing stored the host is left as it was. The host
is arbitrary, so this covers both backends. -/
theorem removeSaved_deletes_key (h : Host) (k : String) :
    (∀ (indent : Nat) (m : Obj), storedColors h = some (.json indent m) →
      ∃ h' indent' m', removeSavedColor h k = .ok h' ∧ h'.fileSystem = h.fileSystem ∧
        storedColors h' = some (.json indent' m') ∧
        (∀ k', assocGet k' m' = if k' = k then none else assocGet k' m) ∧
        (assocGet k m = none → m' = m)) ∧
    (storedColors h = none → removeSavedColor h k = .ok h) ∧
    (∀ (indent : Nat) (m : Obj), storedIcons h = some (.json indent m) →
      ∃ h' indent' m', removeSavedIcon h k = .ok h' ∧ h'.fileSystem = h.fileSystem ∧
        storedIcons h' = some (.json indent' m') ∧
        (∀ k', assocGet k' m' = if k' = k then none else assocGet k' m) ∧
        (assocGet k m = none → m' = m)) ∧
    (storedIcons h = none → removeSavedIcon h k = .ok h) := by
  refine ⟨fun indent m hs => ?_, removeSavedColor_nothing_stored h k, fun indent m hs => ?_,
    removeSavedIcon_nothing_stored h k⟩
  · obtain ⟨h', indent', hrun, hfs, hst⟩ := removeSavedColor_stored h k indent m hs
    exact ⟨h', indent', assocDelete k m, hrun, hfs, hst,
      fun k' => assocGet_assocDelete k k' m, assocDelete_of_absent k m⟩
  · obtain ⟨h', indent', hrun, hfs, hst⟩ := removeSavedIcon_stored h k indent m hs
    exact ⟨h', indent', assocDelete k m, hrun, hfs, hst,
      fun k' => assocGet_assocDelete k k' m, assocDelete_of_absent k m⟩

theorem removeSaved_deletes_key_witness :
    (∃ h' indent' m', removeSavedColor exampleLocalHost "old" = .ok h' ∧
      storedColors h' = some (.json indent' m') ∧ assocGet "old" m' = none) ∧
    removeSavedColor { exampleFileHost with files := [] } "old" =
      .ok { exampleFileHost with files := [] } ∧
    (∃ h' indent' m', removeSavedIcon exampleFileHost "g1" = .ok h' ∧
      storedIcons h' = some (.json indent' m') ∧ m' = [("old", "star.svg")]) ∧
    removeSavedIcon { exampleLocalHost with localStorage := [] } "old" =
      .ok { exampleLocalHost with localStorage := [] } := by
  refine ⟨?_, ?_, ?_, ?_⟩
  · obtain ⟨h', indent', m', hrun, _, hst, hget, _⟩ :=
      (removeSaved_deletes_key exampleLocalHost "old").1 0 [("old", "red")] (by decide)
    refine ⟨h', indent', m', hrun, hst, ?_⟩
    rw [hget "old"]
    decide
  · exact (removeSaved_deletes_key { exampleFileHost with files := [] } "old").2.1 (by decide)
  · obtain ⟨h', indent', m', hrun, _, hst, _, hsame⟩ :=
      (removeSaved_deletes_key exampleFileHost "g1").2.2.1 2 [("old", "star.svg")] (by decide)
    exact ⟨h', indent', m', hrun, hst, hsame (by decide)⟩
  · exact (removeSaved_deletes_key { exampleLocalHost with localStorage := [] } "old").2.2.2
      (by decide)

theorem loadSavedColors_of_stored (h : Host) (t : Content) (hs : storedColors h = some t) :
    loadSavedColors h =
      .ok (match t with
           | .json _ m => if m.length > 0 then some m else none
           | _ => none) := by
  unfold loadSavedColors
  cases hfs : h.fileSystem with
  | true =>
    have hr : readFile h "tab_group_colors.json" = some t := by
      simpa [storedColors, hfs] using hs
    cases t with
    | json i m =>
      by_cases hm : 0 < m.length <;>
        simp [hr, hm, tryCatch, jsonParse, bind, Except.bind, pure, Except.pure]
    | empty => simp [hr, tryCatch, jsonParse, bind, Except.bind, pure, Except.pure]
    | malformed => simp [hr, tryCatch, jsonParse, bind, Except.bind, pure, Except.pure]
  | false =>
    have hr : getItem h "advancedTabGroups_colors" = some t := by
      simpa [storedColors, hfs] using hs
    cases t with
    | json i m =>
      by_cases hm : 0 < m.length <;>
        simp [hr, hm, tryCatch, truthy, jsonParse, bind, Except.bind, pure, Except.pure]
    | empty => simp [hr, tryCatch, truthy, jsonParse, bind, Except.bind, pure, Except.pure]
    | malformed =>
      simp [hr, tryCatch, truthy, jsonParse, bind, Except.bind, pure, Except.pure]

theorem loadGroupIcons_of_stored (h : Host) (t : Content) (hs : storedIcons h = some t) :
    loadGroupIcons h =
      .ok (match t with
           | .json _ m => if m.length > 0 then some m else none
           | _ => none) := by
  unfold loadGroupIcons
  cases hfs : h.fileSystem with
  | true =>
    have hr : readFile h "tab_group_icons.json" = some t := by
      simpa [storedIcons, hfs] using hs
    cases t with
    | json i m =>
      by_cases hm : 0 < m.length <;>
        simp [hr, hm, tryCatch, jsonParse, bind, Except.bind, pure, Except.pure]
    | empty => simp [hr, tryCatch, jsonParse, bind, Except.bind, pure, Except.pure]
    | malformed => simp [hr, tryCatch, jsonParse, bind, Except.bind, pure, Except.pure]
  | false =>
    have hr : getItem h "advancedTabGroups_icons" = some t := by
      simpa [storedIcons, hfs] using hs
    cases t with
    | json i m =>
      by_cases hm : 0 < m.length <;>
        simp [hr, hm, tryCatch, truthy, jsonParse, bind, Except.bind, pure, Except.pure]
    | empty => simp [hr, tryCatch, truthy, jsonParse, bind, Except.bind, pure, Except.pure]
    | malformed =>
      simp [hr, tryCatch, truthy, jsonParse, bind, Except.bind, pure, Except.pure]

/-- C10: when the stored text of a namespace is not valid JSON, `loadSavedColors` and
`loadGroupIcons` end without an error and set no timer, exactly as they do for a stored empty
mapping, so no colour and no icon is applied to any group. The host is arbitrary, so this
covers both backends. -/
theorem load_corrupt_as_empty (h : Host) (t : Content) (e : JsError)
    (hbad : jsonParse t = .error e) :
    (storedColors h = some t →
      loadSavedColors h = .ok none ∧
      (∀ groups, restoreColors h groups = .ok groups) ∧
      (∀ h₀ indent, storedColors h₀ = some (.json indent []) →
        loadSavedColors h = loadSavedColors h₀)) ∧
    (storedIcons h = some t →
      loadGroupIcons h = .ok none ∧
      (∀ groups, restoreIcons h groups = .ok groups) ∧
      (∀ h₀ indent, storedIcons h₀ = some (.json indent []) →
        loadGroupIcons h = loadGroupIcons h₀)) := by
  refine ⟨fun hs => ?_, fun hs => ?_⟩
  · have hload : loadSavedColors h = .ok none := by
      rw [loadSavedColors_of_stored h t hs]
      cases t with
      | json i m => simp [jsonParse] at hbad
      | empty => rfl
      | malformed => rfl
    refine ⟨hload, fun groups => ?_, fun h₀ indent hs₀ => ?_⟩
    · simp [restoreColors, hload]
    · rw [hload, loadSavedColors_of_stored h₀ _ hs₀]
      rfl
  · have hload : loadGroupIcons h = .ok none := by
      rw [loadGroupIcons_of_stored h t hs]
      cases t with
      | json i m => simp [jsonParse] at hbad
      | empty => rfl
      | malformed => rfl
    refine ⟨hload, fun groups => ?_, fun h₀ indent hs₀ => ?_⟩
    · simp [restoreIcons, hload]
    · rw [hload, loadGroupIcons_of_stored h₀ _ hs₀]
      rfl

theorem load_corrupt_as_empty_witness :
    loadGroupIcons exampleLocalHost = .ok none ∧
    restoreIcons exampleLocalHost [exampleGroup] = .ok [exampleGroup] ∧
    loadSavedColors
        { exampleFileHost with files := [("tab_group_colors.json", .empty)] } = .ok none ∧
    restoreColors
        { exampleFileHost with files := [("tab_group_colors.json", .empty)] } [exampleGroup] =
      .ok [exampleGroup] := by
  have hicons :=
    (load_corrupt_as_empty exampleLocalHost .malformed .syntaxError rfl).2 (by decide)
  have hcolors :=
    (load_corrupt_as_empty { exampleFileHost with files := [("tab_group_colors.json", .empty)] }
      .empty .syntaxError rfl).1 (by decide)
  exact ⟨hicons.1, hicons.2.1 [exampleGroup], hcolors.1, hcolors.2.1 [exampleGroup]⟩

theorem collectColors_step_get (k : String) (colors : Obj) (g : TabGroup) :
    assocGet k
      (if g.id ≠ "" ∧ g.splitViewGroup = false then
        if g.tabGroupColor ≠ "" then assocSet g.id g.tabGroupColor colors else colors
       else colors) =
    if savesColor g ∧ g.id = k then some g.tabGroupColor else assocGet k colors := by
  by_cases h1 : g.id ≠ "" ∧ g.splitViewGroup = false
  · rw [if_pos h1]
    by_cases h2 : g.tabGroupColor ≠ ""
    · have hs : savesColor g := ⟨h1.1, h1.2, h2⟩
      rw [if_pos h2, assocGet_assocSet]
      by_cases hk : g.id = k
      · rw [if_pos hk.symm, if_pos ⟨hs, hk⟩]
      · rw [if_neg (fun e => hk e.symm), if_neg (fun hc => hk hc.2)]
    · have hs : ¬ savesColor g := fun hs => h2 hs.2.2
      rw [if_neg h2, if_neg (fun hc => hs hc.1)]
  · have hs : ¬ savesColor g := fun hs => h1 ⟨hs.1, hs.2.1⟩
    rw [if_neg h1, if_neg (fun hc => hs hc.1)]

theorem foldl_collect_get (k : String) (groups : List TabGroup) (acc : Obj) :
    assocGet k
      (groups.foldl
        (fun colors group =>
          if group.id ≠ "" ∧ group.splitViewGroup = false then
            if group.tabGroupColor ≠ "" then assocSet group.id group.tabGroupColor colors
            else colors
          else colors)
        acc) =
    lastColor k groups (assocGet k acc) := by
  induction groups generalizing acc with
  | nil => rfl
  | cons g rest ih =>
    simp only [List.foldl_cons, lastColor]
    rw [ih, collectColors_step_get]
    rfl

theorem collectColors_get (k : String) (groups : List TabGroup) :
    assocGet k (collectColors groups) = lastColor k groups none :=
  foldl_collect_get k groups []

theorem lastColor_cons (k : String) (g : TabGroup) (rest : List TabGroup)
    (start : Option String) :
    lastColor k (g :: rest) start =
      lastColor k rest (if savesColor g ∧ g.id = k then some g.tabGroupColor else start) :=
  rfl

theorem lastColor_unchanged (k : String) (groups : List TabGroup) (start : Option String)
    (h : ∀ g ∈ groups, g.id = k → ¬ savesColor g) : lastColor k groups start = start := by
  induction groups generalizing start with
  | nil => rfl
  | cons g rest ih =>
    have hg : ¬ (savesColor g ∧ g.id = k) :=
      fun hc => h g (List.mem_cons_self g rest) hc.2 hc.1
    rw [lastColor_cons, if_neg hg]
    exact ih start (fun g' hg' => h g' (List.mem_cons_of_mem g hg'))

theorem lastColor_agreed (k c : String) (groups : List TabGroup) (start : Option String)
    (hall : ∀ g ∈ groups, g.id = k → savesColor g → g.tabGroupColor = c)
    (hex : start = some c ∨ ∃ g ∈ groups, g.id = k ∧ savesColor g) :
    lastColor k groups start = some c := by
  induction groups generalizing start with
  | nil =>
    rcases hex with h | ⟨g, hg, _⟩
    · exact h
    · cases hg
  | cons g rest ih =>
    rw [lastColor_cons]
    apply ih _ (fun g' hg' => hall g' (List.mem_cons_of_mem g hg'))
    by_cases hg : savesColor g ∧ g.id = k
    · left
      rw [if_pos hg, hall g (List.mem_cons_self g rest) hg.2 hg.1]
    · rw [if_neg hg]
      rcases hex with h | ⟨g', hg', hid, hsv⟩
      · exact Or.inl h
      · rcases List.mem_cons.mp hg' with heq | hmem
        · subst heq
          exact absurd ⟨hsv, hid⟩ hg
        · exact Or.inr ⟨g', hmem, hid, hsv⟩

theorem lastColor_origin (k c : String) (groups : List TabGroup) (start : Option String)
    (h : lastColor k groups start = some c) :
    start = some c ∨ ∃ g ∈ groups, g.id = k ∧ savesColor g ∧ g.tabGroupColor = c := by
  induction groups generalizing start with
  | nil => exact Or.inl h
  | cons g rest ih =>
    rw [lastColor_cons] at h
    rcases ih _ h with h1 | ⟨g', hg', hrest⟩
    · by_cases hg : savesColor g ∧ g.id = k
      · rw [if_pos hg] at h1
        exact Or.inr ⟨g, List.mem_cons_self g rest, hg.2, hg.1, Option.some.inj h1⟩
      · rw [if_neg hg] at h1
        exact Or.inl h1
    · exact Or.inr ⟨g', List.mem_cons_of_mem g hg', hrest⟩

theorem storedColors_saveTabGroupColors (h : Host) (groups : List TabGroup) :
    storedColors (saveTabGroupColors h groups) =
      some (.json (if h.fileSystem then 2 else 0) (collectColors groups)) := by
  cases hfs : h.fileSystem with
  | true =>
    simp only [saveTabGroupColors, hfs, if_true, jsonStringify]
    exact storedColors_writeFile h hfs _
  | false =>
    simp only [saveTabGroupColors, hfs, jsonStringify]
    exact storedColors_setItem h hfs _

theorem assocGet_some_length {β : Type} (k : String) (v : β) (m : List (String × β))
    (h : assocGet k m = some v) : 0 < m.length := by
  cases m with
  | nil => simp [assocGet] at h
  | cons p rest => simp

/-- C6: round trip of the colours namespace. For a live group `g` with a non-empty id that is
not a split-view group and has a non-empty `--tab-group-color`, its id naming no other live
group: after `saveTabGroupColors` the mapping `loadSavedColors` reads binds the id to that
colour, and after `removeSavedColor` of the id the stored mapping has no such key. The host is
arbitrary, so this covers both backends. -/
theorem colors_round_trip (h : Host) (groups : List TabGroup) (g : TabGroup)
    (hmem : g ∈ groups) (hid : g.id ≠ "") (hsplit : g.splitViewGroup = false)
    (hcolor : g.tabGroupColor ≠ "") (huniq : ∀ g' ∈ groups, g'.id = g.id → g' = g) :
    (∃ colors, loadSavedColors (saveTabGroupColors h groups) = .ok (some colors) ∧
      assocGet g.id colors = some g.tabGroupColor) ∧
    (∃ h₂ indent m, removeSavedColor (saveTabGroupColors h groups) g.id = .ok h₂ ∧
      storedColors h₂ = some (.json indent m) ∧ assocGet g.id m = none ∧
      ∀ colors, loadSavedColors h₂ = .ok (some colors) → assocGet g.id colors = none) := by
  have hget : assocGet g.id (collectColors groups) = some g.tabGroupColor := by
    rw [collectColors_get]
    apply lastColor_agreed
    · intro g' hg' hid' _
      rw [huniq g' hg' hid']
    · exact Or.inr ⟨g, hmem, rfl, hid, hsplit, hcolor⟩
  have hst := storedColors_saveTabGroupColors h groups
  constructor
  · refine ⟨collectColors groups, ?_, hget⟩
    rw [loadSavedColors_of_stored _ _ hst]
    simp [assocGet_some_length _ _ _ hget]
  · obtain ⟨h₂, indent', hrun, _, hst₂⟩ :=
      removeSavedColor_stored (saveTabGroupColors h groups) g.id _ _ hst
    have hnone : assocGet g.id (assocDelete g.id (collectColors groups)) = none := by
      rw [assocGet_assocDelete]
      simp
    refine ⟨h₂, indent', _, hrun, hst₂, hnone, fun colors hload => ?_⟩
    rw [loadSavedColors_of_stored _ _ hst₂] at hload
    by_cases hm : 0 < (assocDelete g.id (collectColors groups)).length
    · simp only [hm, if_true, gt_iff_lt] at hload
      cases hload
      exact hnone
    · simp only [hm, if_false, gt_iff_lt] at hload
      cases hload

theorem colors_round_trip_witness :
    (∃ colors, loadSavedColors (saveTabGroupColors exampleFileHost [exampleGroup]) =
        .ok (some colors) ∧ assocGet "g1" colors = some "blue") ∧
    (∃ h₂ indent m,
      removeSavedColor (saveTabGroupColors exampleLocalHost [exampleGroup]) "g1" = .ok h₂ ∧
      storedColors h₂ = some (.json indent m) ∧ assocGet "g1" m = none) := by
  have hfile := colors_round_trip exampleFileHost [exampleGroup] exampleGroup
    (by decide) (by decide) (by decide) (by decide) (by decide)
  have hlocal := colors_round_trip exampleLocalHost [exampleGroup] exampleGroup
    (by decide) (by decide) (by decide) (by decide) (by decide)
  refine ⟨hfile.1, ?_⟩
  obtain ⟨h₂, indent, m, hrun, hst, hnone, _⟩ := hlocal.2
  exact ⟨h₂, indent, m, hrun, hst, hnone⟩

/-- C8, as stated, fails: a stored colour of a group that is not in the document is gone after
a colour is assigned to another group and `saveTabGroupColors` runs. -/
theorem saveTabGroupColors_drops_stale_key :
    storedColors
        { fileSystem := true
          files := [("tab_group_colors.json", .json 2 [("old", "red")])]
          localStorage := [] } =
      some (.json 2 [("old", "red")]) ∧
    storedColors
        (saveTabGroupColors
          { fileSystem := true
            files := [("tab_group_colors.json", .json 2 [("old", "red")])]
            localStorage := [] }
          [setTabGroupColor "rgb(1, 2, 3)"
            { id := "g1", splitViewGroup := false, tabGroupColor := "",
              tabGroupColorInvert := "", hasIconContainer := true, iconElement := none }]) =
      some (.json 2 [("g1", "rgb(1, 2, 3)")]) ∧
    assocGet "old" [("g1", "rgb(1, 2, 3)")] = none := by
  decide

/-- C8, amended: `saveTabGroupColors` writes a snapshot of the live groups. After it runs a
key is absent when no live group with that id passes the test (non-empty id, not a split-view
group, non-empty colour), whatever was stored before; a key naming exactly one live group that
passes the test is bound to the current colour of that group. -/
theorem saveTabGroupColors_snapshot (h : Host) (groups : List TabGroup) (k : String) :
    ∃ indent m, storedColors (saveTabGroupColors h groups) = some (.json indent m) ∧
      ((∀ g ∈ groups, g.id = k → ¬ savesColor g) → assocGet k m = none) ∧
      (∀ g ∈ groups, g.id = k → savesColor g → (∀ g' ∈ groups, g'.id = k → g' = g) →
        assocGet k m = some g.tabGroupColor) := by
  refine ⟨_, collectColors groups, storedColors_saveTabGroupColors h groups, ?_, ?_⟩
  · intro hno
    rw [collectColors_get]
    exact lastColor_unchanged k groups none hno
  · intro g hg hid hsv huniq
    rw [collectColors_get]
    apply lastColor_agreed
    · intro g' hg' hid' _
      rw [huniq g' hg' hid']
    · exact Or.inr ⟨g, hg, hid, hsv⟩

theorem saveTabGroupColors_snapshot_witness :
    (∃ indent m,
      storedColors (saveTabGroupColors exampleLocalHost [exampleGroup]) = some (.json indent m) ∧
      assocGet "old" m = none) ∧
    (∃ indent m,
      storedColors (saveTabGroupColors exampleLocalHost [exampleGroup]) = some (.json indent m) ∧
      assocGet "g1" m = some "blue") := by
  constructor
  · obtain ⟨indent, m, hs, hdrop, _⟩ :=
      saveTabGroupColors_snapshot exampleLocalHost [exampleGroup] "old"
    exact ⟨indent, m, hs, hdrop (by decide)⟩
  · obtain ⟨indent, m, hs, _, hkeep⟩ :=
      saveTabGroupColors_snapshot exampleLocalHost [exampleGroup] "g1"
    exact ⟨indent, m, hs,
      hkeep exampleGroup (by decide) (by decide) (by decide) (by decide)⟩

/-! ## The aggregation job -/

theorem handleEvent_eq (j : Job) (w : World) (e : ImageEvent) :
    handleEvent (j, w) e =
      if j.processedCount + 1 = j.totalFavicons ∧ j.colors ++ e.sample.toList ≠ [] then
        applyAverage
          ({ j with colors := j.colors ++ e.sample.toList
                    processedCount := j.processedCount + 1 }, w)
      else
        ({ j with colors := j.colors ++ e.sample.toList
                  processedCount := j.processedCount + 1 }, w) := by
  have hpos : ∀ l : List RGB, (l.length > 0) = (l ≠ []) := by
    intro l
    cases l <;> simp
  cases e with
  | failed =>
    simp only [handleEvent, onerror, countFailure, ImageEvent.sample, Option.toList,
      List.append_nil, hpos]
  | loaded data =>
    cases data with
    | none =>
      simp only [handleEvent, onload, countFailure, ImageEvent.sample, Option.toList,
        List.append_nil, hpos]
    | some bytes =>
      cases hx : extractSample bytes with
      | none =>
        simp only [handleEvent, onload, hx, ImageEvent.sample, Option.toList,
          List.append_nil, hpos]
        by_cases h1 : j.processedCount + 1 = j.totalFavicons
        · by_cases h2 : j.colors = [] <;> simp [h1, h2]
        · simp [h1]
      | some c =>
        simp only [handleEvent, onload, hx, ImageEvent.sample, Option.toList, hpos]
        by_cases h1 : j.processedCount + 1 = j.totalFavicons
        · simp [h1]
        · simp [h1]

theorem filterMap_sample_cons (e : ImageEvent) (rest : List ImageEvent) :
    (e :: rest).filterMap ImageEvent.sample =
      e.sample.toList ++ rest.filterMap ImageEvent.sample := by
  cases h : e.sample <;> simp [List.filterMap_cons, h]

theorem foldl_handleEvent_before (N : Nat) (w : World) (ap : List Nat) :
    ∀ (events : List ImageEvent) (cs : List RGB) (c : Nat), c + events.length < N →
      events.foldl handleEvent
          ({ colors := cs, processedCount := c, totalFavicons := N, applied := ap }, w) =
        ({ colors := cs ++ events.filterMap ImageEvent.sample
           processedCount := c + events.length
           totalFavicons := N
           applied := ap }, w) := by
  intro events
  induction events with
  | nil => intro cs c _; simp
  | cons e rest ih =>
    intro cs c hlt
    simp only [List.length_cons] at hlt
    have hne : ¬ (c + 1 = N) := by omega
    rw [List.foldl_cons, handleEvent_eq]
    simp only [hne, false_and, if_false]
    rw [ih (cs ++ e.sample.toList) (c + 1) (by omega), filterMap_sample_cons,
      List.append_assoc]
    simp only [List.length_cons]
    congr 2
    omega

theorem foldl_handleEvent_after :
    ∀ (events : List ImageEvent) (j : Job) (w : World),
      j.totalFavicons ≤ j.processedCount →
      (events.foldl handleEvent (j, w)).1.applied = j.applied ∧
      (events.foldl handleEvent (j, w)).2 = w := by
  intro events
  induction events with
  | nil => intro j w _; exact ⟨rfl, rfl⟩
  | cons e rest ih =>
    intro j w hle
    have hne : ¬ (j.processedCount + 1 = j.totalFavicons) := by omega
    rw [List.foldl_cons, handleEvent_eq]
    simp only [hne, false_and, if_false]
    exact ih _ w (by simp only; omega)

theorem pendingImages_le (favicons : List Favicon) : pendingImages favicons ≤ favicons.length :=
  List.length_filter_le _ _

theorem pendingImages_cons (f : Favicon) (rest : List Favicon) :
    pendingImages (f :: rest) =
      if f.src ≠ "" then pendingImages rest + 1 else pendingImages rest := by
  by_cases h : f.src ≠ ""
  · simp [pendingImages, List.filter_cons, h]
  · simp only [if_neg h]
    simp only [pendingImages, List.filter_cons, h, decide_False]
    simp

theorem foldl_forEachFavicon (N : Nat) (w : World) (ap : List Nat) :
    ∀ (favicons : List Favicon) (c : Nat),
      favicons.foldl forEachFavicon
          ({ colors := [], processedCount := c, totalFavicons := N, applied := ap }, w) =
        ({ colors := []
           processedCount := c + (favicons.length - pendingImages favicons)
           totalFavicons := N
           applied := ap }, w) := by
  intro favicons
  induction favicons with
  | nil => intro c; simp [pendingImages]
  | cons f rest ih =>
    intro c
    have hle := pendingImages_le rest
    rw [List.foldl_cons, pendingImages_cons]
    by_cases h : f.src ≠ ""
    · simp only [forEachFavicon, h, if_true, ih, List.length_cons, ne_eq, not_false_eq_true]
      congr 2
      omega
    · simp only [forEachFavicon, h, if_false, countFailure, List.length_nil, gt_iff_lt,
        Nat.lt_irrefl, and_false, ih, List.length_cons]
      congr 2
      omega

theorem useFaviconColor_eq (favicons : List Favicon) (w : World) (hne : favicons ≠ []) :
    _useFaviconColor favicons w =
      some ({ colors := []
              processedCount := favicons.length - pendingImages favicons
              totalFavicons := favicons.length
              applied := [] }, w) := by
  have hlen : favicons.length ≠ 0 := fun h => hne (List.length_eq_zero.mp h)
  simp only [_useFaviconColor, hlen, if_false, foldl_forEachFavicon, Nat.zero_add]

theorem runFaviconColor_pending (favicons : List Favicon) (events : List ImageEvent) (w : World)
    (hne : favicons ≠ []) (hlt : events.length < pendingImages favicons) :
    runFaviconColor favicons events w =
      ({ colors := events.filterMap ImageEvent.sample
         processedCount := favicons.length - pendingImages favicons + events.length
         totalFavicons := favicons.length
         applied := [] }, w) := by
  have hle := pendingImages_le favicons
  simp only [runFaviconColor, useFaviconColor_eq favicons w hne]
  rw [foldl_handleEvent_before _ _ _ _ _ _ (by omega)]
  simp

theorem runFaviconColor_complete (favicons : List Favicon) (events : List ImageEvent)
    (w : World) (hne : favicons ≠ []) (hlen : events.length = pendingImages favicons) :
    runFaviconColor favicons events w =
      if events.filterMap ImageEvent.sample ≠ [] then
        applyAverage
          ({ colors := events.filterMap ImageEvent.sample
             processedCount := favicons.length
             totalFavicons := favicons.length
             applied := [] }, w)
      else
        ({ colors := events.filterMap ImageEvent.sample
           processedCount := favicons.length
           totalFavicons := favicons.length
           applied := [] }, w) := by
  have hle := pendingImages_le favicons
  simp only [runFaviconColor, useFaviconColor_eq favicons w hne]
  rcases List.eq_nil_or_concat events with hnil | ⟨init, last, hcat⟩
  · subst hnil
    have hp : pendingImages favicons = 0 := by simpa using hlen.symm
    simp [hp]
  · subst hcat
    rw [List.concat_eq_append] at hlen ⊢
    simp only [List.length_append, List.length_singleton] at hlen
    rw [List.foldl_append,
      foldl_handleEvent_before favicons.length w [] init []
        (favicons.length - pendingImages favicons) (by omega)]
    simp only [List.foldl_cons, List.foldl_nil, List.nil_append]
    rw [handleEvent_eq]
    have hN : favicons.length - pendingImages favicons + init.length + 1 = favicons.length := by
      omega
    have hs : (init ++ [last]).filterMap ImageEvent.sample =
        init.filterMap ImageEvent.sample ++ last.sample.toList := by
      rw [List.filterMap_append, filterMap_sample_cons]
      simp
    simp only [hN, hs, true_and]

theorem runFaviconColor_append (favicons : List Favicon) (ev₁ ev₂ : List ImageEvent)
    (w : World) (hne : favicons ≠ []) :
    runFaviconColor favicons (ev₁ ++ ev₂) w =
      ev₂.foldl handleEvent (runFaviconColor favicons ev₁ w) := by
  simp only [runFaviconColor, useFaviconColor_eq favicons w hne, List.foldl_append]

theorem runFaviconColor_no_favicon (events : List ImageEvent) (w : World) :
    runFaviconColor [] events w =
      ({ colors := [], processedCount := 0, totalFavicons := 0, applied := [] }, w) := by
  simp [runFaviconColor, _useFaviconColor]

theorem colorString_ne_empty (c : RGB) : colorString c ≠ "" := by
  intro h
  have hlen := congrArg String.length h
  simp [colorString] at hlen
  exact absurd hlen.1.1.1.1.1.1 (by decide)

/-- C1: the block that sets `--tab-group-color` and calls `saveTabGroupColors` runs once, at
the event that makes `processedCount` equal to `totalFavicons`, when every started image has
completed and at least one of them gave a sample; it does not run otherwise: not for a group
without favicons, not while an image is still pending, not when no sample was collected, and
not again at any further event. -/
theorem useFaviconColor_applies_once (favicons : List Favicon) (events : List ImageEvent)
    (w : World) :
    (runFaviconColor favicons events w).1.applied =
      if pendingImages favicons ≤ events.length ∧
          (events.take (pendingImages favicons)).filterMap ImageEvent.sample ≠ [] then
        [favicons.length]
      else [] := by
  by_cases hne : favicons = []
  · subst hne
    simp [runFaviconColor_no_favicon, pendingImages]
  · by_cases hlt : events.length < pendingImages favicons
    · rw [runFaviconColor_pending favicons events w hne hlt]
      have hnot : ¬ pendingImages favicons ≤ events.length := by omega
      simp [hnot]
    · have hle : pendingImages favicons ≤ events.length := by omega
      have hlen : (events.take (pendingImages favicons)).length = pendingImages favicons := by
        rw [List.length_take]
        exact Nat.min_eq_left hle
      have hsplit := runFaviconColor_append favicons (events.take (pendingImages favicons))
        (events.drop (pendingImages favicons)) w hne
      rw [List.take_append_drop] at hsplit
      rw [hsplit, runFaviconColor_complete favicons _ w hne hlen]
      by_cases hs : (events.take (pendingImages favicons)).filterMap ImageEvent.sample = []
      · simp only [hs, ne_eq, not_true_eq_false, if_false, and_false]
        exact (foldl_handleEvent_after _ _ w (Nat.le_refl _)).1
      · simp only [hs, ne_eq, not_false_eq_true, if_true, hle, and_self]
        exact (foldl_handleEvent_after _ _ _ (Nat.le_refl _)).1

theorem saved_colour_is_read_back (h : Host) (before after : List TabGroup) (g : TabGroup)
    (hid : g.id ≠ "") (hsplit : g.splitViewGroup = false) (hcolor : g.tabGroupColor ≠ "")
    (hothers : ∀ g' ∈ before ++ after, g'.id ≠ g.id) :
    ∃ colors, loadSavedColors (saveTabGroupColors h (before ++ g :: after)) = .ok (some colors) ∧
      assocGet g.id colors = some g.tabGroupColor := by
  have hget : assocGet g.id (collectColors (before ++ g :: after)) = some g.tabGroupColor := by
    rw [collectColors_get]
    apply lastColor_agreed
    · intro g' hg' hid' _
      rcases List.mem_append.mp hg' with hb | ha
      · exact absurd hid' (hothers g' (List.mem_append.mpr (Or.inl hb)))
      · rcases List.mem_cons.mp ha with heq | ha'
        · rw [heq]
        · exact absurd hid' (hothers g' (List.mem_append.mpr (Or.inr ha')))
    · exact Or.inr ⟨g, List.mem_append.mpr (Or.inr (List.mem_cons_self g after)), rfl, hid,
        hsplit, hcolor⟩
  refine ⟨collectColors (before ++ g :: after), ?_, hget⟩
  rw [loadSavedColors_of_stored _ _ (storedColors_saveTabGroupColors h _)]
  simp [assocGet_some_length _ _ _ hget]

/-- C3: when every started image has completed, every favicon has been counted; an image that
fails to load, throws while being decoded, or decodes to no pixel that passes the filter gives
no sample, as does a favicon without `src`. With at least one sample the group gets the text
`rgb(R, G, B)` of the average of exactly the samples in both style properties, and
`saveTabGroupColors` runs on the document with that colour, so that for a connected group
with an id of its own that is not a split-view group the stored mapping binds its id to the
text. With no sample the group and the store stay as they were. -/
theorem useFaviconColor_tolerates_failure (favicons : List Favicon) (events : List ImageEvent)
    (w : World) (hlen : events.length = pendingImages favicons) :
    (runFaviconColor favicons events w).1.processedCount = favicons.length ∧
    (runFaviconColor favicons events w).1.colors = events.filterMap ImageEvent.sample ∧
    ImageEvent.sample .failed = none ∧
    ImageEvent.sample (.loaded none) = none ∧
    (∀ ps : List Pixel, keptPixels ps = [] →
      ImageEvent.sample (.loaded (some (rgbaBytes ps))) = none) ∧
    (events.filterMap ImageEvent.sample ≠ [] →
      (runFaviconColor favicons events w).2.group =
        { w.group with
          tabGroupColor :=
            colorString (_calculateAverageColor (events.filterMap ImageEvent.sample))
          tabGroupColorInvert :=
            colorString (_calculateAverageColor (events.filterMap ImageEvent.sample)) } ∧
      (runFaviconColor favicons events w).2.host =
        saveTabGroupColors w.host
          (World.tabGroups
            { w with
              group := setTabGroupColor
                (colorString (_calculateAverageColor (events.filterMap ImageEvent.sample)))
                w.group }) ∧
      (w.connected = true → w.group.id ≠ "" → w.group.splitViewGroup = false →
        (∀ g ∈ w.before ++ w.after, g.id ≠ w.group.id) →
        ∃ colors,
          loadSavedColors (runFaviconColor favicons events w).2.host = .ok (some colors) ∧
          assocGet w.group.id colors =
            some (colorString
              (_calculateAverageColor (events.filterMap ImageEvent.sample))))) ∧
    (events.filterMap ImageEvent.sample = [] → (runFaviconColor favicons events w).2 = w) := by
  have hpix : ∀ ps : List Pixel, keptPixels ps = [] →
      ImageEvent.sample (.loaded (some (rgbaBytes ps))) = none := by
    intro ps hk
    have h := pixelLoop_rgbaBytes ps { r := 0, g := 0, b := 0, count := 0 }
    simp only [ImageEvent.sample, extractSample, h, hk, List.length_nil, Nat.add_zero,
      gt_iff_lt, Nat.lt_irrefl, if_false]
  by_cases hne : favicons = []
  · subst hne
    have hev : events = [] := by
      apply List.length_eq_zero.mp
      simpa [pendingImages] using hlen
    subst hev
    rw [runFaviconColor_no_favicon]
    exact ⟨rfl, rfl, rfl, rfl, hpix, fun h => absurd rfl h, fun _ => rfl⟩
  · rw [runFaviconColor_complete favicons events w hne hlen]
    by_cases hs : events.filterMap ImageEvent.sample = []
    · rw [if_neg (fun h => h hs)]
      exact ⟨rfl, rfl, rfl, rfl, hpix, fun h => absurd hs h, fun _ => rfl⟩
    · rw [if_pos hs]
      refine ⟨rfl, rfl, rfl, rfl, hpix, fun _ => ⟨rfl, rfl, ?_⟩, fun h => absurd h hs⟩
      intro hconn hid hsplit hothers
      have h := saved_colour_is_read_back w.host w.before w.after
        (setTabGroupColor
          (colorString (_calculateAverageColor (events.filterMap ImageEvent.sample))) w.group)
        hid hsplit (colorString_ne_empty _) hothers
      simpa [applyAverage, World.tabGroups, hconn, setTabGroupColor] using h

theorem useFaviconColor_tolerates_failure_witness :
    exampleEvents.length = pendingImages exampleFavicons ∧
    (runFaviconColor exampleFavicons exampleEvents exampleWorld).1.processedCount = 3 ∧
    (runFaviconColor exampleFavicons exampleEvents exampleWorld).2.group.tabGroupColor =
      "rgb(200, 100, 50)" ∧
    (∃ colors,
      loadSavedColors (runFaviconColor exampleFavicons exampleEvents exampleWorld).2.host =
        .ok (some colors) ∧
      assocGet "g1" colors = some "rgb(200, 100, 50)") := by
  have h := useFaviconColor_tolerates_failure exampleFavicons exampleEvents exampleWorld
    (by decide)
  obtain ⟨hgroup, _, hstore⟩ := h.2.2.2.2.2.1 (by decide)
  refine ⟨by decide, h.1, ?_, ?_⟩
  · rw [hgroup]
    decide
  · obtain ⟨colors, hload, hget⟩ := hstore (by decide) (by decide) (by decide) (by decide)
    exact ⟨colors, hload, hget.trans (by decide)⟩

/-- C4: `_calculateAverageColor` gives the same value for every permutation of its samples,
and so the state of the group and of the store after all images have completed is the same
for every order in which they complete. -/
theorem useFaviconColor_order_independent :
    (∀ l₁ l₂ : List RGB, l₁.Perm l₂ → _calculateAverageColor l₁ = _calculateAverageColor l₂) ∧
    (∀ (favicons : List Favicon) (ev₁ ev₂ : List ImageEvent) (w : World),
      ev₁.Perm ev₂ → ev₁.length = pendingImages favicons →
      (runFaviconColor favicons ev₁ w).2 = (runFaviconColor favicons ev₂ w).2) := by
  refine ⟨fun l₁ l₂ h => calculateAverageColor_perm h, ?_⟩
  intro favicons ev₁ ev₂ w hperm hlen
  by_cases hne : favicons = []
  · subst hne
    simp only [runFaviconColor_no_favicon]
  · have hlen₂ : ev₂.length = pendingImages favicons := by rw [← hperm.length_eq, hlen]
    have hsp := hperm.filterMap ImageEvent.sample
    rw [runFaviconColor_complete favicons ev₁ w hne hlen,
      runFaviconColor_complete favicons ev₂ w hne hlen₂]
    by_cases hs : ev₁.filterMap ImageEvent.sample = []
    · have hs₂ : ev₂.filterMap ImageEvent.sample = [] := by
        rw [hs] at hsp
        exact List.Perm.eq_nil hsp.symm
      simp only [hs, hs₂, ne_eq, not_true_eq_false, if_false]
    · have hs₂ : ev₂.filterMap ImageEvent.sample ≠ [] := by
        intro h₂
        rw [h₂] at hsp
        exact hs (List.Perm.eq_nil hsp)
      simp only [hs, hs₂, ne_eq, not_false_eq_true, if_true, applyAverage,
        calculateAverageColor_perm hsp]

theorem useFaviconColor_order_independent_witness :
    _calculateAverageColor [{ r := 1, g := 2, b := 3 }, { r := 9, g := 8, b := 7 }] =
      _calculateAverageColor [{ r := 9, g := 8, b := 7 }, { r := 1, g := 2, b := 3 }] ∧
    (runFaviconColor exampleFavicons exampleEvents exampleWorld).2 =
      (runFaviconColor exampleFavicons [.loaded (some [200, 100, 50, 255]), .failed]
        exampleWorld).2 :=
  ⟨useFaviconColor_order_independent.1 _ _ (List.Perm.swap _ _ []),
   useFaviconColor_order_independent.2 exampleFavicons exampleEvents
     [.loaded (some [200, 100, 50, 255]), .failed] exampleWorld (List.Perm.swap _ _ [])
     (by decide)⟩

/-! ## The rename session -/

theorem getElem?_modifyGroup (f : GroupNode → GroupNode) (i j : Nat) (gs : List GroupNode) :
    (modifyGroup f i gs)[j]? = if j = i then gs[j]?.map f else gs[j]? := by
  induction gs generalizing i j with
  | nil => cases i <;> simp [modifyGroup]
  | cons g rest ih =>
    cases i with
    | zero =>
      cases j with
      | zero => simp [modifyGroup]
      | succ j => simp [modifyGroup]
    | succ i =>
      cases j with
      | zero => simp [modifyGroup]
      | succ j => simp [modifyGroup, ih]

theorem length_modifyGroup (f : GroupNode → GroupNode) (i : Nat) (gs : List GroupNode) :
    (modifyGroup f i gs).length = gs.length := by
  induction gs generalizing i with
  | nil => cases i <;> rfl
  | cons g rest ih => cases i <;> simp [modifyGroup, ih]

/-- C16: while a rename session is active, `renameGroupStart` on any group, with any
`selectAll`, leaves the whole state as it is: `_groupEdited` keeps its target, no input is
created and no label is hidden. -/
theorem renameGroupStart_single_flight (s : App) (i : Nat) (selectAll : Bool)
    (hactive : s.groupEdited ≠ none) : renameGroupStart s i selectAll = s := by
  have h : s.groupEdited.isSome = true := Option.isSome_iff_ne_none.mpr hactive
  simp [renameGroupStart, h]

theorem renameGroupStart_single_flight_witness :
    (renameGroupStart (exampleApp [exampleNode, exampleNode]) 0 false).groupEdited = some 0 ∧
    renameGroupStart (renameGroupStart (exampleApp [exampleNode, exampleNode]) 0 false) 1 true =
      renameGroupStart (exampleApp [exampleNode, exampleNode]) 0 false :=
  ⟨by decide,
   renameGroupStart_single_flight
     (renameGroupStart (exampleApp [exampleNode, exampleNode]) 0 false) 1 true (by decide)⟩

/-- C17: with a rename session on the label of group `i` and any text in the input, Enter sets
the label of the group to the trimmed text exactly when that is non-empty and differs from
the label, and leaves the label as it is otherwise; in both cases no exception leaves the
listener, `_groupEdited` is null, the input and the attribute `zen-renaming-group` are gone,
the label element has lost its editing class and hidden display, and no other group has
changed. -/
theorem renameGroupKeydown_enter_commits (s : App) (i : Nat) (group : GroupNode)
    (buffer : String) (hs : s.groupEdited = some i) (hg : s.groups[i]? = some group)
    (hin : s.input = some buffer) :
    (renameGroupKeydown s .enter).2 = none ∧
    (renameGroupKeydown s .enter).1.groupEdited = none ∧
    (renameGroupKeydown s .enter).1.input = none ∧
    (renameGroupKeydown s .enter).1.renamingGroup = false ∧
    (renameGroupKeydown s .enter).1.groups[i]? =
      some { group with
             label :=
               if jsTrim buffer ≠ "" ∧ jsTrim buffer ≠ group.label then jsTrim buffer
               else group.label
             labelEditing := false
             labelHidden := false } ∧
    ∀ j, j ≠ i → (renameGroupKeydown s .enter).1.groups[j]? = s.groups[j]? := by
  by_cases h1 : jsTrim buffer = ""
  · simp [renameGroupKeydown, hs, hin, hg, h1, getElem?_modifyGroup]
    intro j hj
    simp [hj]
  · by_cases h2 : jsTrim buffer = group.label
    · simp [renameGroupKeydown, hs, hin, hg, h1, h2, getElem?_modifyGroup]
      intro j hj
      simp [hj]
    · simp [renameGroupKeydown, hs, hin, hg, h1, h2, getElem?_modifyGroup]
      intro j hj
      simp [hj]

theorem renameGroupKeydown_enter_commits_witness :
    exampleEditing.groupEdited = some 0 ∧
    (renameGroupKeydown exampleEditing .enter).1.groupEdited = none ∧
    (renameGroupKeydown exampleEditing .enter).1.groups[0]? =
      some { exampleNode with label := "Work" } := by
  have h := renameGroupKeydown_enter_commits exampleEditing 0
    { exampleNode with labelEditing := true, labelHidden := true } "  Work "
    (by decide) (by decide) (by decide)
  refine ⟨by decide, h.2.1, ?_⟩
  rw [h.2.2.2.2.1]
  decide

/-- C18: with a rename session on the label of group `i` and the input holding the focus,
Escape blurs the input and `renameGroupHalt` ends the session: `_groupEdited` is null, the
input is gone, and every group has the label it had before, the group of the session having
only lost the editing class and hidden display of its label element. -/
theorem renameGroupKeydown_escape_cancels (s : App) (i : Nat) (group : GroupNode)
    (hs : s.groupEdited = some i) (hg : s.groups[i]? = some group)
    (hfocus : s.activeElement = .input) :
    (renameGroupKeydown s .escape).2 = none ∧
    (renameGroupKeydown s .escape).1.groupEdited = none ∧
    (renameGroupKeydown s .escape).1.input = none ∧
    (renameGroupKeydown s .escape).1.renamingGroup = false ∧
    (renameGroupKeydown s .escape).1.groups[i]? =
      some { group with labelEditing := false, labelHidden := false } ∧
    (∀ j, j ≠ i → (renameGroupKeydown s .escape).1.groups[j]? = s.groups[j]?) ∧
    (∀ (j : Nat) (g : GroupNode), s.groups[j]? = some g →
      ∃ g' : GroupNode,
        (renameGroupKeydown s .escape).1.groups[j]? = some g' ∧ g'.label = g.label) := by
  have hrun : (renameGroupKeydown s .escape).1 =
      { s with
        activeElement := .elsewhere
        renamingGroup := false
        input := none
        groups :=
          modifyGroup (fun g => { g with labelEditing := false, labelHidden := false }) i s.groups
        groupEdited := none } := by
    simp [renameGroupKeydown, blurInput, onInputBlur, renameGroupHalt, hfocus, hs]
  rw [hrun]
  refine ⟨rfl, rfl, rfl, rfl, ?_, ?_, ?_⟩
  · simp [getElem?_modifyGroup, hg]
  · intro j hj
    simp [getElem?_modifyGroup, hj]
  · intro j g hj
    by_cases hji : j = i
    · subst hji
      exact ⟨{ g with labelEditing := false, labelHidden := false },
        by simp [getElem?_modifyGroup, hj], rfl⟩
    · exact ⟨g, by simp [getElem?_modifyGroup, hji, hj], rfl⟩

theorem renameGroupKeydown_escape_cancels_witness :
    exampleEditing.groupEdited = some 0 ∧
    (renameGroupKeydown exampleEditing .escape).1.groupEdited = none ∧
    (renameGroupKeydown exampleEditing .escape).1.groups[0]? = some exampleNode := by
  have h := renameGroupKeydown_escape_cancels exampleEditing 0
    { exampleNode with labelEditing := true, labelHidden := true }
    (by decide) (by decide) (by decide)
  exact ⟨by decide, h.2.1, h.2.2.2.2.1⟩

/-- C19, as stated, fails: a `blur` event that reaches the input while `document.activeElement`
is still the input leaves the rename session active. -/
theorem blur_with_focus_on_input_keeps_session :
    exampleEditing.groupEdited = some 0 ∧
    (onInputBlur exampleEditing .input).groupEdited = some 0 ∧
    (onInputBlur exampleEditing .input).input = some "  Work " ∧
    (onInputBlur exampleEditing .input).renamingGroup = true := by
  decide

/-- C19, amended: when the input receives a `blur` event and `document.activeElement` is not
the input, `renameGroupHalt` ends the session: `_groupEdited` is null, `zen-renaming-group`
and the input are gone and the label is shown again; when `document.activeElement` is still
the input, `renameGroupHalt` returns at its guard and the state stays as it is. -/
theorem renameGroupHalt_unless_focused (s : App) (i : Nat) (group : GroupNode)
    (hs : s.groupEdited = some i) (hg : s.groups[i]? = some group) :
    (onInputBlur s .elsewhere).groupEdited = none ∧
    (onInputBlur s .elsewhere).renamingGroup = false ∧
    (onInputBlur s .elsewhere).input = none ∧
    (onInputBlur s .elsewhere).groups[i]? =
      some { group with labelEditing := false, labelHidden := false } ∧
    onInputBlur s .input = { s with activeElement := .input } := by
  refine ⟨?_, ?_, ?_, ?_, ?_⟩
  · simp [onInputBlur, renameGroupHalt, hs]
  · simp [onInputBlur, renameGroupHalt, hs]
  · simp [onInputBlur, renameGroupHalt, hs]
  · simp [onInputBlur, renameGroupHalt, hs, getElem?_modifyGroup, hg]
  · simp [onInputBlur, renameGroupHalt]

theorem renameGroupHalt_unless_focused_witness :
    exampleEditing.groupEdited = some 0 ∧
    (onInputBlur exampleEditing .elsewhere).groupEdited = none ∧
    (onInputBlur exampleEditing .elsewhere).groups[0]? = some exampleNode ∧
    onInputBlur exampleEditing .input = exampleEditing := by
  have h := renameGroupHalt_unless_focused exampleEditing 0
    { exampleNode with labelEditing := true, labelHidden := true } (by decide) (by decide)
  exact ⟨by decide, h.1, h.2.2.2.1, h.2.2.2.2⟩

/-! ## The shared context menu -/

theorem onContextMenu_eq (s : App) (i : Nat) (group : GroupNode) (hg : s.groups[i]? = some group)
    (hl : group.contextMenuListeners > 0) :
    onContextMenu s i = { s with contextMenuCurrentGroup := some i } := by
  simp [onContextMenu, hg, hl]

/-- C20: for two groups `a` and `b` with the `contextmenu` listener on their label containers:
after the menu is opened on `a` and closed without a command, `_contextMenuCurrentGroup` is
null; when it is then opened on `b` and a command fires, the only action applied is that
command on `b` (none when the test of the command's listener fails on `b`), so no action is
applied to `a`; the favicon command starts the aggregation of `b` and the rename command
starts the rename session on the label of `b`. -/
theorem shared_menu_targets_latest (s : App) (a b : Nat) (ga gb : GroupNode) (c : MenuCommand)
    (ha : s.groups[a]? = some ga) (hb : s.groups[b]? = some gb)
    (hla : ga.contextMenuListeners > 0) (hlb : gb.contextMenuListeners > 0) :
    (onContextMenu s a).contextMenuCurrentGroup = some a ∧
    (onPopupHidden (onContextMenu s a)).contextMenuCurrentGroup = none ∧
    (onCommand (onPopupHidden (onContextMenu s a)) c).actions = s.actions ∧
    ((onCommand (onContextMenu (onPopupHidden (onContextMenu s a)) b) c).actions =
        s.actions ++ [(c, b)] ∨
      ((onCommand (onContextMenu (onPopupHidden (onContextMenu s a)) b) c).actions =
          s.actions ∧
        (((c = .setGroupColor ∨ c = .useFaviconColor) ∧ gb.contextMethods = false) ∨
          (c = .ungroupTabs ∧ gb.hasUngroupTabs = false)))) ∧
    (c = .useFaviconColor → gb.contextMethods = true →
      (onCommand (onContextMenu (onPopupHidden (onContextMenu s a)) b) c).aggregations =
        s.aggregations ++ [b]) ∧
    (c = .renameGroup → s.groupEdited = none → gb.hasLabelElement = true →
      (onCommand (onContextMenu (onPopupHidden (onContextMenu s a)) b) c).groupEdited =
        some b ∧
      (onCommand (onContextMenu (onPopupHidden (onContextMenu s a)) b) c).renameStarts =
        s.renameStarts ++ [(b, true)]) := by
  have h1 : onContextMenu s a = { s with contextMenuCurrentGroup := some a } :=
    onContextMenu_eq s a ga ha hla
  have h2 : onContextMenu (onPopupHidden (onContextMenu s a)) b =
      { s with contextMenuCurrentGroup := some b } := by
    rw [h1]
    exact onContextMenu_eq _ b gb (by simpa [onPopupHidden] using hb) hlb
  rw [h2, h1]
  refine ⟨rfl, rfl, rfl, ?_, ?_, ?_⟩
  · cases c with
    | setGroupColor =>
      cases hm : gb.contextMethods <;> simp [onCommand, hb, hm]
    | useFaviconColor =>
      cases hm : gb.contextMethods <;> simp [onCommand, hb, hm, callUseFaviconColor]
    | renameGroup =>
      left
      simp only [onCommand, hb, renameGroupStart]
      split
      · rfl
      · split
        · rfl
        · split <;> rfl
    | changeGroupIcon => simp [onCommand, hb]
    | ungroupTabs =>
      cases hm : gb.hasUngroupTabs <;> simp [onCommand, hb, hm]
    | convertGroupToFolder => simp [onCommand, hb]
  · intro hc hm
    subst hc
    simp [onCommand, hb, hm, callUseFaviconColor]
  · intro hc hidle hlabel
    subst hc
    simp [onCommand, hb, renameGroupStart, hidle, hlabel]

theorem shared_menu_targets_latest_witness :
    (onPopupHidden
      (onContextMenu (processGroup (processGroup (exampleApp [exampleNode, exampleNode]) 0) 1)
        0)).contextMenuCurrentGroup = none ∧
    (onCommand
      (onContextMenu
        (onPopupHidden
          (onContextMenu
            (processGroup (processGroup (exampleApp [exampleNode, exampleNode]) 0) 1) 0))
        1)
      .useFaviconColor).aggregations = [1] := by
  have h := shared_menu_targets_latest
    (processGroup (processGroup (exampleApp [exampleNode, exampleNode]) 0) 1) 0 1
    { exampleNode with
      iconContainers := 1, stashButtons := 1, closeButtons := 1, contextMenuListeners := 1,
      contextMenuAdded := true, contextMethods := true, editorModeCreate := false,
      labelEditing := true, labelHidden := true }
    { exampleNode with
      iconContainers := 1, stashButtons := 1, closeButtons := 1, contextMenuListeners := 1,
      contextMenuAdded := true, contextMethods := true, editorModeCreate := false }
    .useFaviconColor (by decide) (by decide) (by decide) (by decide)
  exact ⟨h.2.1, h.2.2.2.2.1 rfl rfl⟩

/-! ## The registry -/

theorem map_getElem?_modifyGroup {α : Type} (view : GroupNode → α) (f : GroupNode → GroupNode)
    (hf : ∀ g, view (f g) = view g) (i j : Nat) (gs : List GroupNode) :
    ((modifyGroup f i gs)[j]?).map view = (gs[j]?).map view := by
  rw [getElem?_modifyGroup]
  by_cases h : j = i
  · rw [if_pos h]
    cases gs[j]? with
    | none => rfl
    | some g => simp [hf]
  · rw [if_neg h]

theorem renameGroupStart_view {α : Type} (view : GroupNode → α)
    (hview : ∀ g a b, view { g with labelEditing := a, labelHidden := b } = view g)
    (s : App) (i : Nat) (selectAll : Bool) (j : Nat) :
    ((renameGroupStart s i selectAll).groups[j]?).map view = (s.groups[j]?).map view := by
  unfold renameGroupStart
  split
  · rfl
  · split
    · rfl
    · split
      · rfl
      · exact map_getElem?_modifyGroup view _ (fun g => hview g true true) i j s.groups

theorem renameGroupStart_other (s : App) (i : Nat) (selectAll : Bool) (j : Nat) (hne : j ≠ i) :
    (renameGroupStart s i selectAll).groups[j]? = s.groups[j]? := by
  unfold renameGroupStart
  split
  · rfl
  · split
    · rfl
    · split
      · rfl
      · simp [getElem?_modifyGroup, hne]

theorem addContextMenu_view {α : Type} (view : GroupNode → α)
    (hview : ∀ g a n b,
      view { g with contextMenuAdded := a, contextMenuListeners := n, contextMethods := b } =
        view g)
    (s : App) (i j : Nat) :
    ((addContextMenu s i).groups[j]?).map view = (s.groups[j]?).map view := by
  unfold addContextMenu
  split
  · rfl
  · split
    · rfl
    · have hgroups : (ensureSharedContextMenu s).groups = s.groups := by
        unfold ensureSharedContextMenu
        split <;> rfl
      simp only [hgroups]
      exact map_getElem?_modifyGroup view _ (fun g => hview g _ _ _) i j s.groups

theorem addContextMenu_other (s : App) (i j : Nat) (hne : j ≠ i) :
    (addContextMenu s i).groups[j]? = s.groups[j]? := by
  unfold addContextMenu
  split
  · rfl
  · split
    · rfl
    · have hgroups : (ensureSharedContextMenu s).groups = s.groups := by
        unfold ensureSharedContextMenu
        split <;> rfl
      simp [hgroups, getElem?_modifyGroup, hne]

theorem processGroup_other (s : App) (i j : Nat) (hne : j ≠ i) :
    (processGroup s i).groups[j]? = s.groups[j]? := by
  unfold processGroup
  split
  · rfl
  · split
    · rfl
    · split
      · rfl
      · split
        · rfl
        · rw [addContextMenu_other _ i j hne]
          split
          · split
            · show (renameGroupStart _ i false).groups[j]? = _
              rw [renameGroupStart_other _ i false j hne]
              simp [getElem?_modifyGroup, hne]
            · rw [renameGroupStart_other _ i false j hne]
              simp [getElem?_modifyGroup, hne]
          · simp [getElem?_modifyGroup, hne]

theorem processGroup_skip (s : App) (i : Nat) (g : GroupNode) (hg : s.groups[i]? = some g)
    (hskip : ¬ processable g) : processGroup s i = s := by
  unfold processGroup
  simp only [hg]
  by_cases h1 : g.closeButtonAdded = true ∨ g.zenFolderClass = true ∨ g.zenFolderAttr = true ∨
      g.splitViewGroup = true
  · rw [if_pos h1]
  · rw [if_neg h1]
    by_cases h2 : g.hasLabelContainer = false
    · rw [if_pos h2]
    · rw [if_neg h2]
      by_cases h3 : g.closeButtons > 0
      · rw [if_pos h3]
      · exfalso
        apply hskip
        simp only [not_or, Bool.not_eq_true] at h1
        exact ⟨h1.1, h1.2.1, h1.2.2.1, h1.2.2.2, by simpa using h2, by omega⟩

theorem ensureSharedContextMenu_groups (s : App) :
    (ensureSharedContextMenu s).groups = s.groups := by
  unfold ensureSharedContextMenu
  split <;> rfl

theorem addContextMenu_self (s : App) (i : Nat) (g : GroupNode) (hg : s.groups[i]? = some g) :
    (addContextMenu s i).groups[i]? =
      some (if g.contextMenuAdded then g
        else
          { g with
            contextMenuAdded := true
            contextMenuListeners :=
              if g.hasLabelContainer then g.contextMenuListeners + 1
              else g.contextMenuListeners
            contextMethods := true }) := by
  unfold addContextMenu
  simp only [hg]
  by_cases ha : g.contextMenuAdded = true
  · simp [ha, hg]
  · simp [ha, ensureSharedContextMenu_groups, getElem?_modifyGroup, hg]

theorem renameGroupStart_self (s : App) (i : Nat) (selectAll : Bool) (g : GroupNode)
    (hg : s.groups[i]? = some g) :
    (renameGroupStart s i selectAll).groups[i]? =
      some (if s.groupEdited.isNone && g.hasLabelElement then
          { g with labelEditing := true, labelHidden := true }
        else g) := by
  unfold renameGroupStart
  cases hed : s.groupEdited with
  | some k => simp [hg]
  | none =>
    cases hl : g.hasLabelElement <;> simp [hg, hl, getElem?_modifyGroup]

theorem processGroup_run (s : App) (i : Nat) (g : GroupNode) (hg : s.groups[i]? = some g)
    (hp : processable g) :
    processGroup s i =
      addContextMenu
        (if isNewGroup g then
          if g.contextMethods then
            callUseFaviconColor
              (renameGroupStart { s with groups := modifyGroup injectAffordances i s.groups }
                i false) i
          else
            renameGroupStart { s with groups := modifyGroup injectAffordances i s.groups } i false
        else { s with groups := modifyGroup injectAffordances i s.groups })
        i := by
  obtain ⟨h1, h2, h3, h4, h5, h6⟩ := hp
  simp [processGroup, hg, h1, h2, h3, h4, h5, h6]

theorem processGroup_self (s : App) (i : Nat) (g : GroupNode) (hg : s.groups[i]? = some g)
    (hp : processable g) :
    (processGroup s i).groups[i]? =
      some { g with
             iconContainers := g.iconContainers + 1
             stashButtons := g.stashButtons + 1
             closeButtons := g.closeButtons + 1
             editorModeCreate := false
             labelEditing := g.labelEditing || startsRename s g
             labelHidden := g.labelHidden || startsRename s g
             contextMenuAdded := true
             contextMenuListeners :=
               if g.contextMenuAdded then g.contextMenuListeners
               else g.contextMenuListeners + 1
             contextMethods := g.contextMethods || !g.contextMenuAdded } := by
  have hlc : g.hasLabelContainer = true := hp.2.2.2.2.1
  have h₁ : ({ s with groups := modifyGroup injectAffordances i s.groups } : App).groups[i]? =
      some (injectAffordances g) := by
    simp [getElem?_modifyGroup, hg]
  have h₂ := renameGroupStart_self _ i false _ h₁
  rw [processGroup_run s i g hg hp]
  cases hnew : isNewGroup g with
  | false =>
    refine (addContextMenu_self _ i _ h₁).trans ?_
    cases ha : g.contextMenuAdded <;>
      simp [startsRename, hnew, ha, hlc, injectAffordances]
  | true =>
    cases hm : g.contextMethods with
    | false =>
      refine (addContextMenu_self _ i _ h₂).trans ?_
      cases ha : g.contextMenuAdded <;> cases hed : s.groupEdited <;>
        cases hl : g.hasLabelElement <;>
        simp [startsRename, hnew, ha, hlc, hed, hl, hm, injectAffordances]
    | true =>
      refine (addContextMenu_self (callUseFaviconColor _ i) i _ h₂).trans ?_
      cases ha : g.contextMenuAdded <;> cases hed : s.groupEdited <;>
        cases hl : g.hasLabelElement <;>
        simp [startsRename, hnew, ha, hlc, hed, hl, hm, injectAffordances]

theorem processGroup_of_none (s : App) (i : Nat) (hg : s.groups[i]? = none) :
    processGroup s i = s := by
  simp [processGroup, hg]

theorem processGroup_twice (s : App) (i : Nat) :
    processGroup (processGroup s i) i = processGroup s i := by
  cases hg : s.groups[i]? with
  | none => rw [processGroup_of_none s i hg, processGroup_of_none s i hg]
  | some g =>
    by_cases hp : processable g
    · apply processGroup_skip _ i _ (processGroup_self s i g hg hp)
      intro hp'
      have h := hp'.2.2.2.2.2
      simp at h
    · rw [processGroup_skip s i g hg hp, processGroup_skip s i g hg hp]

/-- C12: `processGroup` called twice on a group leaves the state a single call leaves, so the
second call starts no rename and no colour aggregation; for a group that passes the tests of
`processGroup` and had nothing injected and no listener, the label container then holds exactly
one icon container, one stash button and one close button and has one `contextmenu`
listener. -/
theorem processGroup_idempotent (s : App) (i : Nat) :
    processGroup (processGroup s i) i = processGroup s i ∧
    (processGroup (processGroup s i) i).renameStarts = (processGroup s i).renameStarts ∧
    (processGroup (processGroup s i) i).aggregations = (processGroup s i).aggregations ∧
    (∀ g : GroupNode, s.groups[i]? = some g → processable g → g.iconContainers = 0 →
      g.stashButtons = 0 → g.contextMenuListeners = 0 → g.contextMenuAdded = false →
      ∃ g' : GroupNode, (processGroup (processGroup s i) i).groups[i]? = some g' ∧
        g'.iconContainers = 1 ∧ g'.stashButtons = 1 ∧ g'.closeButtons = 1 ∧
        g'.contextMenuListeners = 1) := by
  have htwice := processGroup_twice s i
  refine ⟨htwice, by rw [htwice], by rw [htwice], ?_⟩
  intro g hg hp h1 h2 h3 h4
  rw [htwice, processGroup_self s i g hg hp]
  exact ⟨_, rfl, by simp [h1], by simp [h2], by simp [hp.2.2.2.2.2], by simp [h3, h4]⟩

theorem processGroup_idempotent_witness :
    (processGroup (processGroup (exampleApp [exampleNode]) 0) 0).renameStarts = [(0, false)] ∧
    (∃ g' : GroupNode,
      (processGroup (processGroup (exampleApp [exampleNode]) 0) 0).groups[0]? = some g' ∧
      g'.iconContainers = 1 ∧ g'.stashButtons = 1 ∧ g'.closeButtons = 1 ∧
      g'.contextMenuListeners = 1) :=
  ⟨((processGroup_idempotent (exampleApp [exampleNode]) 0).2.1).trans (by decide),
   (processGroup_idempotent (exampleApp [exampleNode]) 0).2.2.2 exampleNode (by decide)
     (by decide) (by decide) (by decide) (by decide) (by decide)⟩

theorem not_processable_of_excluded (g : GroupNode) (hex : excluded g) : ¬ processable g := by
  intro hp
  rcases hex with h | h | h
  · rw [hp.2.2.2.1] at h
    cases h
  · rw [hp.2.2.1] at h
    cases h
  · rw [hp.2.1] at h
    cases h

theorem excluded_of_registryView (g g' : GroupNode) (hview : registryView g' = registryView g)
    (hex : excluded g) : excluded g' := by
  simp only [registryView, Prod.mk.injEq] at hview
  obtain ⟨⟨h1, h2, h3, _⟩, _, _⟩ := hview
  unfold excluded at hex ⊢
  rw [h1, h2, h3]
  exact hex

theorem processGroup_keeps_excluded (s : App) (i j : Nat) (g : GroupNode)
    (hg : s.groups[j]? = some g) (hex : excluded g) :
    (processGroup s i).groups[j]? = some g := by
  by_cases hji : j = i
  · subst hji
    rw [processGroup_skip s j g hg (not_processable_of_excluded g hex), hg]
  · rw [processGroup_other s i j hji, hg]

theorem foldl_processGroup_keeps_excluded (l : List Nat) (s : App) (j : Nat) (g : GroupNode)
    (hg : s.groups[j]? = some g) (hex : excluded g) :
    (l.foldl
      (fun s i =>
        match s.groups[i]? with
        | some group => if group.splitViewGroup = false then processGroup s i else s
        | none => s)
      s).groups[j]? = some g := by
  induction l generalizing s with
  | nil => exact hg
  | cons i rest ih =>
    rw [List.foldl_cons]
    apply ih
    split
    · split
      · exact processGroup_keeps_excluded s i j g hg hex
      · exact hg
    · exact hg

theorem autoStartNewGroup_view {α : Type} (view : GroupNode → α)
    (hview : ∀ g a b, view { g with labelEditing := a, labelHidden := b } = view g)
    (s : App) (i j : Nat) :
    ((autoStartNewGroup s i).groups[j]?).map view = (s.groups[j]?).map view := by
  have hrename := renameGroupStart_view view hview s i false j
  unfold autoStartNewGroup
  cases hgi : s.groups[i]? with
  | none => rfl
  | some group =>
    cases hnew : isNewGroup group with
    | false => simp [hnew]
    | true =>
      cases hm : group.contextMethods <;> cases hed : s.groupEdited <;>
        simp [hnew, hm, hed, hrename]

theorem discover_keeps_excluded (s : App) (event : Discovery) (j : Nat) (g : GroupNode)
    (hg : s.groups[j]? = some g) (hex : excluded g) :
    ∃ g' : GroupNode, (discover s event).groups[j]? = some g' ∧
      registryView g' = registryView g := by
  have hview : ∀ (g : GroupNode) (a b : Bool),
      registryView { g with labelEditing := a, labelHidden := b } = registryView g :=
    fun _ _ _ => rfl
  cases event with
  | added i =>
    refine ⟨g, ?_, rfl⟩
    simp only [discover, onGroupAdded]
    split
    · split
      · exact processGroup_keeps_excluded s i j g hg hex
      · exact hg
    · exact hg
  | existing => exact ⟨g, foldl_processGroup_keeps_excluded _ s j g hg hex, rfl⟩
  | direct i => exact ⟨g, processGroup_keeps_excluded s i j g hg hex, rfl⟩
  | created target =>
    cases target with
    | none => exact ⟨g, hg, rfl⟩
    | some i =>
      simp only [discover, onTabGroupCreate]
      split
      · exact ⟨g, hg, rfl⟩
      · split
        · exact ⟨g, hg, rfl⟩
        · rename_i group _ _
          have h₁ : ∀ c : Bool,
              (if c = false then processGroup s i else s).groups[j]? = some g := by
            intro c
            cases c
            · exact processGroup_keeps_excluded s i j g hg hex
            · exact hg
          have h₂ := autoStartNewGroup_view registryView hview
            (if group.closeButtonAdded = false then processGroup s i else s) i j
          rw [h₁ group.closeButtonAdded] at h₂
          cases hx : (autoStartNewGroup
              (if group.closeButtonAdded = false then processGroup s i else s) i).groups[j]? with
          | none => rw [hx] at h₂; cases h₂
          | some g' =>
            rw [hx] at h₂
            exact ⟨g', rfl, Option.some.inj h₂⟩

/-- C13: a group that carries an exclusion marker (the `split-view-group` attribute, the
`zen-folder` attribute or the `zen-folder` class) is never initialized: after any number of
discoveries in any order (mutation observer, `processExistingGroups`, `TabGroupCreate`, direct
`processGroup` calls, on it or on other groups) it has the icon containers, stash buttons,
close buttons and `contextmenu` listeners it had, and `addContextMenu` has not touched it. -/
theorem excluded_never_initialized (events : List Discovery) (s : App) (j : Nat)
    (g : GroupNode) (hg : s.groups[j]? = some g)
    (hex : g.splitViewGroup = true ∨ g.zenFolderAttr = true ∨ g.zenFolderClass = true) :
    ∃ g' : GroupNode, (events.foldl discover s).groups[j]? = some g' ∧
      g'.iconContainers = g.iconContainers ∧ g'.stashButtons = g.stashButtons ∧
      g'.closeButtons = g.closeButtons ∧
      g'.contextMenuListeners = g.contextMenuListeners ∧
      g'.contextMenuAdded = g.contextMenuAdded ∧ g'.contextMethods = g.contextMethods := by
  have hinv : ∀ (events : List Discovery) (s : App) (g₀ : GroupNode),
      s.groups[j]? = some g₀ → registryView g₀ = registryView g →
      ∃ g' : GroupNode, (events.foldl discover s).groups[j]? = some g' ∧
        registryView g' = registryView g := by
    intro events
    induction events with
    | nil => intro s g₀ h₀ hv; exact ⟨g₀, h₀, hv⟩
    | cons event rest ih =>
      intro s g₀ h₀ hv
      obtain ⟨g₁, h₁, hv₁⟩ :=
        discover_keeps_excluded s event j g₀ h₀ (excluded_of_registryView g g₀ hv hex)
      exact ih (discover s event) g₁ h₁ (hv₁.trans hv)
  obtain ⟨g', hg', hv⟩ := hinv events s g hg rfl
  simp only [registryView, Prod.mk.injEq] at hv
  obtain ⟨_, ⟨h1, h2, h3, h4⟩, h5, h6⟩ := hv
  exact ⟨g', hg', h1, h2, h3, h4, h5, h6⟩


theorem excluded_never_initialized_witness :
    ∃ g' : GroupNode,
      ([Discovery.existing, .created (some 0), .added 0, .direct 0].foldl discover
        (exampleApp [{ exampleNode with zenFolderAttr := true }])).groups[0]? = some g' ∧
      g'.iconContainers = 0 ∧ g'.stashButtons = 0 ∧ g'.closeButtons = 0 ∧
      g'.contextMenuListeners = 0 ∧ g'.contextMenuAdded = false ∧ g'.contextMethods = false :=
  excluded_never_initialized [.existing, .created (some 0), .added 0, .direct 0]
    (exampleApp [{ exampleNode with zenFolderAttr := true }]) 0
    { exampleNode with zenFolderAttr := true } (by decide) (by decide)

theorem addContextMenu_logs (s : App) (i : Nat) :
    (addContextMenu s i).renameStarts = s.renameStarts ∧
    (addContextMenu s i).aggregations = s.aggregations := by
  unfold addContextMenu ensureSharedContextMenu
  split
  · exact ⟨rfl, rfl⟩
  · split
    · exact ⟨rfl, rfl⟩
    · split <;> exact ⟨rfl, rfl⟩

theorem renameGroupStart_logs (s : App) (i : Nat) (selectAll : Bool) (g : GroupNode)
    (hg : s.groups[i]? = some g) :
    (renameGroupStart s i selectAll).renameStarts =
      s.renameStarts ++
        (if s.groupEdited.isNone && g.hasLabelElement then [(i, selectAll)] else []) ∧
    (renameGroupStart s i selectAll).aggregations = s.aggregations := by
  unfold renameGroupStart
  cases hed : s.groupEdited with
  | some k => simp
  | none => cases hl : g.hasLabelElement <;> simp [hg, hl]

/-- C14 fails on the code: a `processGroup` call that injects the affordances and wires the
context menu leaves the group without the attribute `data-close-button-added` that
`processGroup` and `onTabGroupCreate` test at entry; no statement of the source sets it. -/
theorem processGroup_leaves_marker_unset (s : App) (i : Nat) (g : GroupNode)
    (hg : s.groups[i]? = some g) (hp : processable g) :
    ∃ g' : GroupNode, (processGroup s i).groups[i]? = some g' ∧
      g'.closeButtons = g.closeButtons + 1 ∧ g'.iconContainers = g.iconContainers + 1 ∧
      g'.stashButtons = g.stashButtons + 1 ∧ g'.contextMenuAdded = true ∧
      g'.closeButtonAdded = false :=
  ⟨_, processGroup_self s i g hg hp, rfl, rfl, rfl, rfl, hp.1⟩

theorem processGroup_leaves_marker_unset_witness :
    ∃ g' : GroupNode, (processGroup (exampleApp [exampleNode]) 0).groups[0]? = some g' ∧
      g'.closeButtons = 1 ∧ g'.iconContainers = 1 ∧ g'.stashButtons = 1 ∧
      g'.contextMenuAdded = true ∧ g'.closeButtonAdded = false :=
  processGroup_leaves_marker_unset (exampleApp [exampleNode]) 0 exampleNode (by decide)
    (by decide)

/-- C15 fails on the code: on a group that passes the tests of `processGroup` and has not been
through `addContextMenu`, so that `group._useFaviconColor` is not yet a function,
`processGroup` starts the rename with `selectAll = false` exactly when the label is empty or
the default one (no session being active, the label element being there), but it never calls
the favicon colour aggregation, whatever the label is; `addContextMenu` defines the method
only afterwards. -/
theorem processGroup_skips_aggregation (s : App) (i : Nat) (g : GroupNode)
    (hg : s.groups[i]? = some g) (hp : processable g) (hfresh : g.contextMethods = false)
    (hadded : g.contextMenuAdded = false) :
    (processGroup s i).aggregations = s.aggregations ∧
    (processGroup s i).renameStarts =
      s.renameStarts ++
        (if (g.label = "" ∨ g.defaultGroupName = some g.label) ∧ s.groupEdited = none ∧
            g.hasLabelElement = true then [(i, false)]
         else []) ∧
    ∃ g' : GroupNode, (processGroup s i).groups[i]? = some g' ∧ g'.contextMethods = true := by
  have h₁ : ({ s with groups := modifyGroup injectAffordances i s.groups } : App).groups[i]? =
      some (injectAffordances g) := by
    simp [getElem?_modifyGroup, hg]
  have hlogs := renameGroupStart_logs
    { s with groups := modifyGroup injectAffordances i s.groups } i false _ h₁
  refine ⟨?_, ?_, ⟨_, processGroup_self s i g hg hp, by simp [hfresh, hadded]⟩⟩
  · rw [processGroup_run s i g hg hp, (addContextMenu_logs _ i).2]
    cases hnew : isNewGroup g with
    | false => simp
    | true => simp [hfresh, hlogs.2]
  · rw [processGroup_run s i g hg hp, (addContextMenu_logs _ i).1]
    cases hnew : isNewGroup g with
    | false =>
      have hno : ¬ (g.label = "" ∨ g.defaultGroupName = some g.label) := by
        simpa [isNewGroup] using hnew
      simp [hno]
    | true =>
      have hyes : g.label = "" ∨ g.defaultGroupName = some g.label := by
        simpa [isNewGroup] using hnew
      simp only [hfresh, if_true, Bool.false_eq_true, if_false, hlogs.1]
      cases hed : s.groupEdited <;> cases hl : g.hasLabelElement <;>
        simp [hyes, injectAffordances, hl]

theorem processGroup_skips_aggregation_witness :
    (processGroup (exampleApp [exampleNode]) 0).aggregations = [] ∧
    (processGroup (exampleApp [exampleNode]) 0).renameStarts = [(0, false)] :=
  ⟨(processGroup_skips_aggregation (exampleApp [exampleNode]) 0 exampleNode (by decide)
      (by decide) (by decide) (by decide)).1,
   ((processGroup_skips_aggregation (exampleApp [exampleNode]) 0 exampleNode (by decide)
      (by decide) (by decide) (by decide)).2.1).trans (by decide)⟩

/-- C11 fails on the code for the `localStorage` fallback: with stored icons text that is not
JSON, `saveGroupIcon` ends without an error but writes nothing, so the store still holds the
corrupt text; the file backend does replace corrupt text by the mapping `{k -> v}`. -/
theorem saveGroupIcon_keeps_corrupt_localStorage :
    storedIcons exampleLocalHost = some .malformed ∧
    saveGroupIcon exampleLocalHost "g1" "icon.svg" = .ok exampleLocalHost ∧
    storedIcons
        { fileSystem := true, files := [("tab_group_icons.json", .malformed)],
          localStorage := [] } = some .malformed ∧
    saveGroupIcon
        { fileSystem := true, files := [("tab_group_icons.json", .malformed)],
          localStorage := [] } "g1" "icon.svg" =
      .ok { fileSystem := true
            files := [("tab_group_icons.json", .json 2 [("g1", "icon.svg")])]
            localStorage := [] } :=
  ⟨by decide, rfl, by decide, rfl⟩

/-! ## States the handlers reach -/

theorem getElem?_modifyGroup_ne_none (f : GroupNode → GroupNode) (i j : Nat)
    (gs : List GroupNode) (h : gs[j]? ≠ none) : (modifyGroup f i gs)[j]? ≠ none := by
  rw [getElem?_modifyGroup]
  split
  · cases hj : gs[j]? with
    | none => exact absurd hj h
    | some g => simp
  · exact h

theorem sessionConsistent_of_fields (s t : App) (hs : sessionConsistent s)
    (hed : t.groupEdited = s.groupEdited) (hin : t.input = s.input)
    (hact : t.activeElement = s.activeElement)
    (hgroups : ∀ j : Nat, s.groups[j]? ≠ none → t.groups[j]? ≠ none) :
    sessionConsistent t := by
  intro i hi
  rw [hed] at hi
  obtain ⟨h1, h2, h3⟩ := hs i hi
  exact ⟨by rw [hin]; exact h1, by rw [hact]; exact h2, hgroups i h3⟩

theorem renameGroupStart_consistent (s : App) (i : Nat) (selectAll : Bool)
    (hs : sessionConsistent s) : sessionConsistent (renameGroupStart s i selectAll) := by
  unfold renameGroupStart
  split
  · exact hs
  · split
    · exact hs
    · rename_i group hg
      split
      · exact hs
      · intro k hk
        simp only [Option.some.injEq] at hk
        subst hk
        refine ⟨by simp, rfl, ?_⟩
        exact getElem?_modifyGroup_ne_none _ _ _ _ (by rw [hg]; simp)

theorem addContextMenu_consistent (s : App) (i : Nat) (hs : sessionConsistent s) :
    sessionConsistent (addContextMenu s i) := by
  unfold addContextMenu
  split
  · exact hs
  · split
    · exact hs
    · apply sessionConsistent_of_fields s _ hs
      · unfold ensureSharedContextMenu
        split <;> rfl
      · unfold ensureSharedContextMenu
        split <;> rfl
      · unfold ensureSharedContextMenu
        split <;> rfl
      · intro j hj
        simp only [ensureSharedContextMenu_groups]
        exact getElem?_modifyGroup_ne_none _ _ _ _ hj

theorem processGroup_consistent (s : App) (i : Nat) (hs : sessionConsistent s) :
    sessionConsistent (processGroup s i) := by
  have h₁ : sessionConsistent { s with groups := modifyGroup injectAffordances i s.groups } :=
    sessionConsistent_of_fields s _ hs rfl rfl rfl
      (fun j hj => getElem?_modifyGroup_ne_none _ _ _ _ hj)
  have h₃ := renameGroupStart_consistent _ i false h₁
  unfold processGroup
  split
  · exact hs
  · split
    · exact hs
    · split
      · exact hs
      · split
        · exact hs
        · apply addContextMenu_consistent
          split
          · split
            · exact sessionConsistent_of_fields _ _ h₃ rfl rfl rfl (fun _ hj => hj)
            · exact h₃
          · exact h₁

theorem foldl_processGroup_consistent (l : List Nat) (s : App) (hs : sessionConsistent s) :
    sessionConsistent
      (l.foldl
        (fun s i =>
          match s.groups[i]? with
          | some group => if group.splitViewGroup = false then processGroup s i else s
          | none => s)
        s) := by
  induction l generalizing s with
  | nil => exact hs
  | cons i rest ih =>
    rw [List.foldl_cons]
    apply ih
    split
    · split
      · exact processGroup_consistent s i hs
      · exact hs
    · exact hs

theorem autoStartNewGroup_consistent (s : App) (i : Nat) (hs : sessionConsistent s) :
    sessionConsistent (autoStartNewGroup s i) := by
  have hr := renameGroupStart_consistent s i false hs
  unfold autoStartNewGroup
  cases hgi : s.groups[i]? with
  | none => exact hs
  | some group =>
    cases hnew : isNewGroup group with
    | false => simpa [hnew] using hs
    | true =>
      cases hm : group.contextMethods <;> cases hed : s.groupEdited
      · simpa [hnew, hm, hed] using hr
      · simpa [hnew, hm, hed] using hs
      · simp only [hnew, hm, hed, if_true]
        exact sessionConsistent_of_fields _ _ hr rfl rfl rfl (fun _ hj => hj)
      · simp only [hnew, hm, hed, if_true]
        exact sessionConsistent_of_fields _ _ hs rfl rfl rfl (fun _ hj => hj)

theorem renameGroupHalt_consistent (s : App) (hs : sessionConsistent s) (a : Focus) :
    sessionConsistent (onInputBlur s a) := by
  unfold onInputBlur renameGroupHalt
  cases a with
  | input =>
    simp only [true_or, if_true]
    intro i hi
    obtain ⟨h1, _, h3⟩ := hs i hi
    exact ⟨h1, rfl, h3⟩
  | elsewhere =>
    cases hed : s.groupEdited with
    | none =>
      intro i hi
      simp [hed] at hi
    | some k =>
      intro i hi
      simp [hed] at hi

/-- Every handler keeps a rename session consistent: in any state reached from a state without
session by discoveries, menu events, key and blur events of the input and typing, an active
session has its input in the document and focused and its label element in a group. -/
theorem reachable_session_consistent (events : List AppEvent) (groups : List GroupNode) :
    sessionConsistent (events.foldl appStep (exampleApp groups)) := by
  have hstep : ∀ (s : App) (e : AppEvent), sessionConsistent s →
      sessionConsistent (appStep s e) := by
    intro s e hs
    cases e with
    | discovery d =>
      cases d with
      | added i =>
        simp only [appStep, discover, onGroupAdded]
        split
        · split
          · exact processGroup_consistent s i hs
          · exact hs
        · exact hs
      | existing => exact foldl_processGroup_consistent _ s hs
      | direct i => exact processGroup_consistent s i hs
      | created target =>
        cases target with
        | none => exact hs
        | some i =>
          simp only [appStep, discover, onTabGroupCreate]
          split
          · exact hs
          · split
            · exact hs
            · apply autoStartNewGroup_consistent
              split
              · exact processGroup_consistent s i hs
              · exact hs
    | menu m =>
      cases m with
      | contextMenu i =>
        simp only [appStep, menuStep, onContextMenu]
        split
        · split
          · exact sessionConsistent_of_fields s _ hs rfl rfl rfl (fun _ hj => hj)
          · exact hs
        · exact hs
      | popupHidden => exact sessionConsistent_of_fields s _ hs rfl rfl rfl (fun _ hj => hj)
      | command c =>
        simp only [appStep, menuStep, onCommand]
        split
        · exact hs
        · split
          · exact hs
          · cases c with
            | renameGroup =>
              exact renameGroupStart_consistent _ _ true
                (sessionConsistent_of_fields s _ hs rfl rfl rfl (fun _ hj => hj))
            | setGroupColor =>
              simp only
              split
              · exact sessionConsistent_of_fields s _ hs rfl rfl rfl (fun _ hj => hj)
              · exact hs
            | useFaviconColor =>
              simp only
              split
              · exact sessionConsistent_of_fields s _ hs rfl rfl rfl (fun _ hj => hj)
              · exact hs
            | changeGroupIcon =>
              exact sessionConsistent_of_fields s _ hs rfl rfl rfl (fun _ hj => hj)
            | ungroupTabs =>
              simp only
              split
              · exact sessionConsistent_of_fields s _ hs rfl rfl rfl (fun _ hj => hj)
              · exact hs
            | convertGroupToFolder =>
              exact sessionConsistent_of_fields s _ hs rfl rfl rfl (fun _ hj => hj)
    | keydown key =>
      cases key with
      | enter =>
        simp only [appStep, renameGroupKeydown]
        cases hin : s.input with
        | none => exact hs
        | some value =>
          cases hed : s.groupEdited with
          | none =>
            intro i hi
            simp [hed] at hi
          | some k =>
            intro i hi
            cases hi
      | escape =>
        simp only [appStep, renameGroupKeydown, blurInput]
        split
        · exact renameGroupHalt_consistent s hs .elsewhere
        · exact hs
      | other => exact hs
    | blur active => exact renameGroupHalt_consistent s hs active
    | typed text =>
      intro i hi
      obtain ⟨h1, h2, h3⟩ := hs i hi
      refine ⟨?_, h2, h3⟩
      simp only [appStep]
      cases hin : s.input with
      | none => exact absurd hin h1
      | some v => simp
  have hfold : ∀ (events : List AppEvent) (s : App), sessionConsistent s →
      sessionConsistent (events.foldl appStep s) := by
    intro events
    induction events with
    | nil => intro s hs; exact hs
    | cons e rest ih => intro s hs; exact ih (appStep s e) (hstep s e hs)
  apply hfold
  intro i hi
  cases hi

/-! ## Bounds on colours -/

theorem mathRound_between (n d lo hi : Nat) (hd : 0 < d) (hlo : d * lo ≤ n) (hhi : n ≤ d * hi) :
    lo ≤ mathRound n d ∧ mathRound n d ≤ hi := by
  unfold mathRound
  constructor
  · rw [Nat.le_div_iff_mul_le (by omega)]
    calc lo * (2 * d) = 2 * (d * lo) := by ring
      _ ≤ 2 * n + d := by omega
  · apply Nat.le_of_lt_succ
    rw [Nat.div_lt_iff_lt_mul (by omega)]
    calc 2 * n + d ≤ 2 * (d * hi) + d := by omega
      _ < (hi + 1) * (2 * d) := by
        have : (hi + 1) * (2 * d) = 2 * (d * hi) + 2 * d := by ring
        omega

theorem sum_map_between {α : Type} (f : α → Nat) (l : List α) (lo hi : Nat)
    (h : ∀ x ∈ l, lo ≤ f x ∧ f x ≤ hi) :
    l.length * lo ≤ (l.map f).sum ∧ (l.map f).sum ≤ l.length * hi := by
  induction l with
  | nil => simp
  | cons x rest ih =>
    have hx := h x (List.mem_cons_self x rest)
    have hrest := ih (fun y hy => h y (List.mem_cons_of_mem x hy))
    simp only [List.map_cons, List.sum_cons, List.length_cons, Nat.add_mul, Nat.one_mul]
    omega

theorem calculateAverageColor_between (colors : List RGB) (lo hi : Nat) (hne : colors ≠ [])
    (channel : RGB → Nat) (hch : channel ∈ [RGB.r, RGB.g, RGB.b])
    (h : ∀ c ∈ colors, lo ≤ channel c ∧ channel c ≤ hi) :
    lo ≤ channel (_calculateAverageColor colors) ∧
      channel (_calculateAverageColor colors) ≤ hi := by
  have hpos : 0 < colors.length := List.length_pos.mpr hne
  have hsum := sum_map_between channel colors lo hi h
  rw [calculateAverageColor_eq colors hne]
  simp only [List.mem_cons, List.mem_singleton, List.not_mem_nil, or_false] at hch
  rcases hch with hc | hc | hc <;> subst hc <;>
    exact mathRound_between _ _ lo hi hpos hsum.1 hsum.2

theorem extractSample_rgbaBytes_eq (ps : List Pixel) (sample : RGB)
    (h : extractSample (rgbaBytes ps) = some sample) :
    keptPixels ps ≠ [] ∧
    sample =
      { r := mathRound ((keptPixels ps).map Pixel.r).sum (keptPixels ps).length
        g := mathRound ((keptPixels ps).map Pixel.g).sum (keptPixels ps).length
        b := mathRound ((keptPixels ps).map Pixel.b).sum (keptPixels ps).length } := by
  have hloop := pixelLoop_rgbaBytes ps { r := 0, g := 0, b := 0, count := 0 }
  simp only [Nat.zero_add] at hloop
  simp only [extractSample, hloop] at h
  by_cases hk : (keptPixels ps).length > 0
  · rw [if_pos hk] at h
    exact ⟨List.length_pos.mp hk, (Option.some.inj h).symm⟩
  · rw [if_neg hk] at h
    cases h

theorem pixelLoop_le (hi : Nat) (data : List Nat) (acc : PixelAcc)
    (hdata : ∀ x ∈ data, x ≤ hi)
    (hacc : acc.r ≤ acc.count * hi ∧ acc.g ≤ acc.count * hi ∧ acc.b ≤ acc.count * hi) :
    (pixelLoop data acc).r ≤ (pixelLoop data acc).count * hi ∧
    (pixelLoop data acc).g ≤ (pixelLoop data acc).count * hi ∧
    (pixelLoop data acc).b ≤ (pixelLoop data acc).count * hi := by
  induction data, acc using pixelLoop.induct with
  | case1 r g b a rest acc hpass ih =>
    rw [pixelLoop, if_pos hpass]
    apply ih
    · intro x hx
      exact hdata x (by simp [hx])
    · have hr := hdata r (by simp)
      have hg := hdata g (by simp)
      have hb := hdata b (by simp)
      simp only [Nat.add_mul, Nat.one_mul]
      omega
  | case2 r g b a rest acc hpass ih =>
    rw [pixelLoop, if_neg hpass]
    apply ih
    · intro x hx
      exact hdata x (by simp [hx])
    · exact hacc
  | case3 data acc hshort =>
    rw [pixelLoop]
    · exact hacc
    · exact hshort

theorem extractSample_le (hi : Nat) (data : List Nat) (sample : RGB)
    (hdata : ∀ x ∈ data, x ≤ hi) (h : extractSample data = some sample) :
    sample.r ≤ hi ∧ sample.g ≤ hi ∧ sample.b ≤ hi := by
  have hloop := pixelLoop_le hi data { r := 0, g := 0, b := 0, count := 0 } hdata
    (by simp)
  simp only [extractSample] at h
  by_cases hk : (pixelLoop data { r := 0, g := 0, b := 0, count := 0 }).count > 0
  · rw [if_pos hk] at h
    have hs := (Option.some.inj h).symm
    subst hs
    refine ⟨(mathRound_between _ _ 0 hi hk (by simp) ?_).2,
      (mathRound_between _ _ 0 hi hk (by simp) ?_).2,
      (mathRound_between _ _ 0 hi hk (by simp) ?_).2⟩
    · exact hloop.1
    · exact hloop.2.1
    · exact hloop.2.2
  · rw [if_neg hk] at h
    cases h

theorem sample_le (events : List ImageEvent)
    (hbytes : ∀ data, ImageEvent.loaded (some data) ∈ events → ∀ x ∈ data, x ≤ 255)
    (c : RGB) (hc : c ∈ events.filterMap ImageEvent.sample) :
    c.r ≤ 255 ∧ c.g ≤ 255 ∧ c.b ≤ 255 := by
  obtain ⟨e, he, hs⟩ := List.mem_filterMap.mp hc
  cases e with
  | failed => simp [ImageEvent.sample] at hs
  | loaded data =>
    cases data with
    | none => simp [ImageEvent.sample] at hs
    | some bytes => exact extractSample_le 255 bytes c (hbytes bytes he) hs

/-- C30: each channel of `_calculateAverageColor` of a non-empty list lies between any lower
and upper bound of that channel over the samples, so between its minimum and maximum and in
`0..255` for samples in `0..255`; the same holds for the sample of a favicon, over the pixels
that pass the filter; and the colour a finished aggregation writes to the group is
`rgb(R, G, B)` with the three numbers at most 255 when the image bytes are. -/
theorem average_within_bounds :
    (∀ (colors : List RGB) (lo hi : Nat), colors ≠ [] →
      ∀ channel ∈ [RGB.r, RGB.g, RGB.b],
        (∀ c ∈ colors, lo ≤ channel c ∧ channel c ≤ hi) →
        lo ≤ channel (_calculateAverageColor colors) ∧
          channel (_calculateAverageColor colors) ≤ hi) ∧
    (∀ (ps : List Pixel) (lo hi : Nat) (sample : RGB),
      extractSample (rgbaBytes ps) = some sample →
      ∀ channels ∈ [(Pixel.r, RGB.r), (Pixel.g, RGB.g), (Pixel.b, RGB.b)],
        (∀ p ∈ keptPixels ps, lo ≤ channels.1 p ∧ channels.1 p ≤ hi) →
        lo ≤ channels.2 sample ∧ channels.2 sample ≤ hi) ∧
    (∀ (data : List Nat) (sample : RGB), (∀ x ∈ data, x ≤ 255) →
      extractSample data = some sample →
      sample.r ≤ 255 ∧ sample.g ≤ 255 ∧ sample.b ≤ 255) ∧
    (∀ (favicons : List Favicon) (events : List ImageEvent) (w : World),
      events.length = pendingImages favicons →
      (∀ data, ImageEvent.loaded (some data) ∈ events → ∀ x ∈ data, x ≤ 255) →
      events.filterMap ImageEvent.sample ≠ [] →
      ∃ c : RGB, (runFaviconColor favicons events w).2.group.tabGroupColor = colorString c ∧
        (runFaviconColor favicons events w).2.group.tabGroupColorInvert = colorString c ∧
        c.r ≤ 255 ∧ c.g ≤ 255 ∧ c.b ≤ 255) := by
  refine ⟨?_, ?_, ?_, ?_⟩
  · intro colors lo hi hne channel hch h
    exact calculateAverageColor_between colors lo hi hne channel hch h
  · intro ps lo hi sample hs channels hch h
    obtain ⟨hne, heq⟩ := extractSample_rgbaBytes_eq ps sample hs
    have hpos : 0 < (keptPixels ps).length := List.length_pos.mpr hne
    have hsum := sum_map_between channels.1 (keptPixels ps) lo hi h
    subst heq
    simp only [List.mem_cons, List.mem_singleton, List.not_mem_nil, or_false] at hch
    rcases hch with hc | hc | hc <;> subst hc <;>
      exact mathRound_between _ _ lo hi hpos hsum.1 hsum.2
  · intro data sample hdata hs
    exact extractSample_le 255 data sample hdata hs
  · intro favicons events w hlen hbytes hne
    have hfav : favicons ≠ [] := by
      intro hnil
      subst hnil
      have hev : events = [] := by
        apply List.length_eq_zero.mp
        simpa [pendingImages] using hlen
      subst hev
      exact hne rfl
    have hle := sample_le events hbytes
    refine ⟨_calculateAverageColor (events.filterMap ImageEvent.sample), ?_, ?_, ?_, ?_, ?_⟩
    · rw [runFaviconColor_complete favicons events w hfav hlen, if_pos hne]
      rfl
    · rw [runFaviconColor_complete favicons events w hfav hlen, if_pos hne]
      rfl
    · exact (calculateAverageColor_between _ 0 255 hne RGB.r (by simp)
        (fun c hc => ⟨Nat.zero_le _, (hle c hc).1⟩)).2
    · exact (calculateAverageColor_between _ 0 255 hne RGB.g (by simp)
        (fun c hc => ⟨Nat.zero_le _, (hle c hc).2.1⟩)).2
    · exact (calculateAverageColor_between _ 0 255 hne RGB.b (by simp)
        (fun c hc => ⟨Nat.zero_le _, (hle c hc).2.2⟩)).2

theorem average_within_bounds_witness :
    (3 ≤ (_calculateAverageColor [{ r := 3, g := 0, b := 255 }, { r := 8, g := 0, b := 254 }]).r ∧
      (_calculateAverageColor [{ r := 3, g := 0, b := 255 }, { r := 8, g := 0, b := 254 }]).r ≤
        8) ∧
    (∃ c : RGB,
      (runFaviconColor exampleFavicons exampleEvents exampleWorld).2.group.tabGroupColor =
        colorString c ∧ c.r ≤ 255 ∧ c.g ≤ 255 ∧ c.b ≤ 255) := by
  refine ⟨average_within_bounds.1 [{ r := 3, g := 0, b := 255 }, { r := 8, g := 0, b := 254 }]
    3 8 (by decide) RGB.r (by simp) (by decide), ?_⟩
  have hbytes : ∀ data, ImageEvent.loaded (some data) ∈ exampleEvents →
      ∀ x ∈ data, x ≤ 255 := by
    intro data hdata x hx
    simp only [exampleEvents, List.mem_cons, List.mem_singleton, List.not_mem_nil,
      or_false, ImageEvent.loaded.injEq, Option.some.injEq] at hdata
    rcases hdata with h | h
    · cases h
    · subst h
      simp only [List.mem_cons, List.mem_singleton, List.not_mem_nil, or_false] at hx
      omega
  obtain ⟨c, h1, _, h2⟩ := average_within_bounds.2.2.2 exampleFavicons exampleEvents
    exampleWorld (by decide) hbytes (by decide)
  exact ⟨c, h1, h2⟩

/-! ## The written colours mapping -/

theorem lastColor_ne_none (k : String) (groups : List TabGroup) (start : Option String)
    (h : start ≠ none ∨ ∃ g ∈ groups, g.id = k ∧ savesColor g) :
    lastColor k groups start ≠ none := by
  induction groups generalizing start with
  | nil =>
    rcases h with h | ⟨g, hg, _⟩
    · exact h
    · cases hg
  | cons g rest ih =>
    rw [lastColor_cons]
    apply ih
    by_cases hg : savesColor g ∧ g.id = k
    · left
      rw [if_pos hg]
      simp
    · rw [if_neg hg]
      rcases h with h | ⟨g', hg', hid, hsv⟩
      · exact Or.inl h
      · rcases List.mem_cons.mp hg' with heq | hmem
        · subst heq
          exact absurd ⟨hsv, hid⟩ hg
        · exact Or.inr ⟨g', hmem, hid, hsv⟩

/-- C26: the mapping `saveTabGroupColors` writes has a key exactly for the ids of the live
groups that have a non-empty id, no `split-view-group` attribute and a non-empty
`--tab-group-color`; the value of a key is the colour of such a group; an id whose groups
all have no colour gets no key. -/
theorem saveTabGroupColors_keys (h : Host) (groups : List TabGroup) :
    ∃ indent m, storedColors (saveTabGroupColors h groups) = some (.json indent m) ∧
      (∀ k : String, (∃ c, assocGet k m = some c) ↔
        ∃ g ∈ groups, g.id = k ∧ g.id ≠ "" ∧ g.splitViewGroup = false ∧
          g.tabGroupColor ≠ "") ∧
      (∀ (k c : String), assocGet k m = some c →
        ∃ g ∈ groups, g.id = k ∧ g.id ≠ "" ∧ g.splitViewGroup = false ∧
          g.tabGroupColor = c ∧ c ≠ "") ∧
      (∀ k : String, (∀ g ∈ groups, g.id = k → g.tabGroupColor = "") →
        assocGet k m = none) := by
  refine ⟨_, collectColors groups, storedColors_saveTabGroupColors h groups, ?_, ?_, ?_⟩
  · intro k
    rw [collectColors_get]
    constructor
    · rintro ⟨c, hc⟩
      rcases lastColor_origin k c groups none hc with h0 | ⟨g, hg, hid, hsv, _⟩
      · cases h0
      · exact ⟨g, hg, hid, hsv.1, hsv.2.1, hsv.2.2⟩
    · rintro ⟨g, hg, hid, h1, h2, h3⟩
      have hne := lastColor_ne_none k groups none (Or.inr ⟨g, hg, hid, h1, h2, h3⟩)
      cases hl : lastColor k groups none with
      | none => exact absurd hl hne
      | some c => exact ⟨c, rfl⟩
  · intro k c hc
    rw [collectColors_get] at hc
    rcases lastColor_origin k c groups none hc with h0 | ⟨g, hg, hid, hsv, hcol⟩
    · cases h0
    · exact ⟨g, hg, hid, hsv.1, hsv.2.1, hcol, hcol ▸ hsv.2.2⟩
  · intro k hk
    rw [collectColors_get]
    exact lastColor_unchanged k groups none (fun g hg hid hsv => hsv.2.2 (hk g hg hid))

theorem saveTabGroupColors_keys_witness :
    ∃ indent m,
      storedColors
          (saveTabGroupColors exampleFileHost
            [exampleGroup, { exampleGroup with id := "g2", tabGroupColor := "" },
              { exampleGroup with id := "g3", splitViewGroup := true }]) =
        some (.json indent m) ∧
      (∃ c, assocGet "g1" m = some c) ∧ assocGet "g2" m = none := by
  obtain ⟨indent, m, hs, hiff, _, hnone⟩ :=
    saveTabGroupColors_keys exampleFileHost
      [exampleGroup, { exampleGroup with id := "g2", tabGroupColor := "" },
        { exampleGroup with id := "g3", splitViewGroup := true }]
  refine ⟨indent, m, hs, (hiff "g1").mpr ⟨exampleGroup, by simp, by decide, by decide,
    by decide, by decide⟩, hnone "g2" (by decide)⟩

/-! ## The two backends -/

theorem storedIcons_writeColors (h : Host) (t : Content) :
    storedIcons (writeFile h "tab_group_colors.json" t) = storedIcons h ∧
    storedIcons (setItem h "advancedTabGroups_colors" t) = storedIcons h := by
  constructor
  · cases hfs : h.fileSystem <;>
      simp [storedIcons, writeFile, readFile, getItem, hfs, assocGet_assocSet]
  · cases hfs : h.fileSystem <;>
      simp [storedIcons, setItem, readFile, getItem, hfs, assocGet_assocSet]

theorem storedColors_writeIcons (h : Host) (t : Content) :
    storedColors (writeFile h "tab_group_icons.json" t) = storedColors h ∧
    storedColors (setItem h "advancedTabGroups_icons" t) = storedColors h := by
  constructor
  · cases hfs : h.fileSystem <;>
      simp [storedColors, writeFile, readFile, getItem, hfs, assocGet_assocSet]
  · cases hfs : h.fileSystem <;>
      simp [storedColors, setItem, readFile, getItem, hfs, assocGet_assocSet]

theorem storeCall_file (h : Host) (hfs : h.fileSystem = true) (call : StoreCall) :
    (storeCall h call).fileSystem = true ∧
    storedColors (storeCall h call) = nextColors call 2 (storedColors h) ∧
    storedIcons (storeCall h call) = nextIcons call 2 (storedIcons h) := by
  have hc : storedColors h = readFile h "tab_group_colors.json" := by simp [storedColors, hfs]
  have hi : storedIcons h = readFile h "tab_group_icons.json" := by simp [storedIcons, hfs]
  cases call with
  | saveTabGroupColors groups =>
    refine ⟨?_, ?_, ?_⟩
    · simp [storeCall, saveTabGroupColors, hfs, writeFile]
    · rw [storeCall, storedColors_saveTabGroupColors, hfs]
      rfl
    · simp only [storeCall, saveTabGroupColors, hfs, if_true, nextIcons]
      exact (storedIcons_writeColors h _).1
  | saveGroupIcon groupId iconUrl =>
    simp only [storeCall, saveGroupIcon_file h groupId iconUrl hfs, hostAfter, nextColors,
      nextIcons]
    refine ⟨by simp [writeFile, hfs], (storedColors_writeIcons h _).1, ?_⟩
    rw [storedIcons_writeFile h hfs, hi]
    cases hr : readFile h "tab_group_icons.json" with
    | none => rfl
    | some t => cases t <;> rfl
  | removeSavedColor groupId =>
    simp only [storeCall, removeSavedColor_file h groupId hfs, hostAfter, nextColors, nextIcons]
    rw [hc]
    cases hr : readFile h "tab_group_colors.json" with
    | none => exact ⟨hfs, by simp [storedColors, hfs, hr], rfl⟩
    | some t =>
      cases t with
      | json i m =>
        exact ⟨by simp [writeFile, hfs], storedColors_writeFile h hfs _,
          (storedIcons_writeColors h _).1⟩
      | empty => exact ⟨hfs, by simp [storedColors, hfs, hr], rfl⟩
      | malformed => exact ⟨hfs, by simp [storedColors, hfs, hr], rfl⟩
  | removeSavedIcon groupId =>
    simp only [storeCall, removeSavedIcon_file h groupId hfs, hostAfter, nextColors, nextIcons]
    rw [hi]
    cases hr : readFile h "tab_group_icons.json" with
    | none => exact ⟨hfs, rfl, by simp [storedIcons, hfs, hr]⟩
    | some t =>
      cases t with
      | json i m =>
        exact ⟨by simp [writeFile, hfs], (storedColors_writeIcons h _).1,
          storedIcons_writeFile h hfs _⟩
      | empty => exact ⟨hfs, rfl, by simp [storedIcons, hfs, hr]⟩
      | malformed => exact ⟨hfs, rfl, by simp [storedIcons, hfs, hr]⟩

theorem saveGroupIcon_localStorage_empty (h : Host) (k v : String) (hfs : h.fileSystem = false)
    (hr : getItem h "advancedTabGroups_icons" = some .empty) :
    saveGroupIcon h k v =
      .ok (setItem h "advancedTabGroups_icons" (.json 0 [(k, v)])) := by
  unfold saveGroupIcon
  simp [hfs, hr, tryCatch, truthy, jsonStringify, bind, Except.bind, pure, Except.pure,
    assocSet]

theorem storeCall_localStorage (h : Host) (hfs : h.fileSystem = false) (call : StoreCall)
    (hvalid : storedIcons h ≠ some .malformed) :
    (storeCall h call).fileSystem = false ∧
    storedColors (storeCall h call) = nextColors call 0 (storedColors h) ∧
    storedIcons (storeCall h call) = nextIcons call 0 (storedIcons h) := by
  have hc : storedColors h = getItem h "advancedTabGroups_colors" := by
    simp [storedColors, hfs]
  have hi : storedIcons h = getItem h "advancedTabGroups_icons" := by simp [storedIcons, hfs]
  cases call with
  | saveTabGroupColors groups =>
    refine ⟨?_, ?_, ?_⟩
    · simp [storeCall, saveTabGroupColors, hfs, setItem]
    · rw [storeCall, storedColors_saveTabGroupColors, hfs]
      rfl
    · simp only [storeCall, saveTabGroupColors, hfs, nextIcons]
      exact (storedIcons_writeColors h _).2
  | saveGroupIcon groupId iconUrl =>
    simp only [storeCall, nextColors, nextIcons]
    rw [hi] at hvalid ⊢
    cases hr : getItem h "advancedTabGroups_icons" with
    | none =>
      rw [saveGroupIcon_localStorage_none h groupId iconUrl hfs hr]
      exact ⟨by simp [hostAfter, setItem, hfs], (storedColors_writeIcons h _).2,
        storedIcons_setItem h hfs _⟩
    | some t =>
      cases t with
      | json i m =>
        rw [saveGroupIcon_localStorage_json h groupId iconUrl hfs i m hr]
        exact ⟨by simp [hostAfter, setItem, hfs], (storedColors_writeIcons h _).2,
          storedIcons_setItem h hfs _⟩
      | empty =>
        rw [saveGroupIcon_localStorage_empty h groupId iconUrl hfs hr]
        exact ⟨by simp [hostAfter, setItem, hfs], (storedColors_writeIcons h _).2,
          storedIcons_setItem h hfs _⟩
      | malformed => exact absurd hr hvalid
  | removeSavedColor groupId =>
    simp only [storeCall, removeSavedColor_localStorage h groupId hfs, hostAfter, nextColors,
      nextIcons]
    rw [hc]
    cases hr : getItem h "advancedTabGroups_colors" with
    | none => exact ⟨hfs, by simp [storedColors, hfs, hr], rfl⟩
    | some t =>
      cases t with
      | json i m =>
        exact ⟨by simp [setItem, hfs], storedColors_setItem h hfs _,
          (storedIcons_writeColors h _).2⟩
      | empty => exact ⟨hfs, by simp [storedColors, hfs, hr], rfl⟩
      | malformed => exact ⟨hfs, by simp [storedColors, hfs, hr], rfl⟩
  | removeSavedIcon groupId =>
    simp only [storeCall, removeSavedIcon_localStorage h groupId hfs, hostAfter, nextColors,
      nextIcons]
    rw [hi]
    cases hr : getItem h "advancedTabGroups_icons" with
    | none => exact ⟨hfs, rfl, by simp [storedIcons, hfs, hr]⟩
    | some t =>
      cases t with
      | json i m =>
        exact ⟨by simp [setItem, hfs], (storedColors_writeIcons h _).2,
          storedIcons_setItem h hfs _⟩
      | empty => exact ⟨hfs, rfl, by simp [storedIcons, hfs, hr]⟩
      | malformed => exact ⟨hfs, rfl, by simp [storedIcons, hfs, hr]⟩

theorem sameMapping_nextColors (call : StoreCall) (a b : Option Content)
    (h : sameMapping a b) : sameMapping (nextColors call 2 a) (nextColors call 0 b) := by
  rcases h with ⟨ha, hb⟩ | ⟨i, j, m, ha, hb⟩
  · subst ha hb
    cases call with
    | saveTabGroupColors groups => exact Or.inr ⟨2, 0, _, rfl, rfl⟩
    | saveGroupIcon k v => exact Or.inl ⟨rfl, rfl⟩
    | removeSavedColor k => exact Or.inl ⟨rfl, rfl⟩
    | removeSavedIcon k => exact Or.inl ⟨rfl, rfl⟩
  · subst ha hb
    cases call with
    | saveTabGroupColors groups => exact Or.inr ⟨2, 0, _, rfl, rfl⟩
    | saveGroupIcon k v => exact Or.inr ⟨i, j, m, rfl, rfl⟩
    | removeSavedColor k => exact Or.inr ⟨2, 0, _, rfl, rfl⟩
    | removeSavedIcon k => exact Or.inr ⟨i, j, m, rfl, rfl⟩

theorem sameMapping_nextIcons (call : StoreCall) (a b : Option Content)
    (h : sameMapping a b) : sameMapping (nextIcons call 2 a) (nextIcons call 0 b) := by
  rcases h with ⟨ha, hb⟩ | ⟨i, j, m, ha, hb⟩
  · subst ha hb
    cases call with
    | saveTabGroupColors groups => exact Or.inl ⟨rfl, rfl⟩
    | saveGroupIcon k v => exact Or.inr ⟨2, 0, _, rfl, rfl⟩
    | removeSavedColor k => exact Or.inl ⟨rfl, rfl⟩
    | removeSavedIcon k => exact Or.inl ⟨rfl, rfl⟩
  · subst ha hb
    cases call with
    | saveTabGroupColors groups => exact Or.inr ⟨i, j, m, rfl, rfl⟩
    | saveGroupIcon k v => exact Or.inr ⟨2, 0, _, rfl, rfl⟩
    | removeSavedColor k => exact Or.inr ⟨i, j, m, rfl, rfl⟩
    | removeSavedIcon k => exact Or.inr ⟨2, 0, _, rfl, rfl⟩

theorem storedMapping_of_sameMapping (a b : Option Content) (h : sameMapping a b) :
    storedMapping a = storedMapping b := by
  rcases h with ⟨ha, hb⟩ | ⟨i, j, m, ha, hb⟩
  · rw [ha, hb]
  · rw [ha, hb]
    rfl

/-- C27: a host with the file backend and a host with the `localStorage` fallback that start
with the same valid colours mapping and the same valid icons mapping (or with nothing stored)
hold, after the same sequence of `saveTabGroupColors`, `saveGroupIcon`, `removeSavedColor`
and `removeSavedIcon` calls on the same live groups, texts that parse to the same mappings;
the texts differ in indentation only. -/
theorem backends_hold_same_mapping (calls : List StoreCall) (hf hl : Host)
    (hfs : hf.fileSystem = true) (hls : hl.fileSystem = false)
    (hc : sameMapping (storedColors hf) (storedColors hl))
    (hi : sameMapping (storedIcons hf) (storedIcons hl)) :
    storedMapping (storedColors (calls.foldl storeCall hf)) =
      storedMapping (storedColors (calls.foldl storeCall hl)) ∧
    storedMapping (storedIcons (calls.foldl storeCall hf)) =
      storedMapping (storedIcons (calls.foldl storeCall hl)) ∧
    sameMapping (storedColors (calls.foldl storeCall hf))
      (storedColors (calls.foldl storeCall hl)) ∧
    sameMapping (storedIcons (calls.foldl storeCall hf))
      (storedIcons (calls.foldl storeCall hl)) := by
  have hrun : sameMapping (storedColors (calls.foldl storeCall hf))
        (storedColors (calls.foldl storeCall hl)) ∧
      sameMapping (storedIcons (calls.foldl storeCall hf))
        (storedIcons (calls.foldl storeCall hl)) := by
    induction calls generalizing hf hl with
    | nil => exact ⟨hc, hi⟩
    | cons call rest ih =>
      have hvalid : storedIcons hl ≠ some .malformed := by
        rcases hi with ⟨_, hb⟩ | ⟨_, _, _, _, hb⟩ <;> rw [hb] <;> simp
      obtain ⟨f1, f2, f3⟩ := storeCall_file hf hfs call
      obtain ⟨l1, l2, l3⟩ := storeCall_localStorage hl hls call hvalid
      rw [List.foldl_cons, List.foldl_cons]
      apply ih _ _ f1 l1
      · rw [f2, l2]
        exact sameMapping_nextColors call _ _ hc
      · rw [f3, l3]
        exact sameMapping_nextIcons call _ _ hi
  exact ⟨storedMapping_of_sameMapping _ _ hrun.1, storedMapping_of_sameMapping _ _ hrun.2,
    hrun.1, hrun.2⟩

theorem backends_hold_same_mapping_witness :
    storedMapping
        (storedIcons
          ([StoreCall.saveGroupIcon "g1" "icon.svg", .saveTabGroupColors [exampleGroup],
            .removeSavedIcon "old", .removeSavedColor "g1"].foldl storeCall exampleFileHost)) =
      storedMapping
        (storedIcons
          ([StoreCall.saveGroupIcon "g1" "icon.svg", .saveTabGroupColors [exampleGroup],
            .removeSavedIcon "old", .removeSavedColor "g1"].foldl storeCall
            { exampleLocalHost with
              localStorage := [("advancedTabGroups_colors", .json 0 [("old", "red")]),
                ("advancedTabGroups_icons", .json 0 [("old", "star.svg")])] })) :=
  (backends_hold_same_mapping
    [.saveGroupIcon "g1" "icon.svg", .saveTabGroupColors [exampleGroup],
      .removeSavedIcon "old", .removeSavedColor "g1"]
    exampleFileHost
    { exampleLocalHost with
      localStorage := [("advancedTabGroups_colors", .json 0 [("old", "red")]),
        ("advancedTabGroups_icons", .json 0 [("old", "star.svg")])] }
    (by decide) (by decide)
    (Or.inr ⟨2, 0, [("old", "red")], by decide, by decide⟩)
    (Or.inr ⟨2, 0, [("old", "star.svg")], by decide, by decide⟩)).2.1

/-! ## Missing structure -/

/-- C28: `processGroup` on a group without label container leaves the whole state as it is;
once the host has added the label container (the group having no exclusion or processed
marker and no close button), a `processGroup` call injects the three elements and wires the
context menu. `renameGroupStart` on a group without `.tab-group-label` element leaves the
state as it is, so an idle rename state stays idle. -/
theorem processGroup_without_label_container (s : App) (i : Nat) (g : GroupNode)
    (hg : s.groups[i]? = some g) :
    (g.hasLabelContainer = false → processGroup s i = s) ∧
    (g.hasLabelContainer = false → processable { g with hasLabelContainer := true } →
      ∃ g' : GroupNode,
        (processGroup
          { processGroup s i with
            groups := modifyGroup (fun g => { g with hasLabelContainer := true }) i
              (processGroup s i).groups } i).groups[i]? = some g' ∧
        g'.iconContainers = g.iconContainers + 1 ∧ g'.stashButtons = g.stashButtons + 1 ∧
        g'.closeButtons = g.closeButtons + 1 ∧ g'.contextMenuAdded = true) ∧
    (g.hasLabelElement = false → ∀ selectAll, renameGroupStart s i selectAll = s) := by
  have hskip : g.hasLabelContainer = false → processGroup s i = s := by
    intro hlc
    apply processGroup_skip s i g hg
    intro hp
    rw [hp.2.2.2.2.1] at hlc
    cases hlc
  refine ⟨hskip, ?_, ?_⟩
  · intro hlc hp
    rw [hskip hlc]
    have hg' : ({ s with
        groups := modifyGroup (fun g => { g with hasLabelContainer := true }) i
          s.groups } : App).groups[i]? = some { g with hasLabelContainer := true } := by
      simp [getElem?_modifyGroup, hg]
    exact ⟨_, processGroup_self _ i _ hg' hp, rfl, rfl, rfl, rfl⟩
  · intro hl selectAll
    unfold renameGroupStart
    split
    · rfl
    · simp [hg, hl]

theorem processGroup_without_label_container_witness :
    processGroup (exampleApp [{ exampleNode with hasLabelContainer := false }]) 0 =
      exampleApp [{ exampleNode with hasLabelContainer := false }] ∧
    (∃ g' : GroupNode,
      (processGroup
        { processGroup (exampleApp [{ exampleNode with hasLabelContainer := false }]) 0 with
          groups := modifyGroup (fun g => { g with hasLabelContainer := true }) 0
            (processGroup (exampleApp [{ exampleNode with hasLabelContainer := false }])
              0).groups } 0).groups[0]? = some g' ∧
      g'.iconContainers = 1 ∧ g'.stashButtons = 1 ∧ g'.closeButtons = 1 ∧
      g'.contextMenuAdded = true) ∧
    renameGroupStart (exampleApp [{ exampleNode with hasLabelElement := false }]) 0 false =
      exampleApp [{ exampleNode with hasLabelElement := false }] :=
  ⟨(processGroup_without_label_container
      (exampleApp [{ exampleNode with hasLabelContainer := false }]) 0
      { exampleNode with hasLabelContainer := false } (by decide)).1 (by decide),
   (processGroup_without_label_container
      (exampleApp [{ exampleNode with hasLabelContainer := false }]) 0
      { exampleNode with hasLabelContainer := false } (by decide)).2.1 (by decide) (by decide),
   (processGroup_without_label_container
      (exampleApp [{ exampleNode with hasLabelElement := false }]) 0
      { exampleNode with hasLabelElement := false } (by decide)).2.2 (by decide) false⟩

/-! ## The shared menu is created once -/

theorem menuSingleton_of_fields (s t : App) (hs : menuSingleton s)
    (h1 : t.sharedContextMenu = s.sharedContextMenu) (h2 : t.menusCreated = s.menusCreated) :
    menuSingleton t := by
  unfold menuSingleton at hs ⊢
  rw [h1, h2]
  exact hs

theorem ensureSharedContextMenu_singleton (s : App) (hs : menuSingleton s) :
    menuSingleton (ensureSharedContextMenu s) ∧
    (ensureSharedContextMenu s).sharedContextMenu = true ∧
    (ensureSharedContextMenu s).menusCreated = 1 := by
  unfold ensureSharedContextMenu
  rcases hs with ⟨h1, h2⟩ | ⟨h1, h2⟩
  · simp [h1, h2, menuSingleton]
  · simp [h1, h2, menuSingleton]

theorem renameGroupStart_menu (s : App) (i : Nat) (selectAll : Bool) :
    (renameGroupStart s i selectAll).sharedContextMenu = s.sharedContextMenu ∧
    (renameGroupStart s i selectAll).menusCreated = s.menusCreated := by
  unfold renameGroupStart
  split
  · exact ⟨rfl, rfl⟩
  · split
    · exact ⟨rfl, rfl⟩
    · split <;> exact ⟨rfl, rfl⟩

theorem renameGroupStart_singleton (s : App) (i : Nat) (selectAll : Bool)
    (hs : menuSingleton s) : menuSingleton (renameGroupStart s i selectAll) :=
  menuSingleton_of_fields s _ hs (renameGroupStart_menu s i selectAll).1
    (renameGroupStart_menu s i selectAll).2

theorem addContextMenu_singleton (s : App) (i : Nat) (hs : menuSingleton s) :
    menuSingleton (addContextMenu s i) := by
  unfold addContextMenu
  split
  · exact hs
  · split
    · exact hs
    · exact menuSingleton_of_fields _ _ (ensureSharedContextMenu_singleton s hs).1 rfl rfl

theorem processGroup_singleton (s : App) (i : Nat) (hs : menuSingleton s) :
    menuSingleton (processGroup s i) := by
  have h₁ : menuSingleton { s with groups := modifyGroup injectAffordances i s.groups } :=
    menuSingleton_of_fields s _ hs rfl rfl
  have h₃ := renameGroupStart_singleton _ i false h₁
  unfold processGroup
  split
  · exact hs
  · split
    · exact hs
    · split
      · exact hs
      · split
        · exact hs
        · apply addContextMenu_singleton
          split
          · split
            · exact menuSingleton_of_fields _ _ h₃ rfl rfl
            · exact h₃
          · exact h₁

theorem foldl_processGroup_singleton (l : List Nat) (s : App) (hs : menuSingleton s) :
    menuSingleton
      (l.foldl
        (fun s i =>
          match s.groups[i]? with
          | some group => if group.splitViewGroup = false then processGroup s i else s
          | none => s)
        s) := by
  induction l generalizing s with
  | nil => exact hs
  | cons i rest ih =>
    rw [List.foldl_cons]
    apply ih
    split
    · split
      · exact processGroup_singleton s i hs
      · exact hs
    · exact hs

theorem autoStartNewGroup_singleton (s : App) (i : Nat) (hs : menuSingleton s) :
    menuSingleton (autoStartNewGroup s i) := by
  have hr := renameGroupStart_singleton s i false hs
  unfold autoStartNewGroup
  cases hgi : s.groups[i]? with
  | none => exact hs
  | some group =>
    cases hnew : isNewGroup group with
    | false => simpa [hnew] using hs
    | true =>
      cases hm : group.contextMethods <;> cases hed : s.groupEdited
      · simpa [hnew, hm, hed] using hr
      · simpa [hnew, hm, hed] using hs
      · simp only [hnew, hm, hed, if_true]
        exact menuSingleton_of_fields _ _ hr rfl rfl
      · simp only [hnew, hm, hed, if_true]
        exact menuSingleton_of_fields _ _ hs rfl rfl

theorem onInputBlur_singleton (s : App) (a : Focus) (hs : menuSingleton s) :
    menuSingleton (onInputBlur s a) := by
  unfold onInputBlur renameGroupHalt
  split
  · exact menuSingleton_of_fields s _ hs rfl rfl
  · split
    · exact menuSingleton_of_fields s _ hs rfl rfl
    · exact menuSingleton_of_fields s _ hs rfl rfl

theorem appStep_singleton (s : App) (e : AppEvent) (hs : menuSingleton s) :
    menuSingleton (appStep s e) := by
  cases e with
  | discovery d =>
    cases d with
    | added i =>
      simp only [appStep, discover, onGroupAdded]
      split
      · split
        · exact processGroup_singleton s i hs
        · exact hs
      · exact hs
    | existing => exact foldl_processGroup_singleton _ s hs
    | direct i => exact processGroup_singleton s i hs
    | created target =>
      cases target with
      | none => exact hs
      | some i =>
        simp only [appStep, discover, onTabGroupCreate]
        split
        · exact hs
        · split
          · exact hs
          · apply autoStartNewGroup_singleton
            split
            · exact processGroup_singleton s i hs
            · exact hs
  | menu m =>
    cases m with
    | contextMenu i =>
      simp only [appStep, menuStep, onContextMenu]
      split
      · split
        · exact menuSingleton_of_fields s _ hs rfl rfl
        · exact hs
      · exact hs
    | popupHidden => exact menuSingleton_of_fields s _ hs rfl rfl
    | command c =>
      simp only [appStep, menuStep, onCommand]
      split
      · exact hs
      · split
        · exact hs
        · cases c with
          | renameGroup =>
            exact renameGroupStart_singleton _ _ true
              (menuSingleton_of_fields s _ hs rfl rfl)
          | setGroupColor =>
            simp only
            split
            · exact menuSingleton_of_fields s _ hs rfl rfl
            · exact hs
          | useFaviconColor =>
            simp only
            split
            · exact menuSingleton_of_fields s _ hs rfl rfl
            · exact hs
          | changeGroupIcon => exact menuSingleton_of_fields s _ hs rfl rfl
          | ungroupTabs =>
            simp only
            split
            · exact menuSingleton_of_fields s _ hs rfl rfl
            · exact hs
          | convertGroupToFolder => exact menuSingleton_of_fields s _ hs rfl rfl
  | keydown key =>
    cases key with
    | enter =>
      simp only [appStep, renameGroupKeydown]
      cases hin : s.input with
      | none => exact hs
      | some value =>
        cases hed : s.groupEdited with
        | none => exact menuSingleton_of_fields s _ hs rfl rfl
        | some k => exact menuSingleton_of_fields s _ hs rfl rfl
    | escape =>
      simp only [appStep, renameGroupKeydown, blurInput]
      split
      · exact onInputBlur_singleton s .elsewhere hs
      · exact hs
    | other => exact hs
  | blur active => exact onInputBlur_singleton s active hs
  | typed text => exact menuSingleton_of_fields s _ hs rfl rfl

/-- C29: starting with no shared menu, after any number of discoveries, menu and rename events
and direct `ensureSharedContextMenu` calls in any order, at most one menu has been created and
appended; none has while `_sharedContextMenu` is unset; and a call of
`ensureSharedContextMenu` then leaves exactly one menu created and returns that one. -/
theorem sharedContextMenu_singleton (uses : List MenuUse) (groups : List GroupNode) :
    (exampleApp groups).menusCreated = 0 ∧
    sharedMenuInstance (exampleApp groups) = none ∧
    (uses.foldl menuUseStep (exampleApp groups)).menusCreated ≤ 1 ∧
    ((uses.foldl menuUseStep (exampleApp groups)).sharedContextMenu = false →
      (uses.foldl menuUseStep (exampleApp groups)).menusCreated = 0) ∧
    (ensureSharedContextMenu (uses.foldl menuUseStep (exampleApp groups))).menusCreated = 1 ∧
    sharedMenuInstance (ensureSharedContextMenu (uses.foldl menuUseStep (exampleApp groups))) =
      some 1 ∧
    ((uses.foldl menuUseStep (exampleApp groups)).sharedContextMenu = true →
      sharedMenuInstance (uses.foldl menuUseStep (exampleApp groups)) = some 1) := by
  have hfold : ∀ (uses : List MenuUse) (s : App), menuSingleton s →
      menuSingleton (uses.foldl menuUseStep s) := by
    intro uses
    induction uses with
    | nil => intro s hs; exact hs
    | cons u rest ih =>
      intro s hs
      rw [List.foldl_cons]
      apply ih
      cases u with
      | event e => exact appStep_singleton s e hs
      | ensure => exact (ensureSharedContextMenu_singleton s hs).1
  have hinv := hfold uses (exampleApp groups) (Or.inl ⟨rfl, rfl⟩)
  obtain ⟨_, he1, he2⟩ := ensureSharedContextMenu_singleton _ hinv
  refine ⟨rfl, rfl, ?_, ?_, he2, ?_, ?_⟩
  · rcases hinv with ⟨_, h⟩ | ⟨_, h⟩ <;> omega
  · intro hf
    rcases hinv with ⟨_, h⟩ | ⟨ht, _⟩
    · exact h
    · rw [hf] at ht
      cases ht
  · simp [sharedMenuInstance, he1, he2]
  · intro ht
    rcases hinv with ⟨hf, _⟩ | ⟨_, h⟩
    · rw [ht] at hf
      cases hf
    · simp [sharedMenuInstance, ht, h]

theorem sharedContextMenu_singleton_witness :
    ([MenuUse.ensure, .event (.discovery .existing), .ensure,
        .event (.discovery (.created (some 1)))].foldl menuUseStep
      (exampleApp [exampleNode, exampleNode])).menusCreated = 1 ∧
    ([MenuUse.event (.discovery (.direct 0))].foldl menuUseStep
      (exampleApp [{ exampleNode with hasLabelContainer := false }])).menusCreated = 0 :=
  ⟨Nat.le_antisymm
      (sharedContextMenu_singleton
        [.ensure, .event (.discovery .existing), .ensure,
          .event (.discovery (.created (some 1)))] [exampleNode, exampleNode]).2.2.1
      (by decide),
   (sharedContextMenu_singleton [.event (.discovery (.direct 0))]
      [{ exampleNode with hasLabelContainer := false }]).2.2.2.1 (by decide)⟩

/-! ## The theme-picker override -/

theorem override_ne (original : Hook) : Hook.override original ≠ original := by
  induction original with
  | host tag => intro h; cases h
  | override inner ih =>
    intro h
    injection h with h
    exact ih h

theorem getElem?_modifyAt {α : Type} (f : α → α) (l : List α) (i j : Nat) :
    (modifyAt f i l)[j]? = if i = j then l[j]?.map f else l[j]? := by
  induction l generalizing i j with
  | nil => cases i <;> simp [modifyAt]
  | cons a rest ih =>
    cases i with
    | zero =>
      cases j with
      | zero => simp [modifyAt]
      | succ j => simp [modifyAt]
    | succ i =>
      cases j with
      | zero => simp [modifyAt]
      | succ j => simp [modifyAt, ih]

theorem applyFinalColor_picker (env : PickerEnv) (w done : PickerWorld)
    (h : applyFinalColor env w = .ok done) : done.picker = w.picker := by
  unfold applyFinalColor at h
  split at h
  · cases h
  · split at h
    · split at h
      · cases hg : env.getGradient (dotSamples w.picker.panelDots) with
        | error e =>
          rw [hg] at h
          cases h
        | ok gradient =>
          rw [hg] at h
          cases h
          rfl
      · cases h
        rfl
    · cases h
      rfl

theorem clearDotColors_fields (p : ThemePicker) :
    (clearDotColors p).updateCurrentWorkspace = p.updateCurrentWorkspace ∧
    (clearDotColors p).onWorkspaceChange = p.onWorkspaceChange ∧
    (clearDotColors p).currentTabGroup = p.currentTabGroup ∧
    (clearDotColors p).tabGroupForColorPicker = p.tabGroupForColorPicker ∧
    (clearDotColors p).closeListeners = p.closeListeners := by
  unfold clearDotColors
  split <;> exact ⟨rfl, rfl, rfl, rfl, rfl⟩

theorem handlePanelClose_fields (env : PickerEnv) (handler : CloseHandler) (w : PickerWorld) :
    (handlePanelClose env handler w).picker.updateCurrentWorkspace =
      handler.originalUpdateMethod ∧
    (handlePanelClose env handler w).picker.onWorkspaceChange =
      handler.originalOnWorkspaceChange ∧
    (handlePanelClose env handler w).picker.currentTabGroup = none ∧
    (handlePanelClose env handler w).picker.tabGroupForColorPicker = none := by
  unfold handlePanelClose
  split
  · obtain ⟨h1, h2, h3, h4, _⟩ := clearDotColors_fields (cleanUp handler ‹PickerWorld›.picker)
    exact ⟨h1, h2, h3, h4⟩
  · exact ⟨rfl, rfl, rfl, rfl⟩

theorem popupHidden_last (env : PickerEnv) (w : PickerWorld) (earlier : List CloseHandler)
    (handler : CloseHandler) (hl : w.picker.closeListeners = earlier ++ [handler]) :
    popupHidden env w =
      handlePanelClose env handler
        (earlier.foldl (fun state handler => handlePanelClose env handler state) w) := by
  unfold popupHidden
  rw [hl, List.foldl_append]
  rfl

theorem setGroupColor_registered (env : PickerEnv) (w : PickerWorld) (group : Nat)
    (hns : env.nsZenThemePicker = true) (hbutton : env.hasToolbarButton = true)
    (hclick : env.clickThrows = false) (hpanel : w.picker.hasPanel = true) :
    (_setGroupColor env w group).picker.updateCurrentWorkspace =
      .override w.picker.updateCurrentWorkspace ∧
    (_setGroupColor env w group).picker.onWorkspaceChange =
      .override w.picker.onWorkspaceChange ∧
    (_setGroupColor env w group).picker.currentTabGroup = some group ∧
    (_setGroupColor env w group).picker.tabGroupForColorPicker = some group ∧
    (_setGroupColor env w group).picker.hasPanel = true ∧
    (_setGroupColor env w group).picker.closeListeners =
      w.picker.closeListeners ++
        [{ originalUpdateMethod := w.picker.updateCurrentWorkspace
           originalOnWorkspaceChange := w.picker.onWorkspaceChange }] := by
  simp [_setGroupColor, hns, hbutton, hclick, hpanel, installOverrides, addCloseListener]

theorem callUpdateCurrentWorkspace_forward (env : PickerEnv) (original : Hook)
    (skipSave : JsValue) (w : PickerWorld) (hnone : currentGroup w.picker = none) :
    callUpdateCurrentWorkspace env (.override original) skipSave w =
      callUpdateCurrentWorkspace env original (orDefault skipSave (.bool true))
        (recordCall (.override original) [skipSave] w) := by
  rw [callUpdateCurrentWorkspace, hnone]

theorem callOnWorkspaceChange_forward (env : PickerEnv) (original : Hook)
    (workspace skipUpdate theme : JsValue) (w : PickerWorld)
    (hnone : currentGroup w.picker = none) :
    callOnWorkspaceChange env (.override original) workspace skipUpdate theme w =
      callOnWorkspaceChange env original workspace (orDefault skipUpdate (.bool false))
        (orDefault theme .null)
        (recordCall (.override original) [workspace, skipUpdate, theme] w) := by
  rw [callOnWorkspaceChange, hnone]

/-- C21: when `group._setGroupColor` ran to its end (the picker and its toolbar button exist,
the click does not throw, the picker has a panel), both hooks are overrides of the functions
found before the call; and in whatever state the panel then fires `popuphidden` with the
listeners as the call left them, afterwards both hooks are the functions found before the
call and `_currentTabGroup` and `_tabGroupForColorPicker` are deleted, also when the picker
has lost its panel or `getGradient` throws in the close handler. -/
theorem setGroupColor_restored_on_close (env closing : PickerEnv) (w later : PickerWorld)
    (group : Nat)
    (hns : env.nsZenThemePicker = true) (hbutton : env.hasToolbarButton = true)
    (hclick : env.clickThrows = false) (hpanel : w.picker.hasPanel = true)
    (hlater : later.picker.closeListeners = (_setGroupColor env w group).picker.closeListeners) :
    (_setGroupColor env w group).picker.updateCurrentWorkspace =
      .override w.picker.updateCurrentWorkspace ∧
    (_setGroupColor env w group).picker.onWorkspaceChange =
      .override w.picker.onWorkspaceChange ∧
    (popupHidden closing later).picker.updateCurrentWorkspace =
      w.picker.updateCurrentWorkspace ∧
    (popupHidden closing later).picker.onWorkspaceChange = w.picker.onWorkspaceChange ∧
    (popupHidden closing later).picker.currentTabGroup = none ∧
    (popupHidden closing later).picker.tabGroupForColorPicker = none := by
  obtain ⟨h1, h2, _, _, _, h6⟩ := setGroupColor_registered env w group hns hbutton hclick hpanel
  rw [h6] at hlater
  rw [popupHidden_last closing later _ _ hlater]
  exact ⟨h1, h2, handlePanelClose_fields closing _ _⟩

theorem setGroupColor_restored_on_close_witness :
    (popupHidden throwingPickerEnv
        (_setGroupColor examplePickerEnv examplePickerWorld 0)).picker.updateCurrentWorkspace =
      .host 0 ∧
    (popupHidden examplePickerEnv
        { _setGroupColor examplePickerEnv examplePickerWorld 1 with
          picker :=
            { (_setGroupColor examplePickerEnv examplePickerWorld 1).picker with
              hasPanel := false } }).picker.onWorkspaceChange = .host 1 :=
  ⟨(setGroupColor_restored_on_close examplePickerEnv throwingPickerEnv examplePickerWorld
      (_setGroupColor examplePickerEnv examplePickerWorld 0) 0 rfl rfl rfl rfl rfl).2.2.1,
   (setGroupColor_restored_on_close examplePickerEnv examplePickerEnv examplePickerWorld
      { _setGroupColor examplePickerEnv examplePickerWorld 1 with
        picker :=
          { (_setGroupColor examplePickerEnv examplePickerWorld 1).picker with
            hasPanel := false } } 1 rfl rfl rfl rfl rfl).2.2.2.1⟩

theorem setGroupColor_failed (env : PickerEnv) (w : PickerWorld) (group : Nat)
    (hns : env.nsZenThemePicker = true) (hbutton : env.hasToolbarButton = true)
    (hthrow : env.clickThrows = true ∨ w.picker.hasPanel = false) :
    (_setGroupColor env w group).picker =
      installOverrides group { w.picker with currentTabGroup := some group } := by
  have hlast : ∀ (x : PickerWorld), (openPanelLastResort x).picker = x.picker := by
    intro x
    unfold openPanelLastResort
    split <;> rfl
  unfold _setGroupColor
  rw [if_pos hns, if_pos hbutton]
  rcases hthrow with hclick | hpanel
  · simp only [hclick, if_true]
    exact hlast _
  · cases hclick : env.clickThrows
    · simp only [installOverrides, hpanel, if_true, Bool.false_eq_true, if_false]
      exact hlast _
    · simp only [if_true]
      exact hlast _

/-- C22: when an error is thrown in `group._setGroupColor` after the hooks were replaced
(`existingButton.click ()` throws, or the picker has no panel so that
`panel.addEventListener` throws), the `catch` does not put the hooks back: both slots still
hold the overrides, which are not the functions found before the call, both references still
name the group, no close listener was registered, and a later `popuphidden` on a picker
without earlier listeners changes nothing. -/
theorem setGroupColor_error_leaves_overrides (env closing : PickerEnv) (w : PickerWorld)
    (group : Nat)
    (hns : env.nsZenThemePicker = true) (hbutton : env.hasToolbarButton = true)
    (hthrow : env.clickThrows = true ∨ w.picker.hasPanel = false) :
    (_setGroupColor env w group).picker.updateCurrentWorkspace =
      .override w.picker.updateCurrentWorkspace ∧
    (_setGroupColor env w group).picker.updateCurrentWorkspace ≠
      w.picker.updateCurrentWorkspace ∧
    (_setGroupColor env w group).picker.onWorkspaceChange =
      .override w.picker.onWorkspaceChange ∧
    (_setGroupColor env w group).picker.onWorkspaceChange ≠ w.picker.onWorkspaceChange ∧
    (_setGroupColor env w group).picker.currentTabGroup = some group ∧
    (_setGroupColor env w group).picker.tabGroupForColorPicker = some group ∧
    (_setGroupColor env w group).picker.closeListeners = w.picker.closeListeners ∧
    (w.picker.closeListeners = [] →
      popupHidden closing (_setGroupColor env w group) = _setGroupColor env w group) := by
  have hp := setGroupColor_failed env w group hns hbutton hthrow
  refine ⟨by rw [hp]; rfl, ?_, by rw [hp]; rfl, ?_, by rw [hp]; rfl, by rw [hp]; rfl,
    by rw [hp]; rfl, ?_⟩
  · rw [hp]
    exact override_ne _
  · rw [hp]
    exact override_ne _
  · intro hnil
    unfold popupHidden
    rw [hp]
    simp only [installOverrides, hnil, List.foldl_nil]

theorem setGroupColor_error_leaves_overrides_witness :
    (_setGroupColor examplePickerEnv
        { examplePickerWorld with picker := { examplePicker with hasPanel := false } }
        0).picker.updateCurrentWorkspace = .override (.host 0) ∧
    (_setGroupColor { examplePickerEnv with clickThrows := true } examplePickerWorld
        1).picker.onWorkspaceChange = .override (.host 1) :=
  ⟨(setGroupColor_error_leaves_overrides examplePickerEnv examplePickerEnv
      { examplePickerWorld with picker := { examplePicker with hasPanel := false } } 0
      rfl rfl (Or.inr rfl)).1,
   (setGroupColor_error_leaves_overrides { examplePickerEnv with clickThrows := true }
      examplePickerEnv examplePickerWorld 1 rfl rfl (Or.inl rfl)).2.2.1⟩

/-- C23: on the error path of `handlePanelClose` (the picker has no panel, or `getGradient`
throws while a current tab group and a coloured dot exist) the `catch` restores the hooks but
removes no `--zen-theme-picker-dot-color`: every dot element is as it was, so the coloured
dots stay coloured. On the path without an error the elements of the example picker are
cleared. -/
theorem handlePanelClose_error_keeps_dot_colors (env : PickerEnv) (handler : CloseHandler)
    (w : PickerWorld) (g : Nat) (e : JsError)
    (hcause : w.picker.hasPanel = false ∨
      (dotSamples w.picker.panelDots ≠ [] ∧ currentGroup w.picker = some g ∧
        env.getGradient (dotSamples w.picker.panelDots) = .error e)) :
    (handlePanelClose env handler w).picker.panelDots = w.picker.panelDots ∧
    (handlePanelClose env handler w).picker.updateCurrentWorkspace =
      handler.originalUpdateMethod ∧
    ((handlePanelClose throwingPickerEnv ⟨.host 0, .host 1⟩
        (_setGroupColor examplePickerEnv examplePickerWorld 0)).picker.panelDots.map
      (fun dot => dot.color) = ["rgb(10, 20, 30)", "#a0b0c0"]) ∧
    ((handlePanelClose examplePickerEnv ⟨.host 0, .host 1⟩
        (_setGroupColor examplePickerEnv examplePickerWorld 0)).picker.panelDots.map
      (fun dot => dot.color) = ["", ""]) := by
  have herr : ∃ err, applyFinalColor env w = .error err := by
    unfold applyFinalColor
    cases hpanel : w.picker.hasPanel with
    | false => exact ⟨.typeError, by simp⟩
    | true =>
      rcases hcause with hno | ⟨hcolors, hgroup, hthrow⟩
      · rw [hpanel] at hno
        cases hno
      · refine ⟨e, ?_⟩
        have hlen : (dotSamples w.picker.panelDots).length > 0 :=
          List.length_pos.mpr hcolors
        simp only [Bool.true_eq_false, if_false, hlen, if_true, hgroup, hthrow]
        rfl
  obtain ⟨err, herr⟩ := herr
  refine ⟨?_, (handlePanelClose_fields env handler w).1, by decide, by decide⟩
  unfold handlePanelClose
  rw [herr]
  rfl

theorem handlePanelClose_error_keeps_dot_colors_witness :
    (handlePanelClose throwingPickerEnv ⟨.host 0, .host 1⟩
        (_setGroupColor examplePickerEnv examplePickerWorld 0)).picker.panelDots =
      examplePicker.panelDots :=
  (handlePanelClose_error_keeps_dot_colors throwingPickerEnv ⟨.host 0, .host 1⟩
    (_setGroupColor examplePickerEnv examplePickerWorld 0) 0 .typeError
    (Or.inr ⟨by decide, rfl, rfl⟩)).1

/-- C24: when `group._setGroupColor` runs for a group `a` and again for a group `b` before the
panel closes, the second close handler captured the overrides of the first session; after
`popuphidden` was handled by both handlers, in registration order, both slots hold the
overrides of the first session and not the functions found before the first call. The
references are deleted, so the override left behind hands every later call on to the
function it captured. -/
theorem overlapping_sessions_leave_override (env closing : PickerEnv) (w : PickerWorld)
    (a b : Nat)
    (hns : env.nsZenThemePicker = true) (hbutton : env.hasToolbarButton = true)
    (hclick : env.clickThrows = false) (hpanel : w.picker.hasPanel = true) :
    (popupHidden closing
        (_setGroupColor env (_setGroupColor env w a) b)).picker.updateCurrentWorkspace =
      .override w.picker.updateCurrentWorkspace ∧
    (popupHidden closing
        (_setGroupColor env (_setGroupColor env w a) b)).picker.updateCurrentWorkspace ≠
      w.picker.updateCurrentWorkspace ∧
    (popupHidden closing
        (_setGroupColor env (_setGroupColor env w a) b)).picker.onWorkspaceChange =
      .override w.picker.onWorkspaceChange ∧
    (popupHidden closing
        (_setGroupColor env (_setGroupColor env w a) b)).picker.onWorkspaceChange ≠
      w.picker.onWorkspaceChange ∧
    currentGroup (popupHidden closing (_setGroupColor env (_setGroupColor env w a) b)).picker =
      none ∧
    (∀ (skipSave : JsValue),
      callUpdateCurrentWorkspace closing (.override w.picker.updateCurrentWorkspace) skipSave
          (popupHidden closing (_setGroupColor env (_setGroupColor env w a) b)) =
        callUpdateCurrentWorkspace closing w.picker.updateCurrentWorkspace
          (orDefault skipSave (.bool true))
          (recordCall (.override w.picker.updateCurrentWorkspace) [skipSave]
            (popupHidden closing (_setGroupColor env (_setGroupColor env w a) b)))) ∧
    (popupHidden examplePickerEnv
        (_setGroupColor examplePickerEnv (_setGroupColor examplePickerEnv examplePickerWorld 0)
          1)).picker.closeListeners = [] := by
  obtain ⟨h1, h2, _, _, h5, _⟩ := setGroupColor_registered env w a hns hbutton hclick hpanel
  obtain ⟨_, _, _, _, _, k6⟩ :=
    setGroupColor_registered env (_setGroupColor env w a) b hns hbutton hclick h5
  obtain ⟨f1, f2, f3, f4⟩ :=
    handlePanelClose_fields closing
      { originalUpdateMethod := (_setGroupColor env w a).picker.updateCurrentWorkspace
        originalOnWorkspaceChange := (_setGroupColor env w a).picker.onWorkspaceChange }
      ((_setGroupColor env w a).picker.closeListeners.foldl
        (fun state handler => handlePanelClose closing handler state)
        (_setGroupColor env (_setGroupColor env w a) b))
  rw [← popupHidden_last closing _ _ _ k6] at f1 f2 f3 f4
  have hgroup :
      currentGroup
        (popupHidden closing (_setGroupColor env (_setGroupColor env w a) b)).picker = none := by
    unfold currentGroup
    rw [f3, f4]
  refine ⟨by rw [f1, h1], ?_, by rw [f2, h2], ?_, hgroup, ?_, by decide⟩
  · rw [f1, h1]
    exact override_ne _
  · rw [f2, h2]
    exact override_ne _
  · intro skipSave
    exact callUpdateCurrentWorkspace_forward closing _ skipSave _ hgroup

theorem overlapping_sessions_leave_override_witness :
    (popupHidden examplePickerEnv
        (_setGroupColor examplePickerEnv (_setGroupColor examplePickerEnv examplePickerWorld 0)
          1)).picker.updateCurrentWorkspace = .override (.host 0) ∧
    (popupHidden throwingPickerEnv
        (_setGroupColor examplePickerEnv (_setGroupColor examplePickerEnv examplePickerWorld 0)
          1)).picker.onWorkspaceChange = .override (.host 1) :=
  ⟨(overlapping_sessions_leave_override examplePickerEnv examplePickerEnv examplePickerWorld
      0 1 rfl rfl rfl rfl).1,
   (overlapping_sessions_leave_override examplePickerEnv throwingPickerEnv examplePickerWorld
      0 1 rfl rfl rfl rfl).2.2.1⟩

theorem applyDotColors_calls (env : PickerEnv) (g : Nat) (w : PickerWorld) :
    (applyDotColors env g w).calls = w.calls := by
  unfold applyDotColors
  split
  · rfl
  · split
    · split <;> rfl
    · rfl

theorem dotSamples_ne_nil (elements : List Dot) (dot : Dot) (hmem : dot ∈ elements)
    (hcolor : dot.color ≠ "") (hdefined : dot.color ≠ "undefined") :
    dotSamples elements ≠ [] := by
  intro hnil
  have hin : ({ c := rgbOf dot.color, isPrimary := dot.isPrimary, type := dot.type } :
      DotSample) ∈ dotSamples elements := by
    unfold dotSamples
    rw [List.mem_filterMap]
    refine ⟨dot, hmem, ?_⟩
    unfold dotSample
    rw [if_neg]
    intro h
    rcases h with h | h
    · exact hcolor h
    · exact hdefined h
  rw [hnil] at hin
  cases hin

/-- C25: while an override installed by `group._setGroupColor` sits in a slot, with `original`
the function it captured. If the picker has a current tab group `g`
(`_currentTabGroup || _tabGroupForColorPicker`), a call of either override returns
`undefined` and invokes no other hook (the record of invocations grows by the override
alone), and when the picker has its panel, at least one dot has a colour and `getGradient`
returns `gradient`, `updateCurrentWorkspace` leaves `--tab-group-color` and
`--tab-group-color-invert` of group `g` equal to `gradient`. If the picker has no current tab
group, each override is a call of `original` with its own parameters, after the defaults
`skipSave = true`, `skipUpdate = false`, `theme = null` replaced an `undefined` one, and
returns what `original` returns. -/
theorem override_redirects_or_forwards (env : PickerEnv) (original : Hook)
    (skipSave workspace skipUpdate theme : JsValue) (w : PickerWorld) :
    (∀ (g : Nat), currentGroup w.picker = some g →
      (callUpdateCurrentWorkspace env (.override original) skipSave w).1 = .ok .undefined ∧
      (callUpdateCurrentWorkspace env (.override original) skipSave w).2.calls =
        w.calls ++ [{ hook := .override original, args := [skipSave] }] ∧
      callOnWorkspaceChange env (.override original) workspace skipUpdate theme w =
        (.ok .undefined,
          { w with
            calls :=
              w.calls ++
                [{ hook := .override original, args := [workspace, skipUpdate, theme] }] }) ∧
      (∀ (gradient : String) (dot : Dot) (group : TabGroup),
        w.picker.hasPanel = true → dot ∈ w.picker.panelDots → dot.color ≠ "" →
        dot.color ≠ "undefined" →
        env.getGradient (dotSamples w.picker.panelDots) = .ok gradient →
        w.groups[g]? = some group →
        (callUpdateCurrentWorkspace env (.override original) skipSave w).2.groups[g]? =
          some { group with tabGroupColor := gradient, tabGroupColorInvert := gradient })) ∧
    (currentGroup w.picker = none →
      callUpdateCurrentWorkspace env (.override original) skipSave w =
        callUpdateCurrentWorkspace env original (orDefault skipSave (.bool true))
          (recordCall (.override original) [skipSave] w) ∧
      callOnWorkspaceChange env (.override original) workspace skipUpdate theme w =
        callOnWorkspaceChange env original workspace (orDefault skipUpdate (.bool false))
          (orDefault theme .null)
          (recordCall (.override original) [workspace, skipUpdate, theme] w) ∧
      (skipSave ≠ .undefined → orDefault skipSave (.bool true) = skipSave) ∧
      (skipUpdate ≠ .undefined → orDefault skipUpdate (.bool false) = skipUpdate) ∧
      (theme ≠ .undefined → orDefault theme .null = theme)) := by
  refine ⟨?_, ?_⟩
  · intro g hg
    refine ⟨?_, ?_, ?_, ?_⟩
    · rw [callUpdateCurrentWorkspace, hg]
    · rw [callUpdateCurrentWorkspace, hg]
      simp only [applyDotColors_calls]
      rfl
    · rw [callOnWorkspaceChange, hg]
      rfl
    · intro gradient dot group hpanel hmem hcolor hdefined hgradient hgroup
      have hne := dotSamples_ne_nil w.picker.panelDots dot hmem hcolor hdefined
      have hlen : (dotSamples w.picker.panelDots).length > 0 := List.length_pos.mpr hne
      rw [callUpdateCurrentWorkspace, hg]
      simp only [applyDotColors, recordCall, hpanel, Bool.true_eq_false, if_false, hlen,
        if_true, hgradient, applyGradient]
      rw [getElem?_modifyAt, if_pos rfl, hgroup]
      rfl
  · intro hnone
    refine ⟨callUpdateCurrentWorkspace_forward env original skipSave w hnone,
      callOnWorkspaceChange_forward env original workspace skipUpdate theme w hnone, ?_, ?_, ?_⟩
    · intro h
      unfold orDefault
      rw [if_neg h]
    · intro h
      unfold orDefault
      rw [if_neg h]
    · intro h
      unfold orDefault
      rw [if_neg h]

theorem override_redirects_or_forwards_witness :
    ((callUpdateCurrentWorkspace examplePickerEnv (.override (.host 0)) .undefined
        (_setGroupColor examplePickerEnv examplePickerWorld 1)).2.groups[1]? =
      some { exampleGroup with
        id := "g2"
        tabGroupColor := "linear-gradient(red, blue)"
        tabGroupColorInvert := "linear-gradient(red, blue)" }) ∧
    (callUpdateCurrentWorkspace examplePickerEnv (.override (.host 0)) (.bool false)
        examplePickerWorld).2.calls =
      [{ hook := .override (.host 0), args := [.bool false] },
       { hook := .host 0, args := [.bool false] }] :=
  ⟨((override_redirects_or_forwards examplePickerEnv (.host 0) .undefined .null .undefined
        .undefined (_setGroupColor examplePickerEnv examplePickerWorld 1)).1 1 rfl).2.2.2
      "linear-gradient(red, blue)"
      { color := "#a0b0c0", isPrimary := false, type := none }
      { exampleGroup with id := "g2", tabGroupColor := "green" }
      rfl (by decide) (by decide) (by decide) rfl rfl,
   by
    rw [((override_redirects_or_forwards examplePickerEnv (.host 0) (.bool false) .null
      .undefined .undefined examplePickerWorld).2 rfl).1]
    rfl⟩

end AdvancedTabGroups
